import Mathlib

/-!
Audio capture and recording pipeline: WAV muxing, writer loops, backend fallback.

A shallow embedding of the recorder classes of the Zoom bot implementations
(`audio_recorder.cpp`, `audio_capture_bot.cpp`, `hybrid_zoom_bot.cpp`,
`real_zoom_sdk_bot.cpp`, `zoom_sdk_bot.cpp`, `ubuntu_audio_bot.cpp`,
`zoom_bot.cpp`, `simple_bot.cpp`).

Conventions.
* A byte is a `Nat` below 256; a file is the list of its bytes.
* `uint32_t` values are `Nat` reduced `% 2^32`, `size_t` values `% 2^64`.
* An output stream is its byte content together with the put position;
  stream operations are assumed to succeed once the file is open.
* Outcomes of the operating system and of libraries (does the file open,
  what does `fork` return, ...) are explicit arguments.
-/

/-! ## Bytes, little-endian fields and output streams -/

/-- Modulus of `uint32_t`. -/
def U32 : Nat := 4294967296

/-- Modulus of `size_t` on the 64-bit targets of the bots. -/
def U64 : Nat := 18446744073709551616

/-- The two bytes of a 16-bit field, least significant first. -/
def le16 (n : Nat) : List Nat := [n % 256, n / 256 % 256]

/-- The four bytes of a 32-bit field, least significant first. -/
def le32 (n : Nat) : List Nat :=
  [n % 256, n / 256 % 256, n / 65536 % 256, n / 16777216 % 256]

/-- Value of a little-endian byte string. -/
def fromLE : List Nat → Nat
  | [] => 0
  | b :: bs => b + 256 * fromLE bs

/-- The 32-bit little-endian field stored at byte offset `off`. -/
def readLE32 (bytes : List Nat) (off : Nat) : Nat :=
  fromLE ((bytes.drop off).take 4)

/-- Content of a file after writing `data` at position `pos`: bytes are
overwritten in place, the file grows when the write passes its end (a gap
left by seeking past the end reads as zeros). -/
def writeAt (bytes : List Nat) (pos : Nat) (data : List Nat) : List Nat :=
  bytes.take pos ++ List.replicate (pos - bytes.length) 0 ++ data
    ++ bytes.drop (pos + data.length)

/-- An open `std::ofstream`: content of the file and the put position. -/
structure OFStream where
  bytes : List Nat
  pos : Nat
deriving DecidableEq, Repr

namespace OFStream

/-- A stream just opened with `std::ios::binary`: the file is truncated. -/
def opened : OFStream := { bytes := [], pos := 0 }

/-- Model of `file.write(p, n)`. -/
def write (f : OFStream) (data : List Nat) : OFStream :=
  { bytes := writeAt f.bytes f.pos data, pos := f.pos + data.length }

/-- Model of `file.seekp(p)`. -/
def seekp (f : OFStream) (p : Nat) : OFStream := { f with pos := p }

/-- Model of `file.seekp(0, std::ios::end)`. -/
def seekEnd (f : OFStream) : OFStream := { f with pos := f.bytes.length }

end OFStream

/-- The canonical 44-byte header of the bots (`struct WAVHeader`, which has
no padding): PCM, mono, 16 kHz, byte rate 32000, block align 2, 16 bits. -/
def wavHeaderBytes (fileSize dataSize : Nat) : List Nat :=
  [82, 73, 70, 70] ++ le32 fileSize ++ [87, 65, 86, 69] ++ [102, 109, 116, 32]
    ++ le32 16 ++ le16 1 ++ le16 1 ++ le32 16000 ++ le32 32000 ++ le16 2
    ++ le16 16 ++ [100, 97, 116, 97] ++ le32 dataSize

/-! ## hybrid_zoom_bot.cpp: `ZoomAudioRecorder` (header part) -/

namespace ZoomAudioRecorder

/-- Model of `ZoomAudioRecorder::writeWAVHeader`: thirteen consecutive writes. -/
def writeWAVHeader (file : OFStream) : OFStream :=
  let file := file.write [82, 73, 70, 70]
  let fileSize := 36
  let file := file.write (le32 fileSize)
  let file := file.write [87, 65, 86, 69]
  let file := file.write [102, 109, 116, 32]
  let fmtSize := 16
  let file := file.write (le32 fmtSize)
  let format := 1
  let file := file.write (le16 format)
  let channels := 1
  let file := file.write (le16 channels)
  let sampleRate := 16000
  let file := file.write (le32 sampleRate)
  let byteRate := sampleRate * channels * 2 % U32
  let file := file.write (le32 byteRate)
  let blockAlign := channels * 2 % 65536
  let file := file.write (le16 blockAlign)
  let bitsPerSample := 16
  let file := file.write (le16 bitsPerSample)
  let file := file.write [100, 97, 116, 97]
  let dataSize := 0
  file.write (le32 dataSize)

/-- Model of `ZoomAudioRecorder::updateWAVHeader(file, totalSamples)`. -/
def updateWAVHeader (file : OFStream) (totalSamples : Nat) : OFStream :=
  let audioDataSize := totalSamples * 2 % U32
  let fileSize := (36 + audioDataSize) % U32
  let file := file.seekp 4
  let file := file.write (le32 fileSize)
  let file := file.seekp 40
  file.write (le32 audioDataSize)

end ZoomAudioRecorder

/-! ## real_zoom_sdk_bot.cpp: `RealZoomAudioRecorder` (header part) -/

namespace RealZoomAudioRecorder

/-- Model of `RealZoomAudioRecorder::writeWAVHeader`: the header struct with
`fileSize = 36`, `dataSize = 0` written in one piece. -/
def writeWAVHeader (file : OFStream) : OFStream :=
  file.write (wavHeaderBytes 36 0)

/-- Model of `RealZoomAudioRecorder::updateWAVHeader(file, totalSamples)`. -/
def updateWAVHeader (file : OFStream) (totalSamples : Nat) : OFStream :=
  let audioDataSize := totalSamples * 2 % U32
  let fileSize := (36 + audioDataSize) % U32
  let file := file.seekp 4
  let file := file.write (le32 fileSize)
  let file := file.seekp 40
  file.write (le32 audioDataSize)

end RealZoomAudioRecorder

/-- The two bytes of an `int16_t` sample as stored in memory and in the file. -/
def int16Bytes (x : Int) : List Nat := le16 (x % 65536).toNat

/-- The `int16_t` value of a 16-bit pattern. -/
def toInt16 (u : Nat) : Int := if u % 65536 < 32768 then (u % 65536 : Nat) else (u % 65536 : Nat) - 65536

/-- Reading a byte buffer as `int16_t` samples (`reinterpret_cast<const int16_t*>`),
`len / 2` of them: a trailing odd byte belongs to no sample. -/
def bytesToInt16 : List Nat → List Int
  | lo :: hi :: rest => toInt16 (lo + 256 * hi) :: bytesToInt16 rest
  | _ => []

/-! ## real_zoom_sdk_bot.cpp: `RealZoomAudioRecorder` (callback and writer thread) -/

namespace RealZoomAudioRecorder

/-- What the SDK hands to the callback (`AudioRawData` getters). -/
structure AudioRawData where
  buffer : List Nat
  sampleRate : Nat
  channelNum : Nat
  timeStamp : Nat
deriving DecidableEq, Repr

/-- The `struct AudioFrame` of the file: `data` is a `std::vector<char>`. -/
structure AudioFrame where
  data : List Nat
  sample_rate : Nat
  channels : Nat
  timestamp : Nat
deriving DecidableEq, Repr

/-- Control point of the thread running `recordingLoop`. -/
inductive Pc where
  | notStarted
  | entry
  | loopHead
  | holding (frame : AudioFrame)
  | returned
deriving DecidableEq, Repr

/-- The members the callback and the writer share, and the locals of
`recordingLoop` (`audioFile`, `totalSamples`). -/
structure State where
  audioBuffer : List AudioFrame
  recording : Bool
  pc : Pc
  audioFile : Option OFStream
  totalSamples : Nat
deriving DecidableEq, Repr

/-- The recorder right after `startRecording` has stored `true` into the flag,
subscribed and created the thread: nothing queued, the thread not yet run. -/
def started : State :=
  { audioBuffer := [], recording := true, pc := Pc.entry, audioFile := none, totalSamples := 0 }

/-- The first statement of `onMixedAudioRawDataReceived(data_)`, line 209:
`if (!recording.load() || !data_) return;`, made before `bufferMutex` is
taken; `none` as argument is a null pointer. The result `none` is the return,
`some d` the data with which the call goes on. -/
def callbackTest (s : State) (data_ : Option AudioRawData) : Option AudioRawData :=
  if !s.recording then none
  else
    match data_ with
    | none => none
    | some d => some d

/-- The rest of `onMixedAudioRawDataReceived`, lines 211 to 223, under
`bufferMutex`: the frame is built from the data and pushed at the back of the
queue. The flag is not read again. -/
def callbackPush (s : State) (d : AudioRawData) : State :=
  let frame : AudioFrame :=
    { data := d.buffer, sample_rate := d.sampleRate, channels := d.channelNum,
      timestamp := d.timeStamp }
  { s with audioBuffer := s.audioBuffer ++ [frame] }

/-- A whole call of `onMixedAudioRawDataReceived(data_)` during which no other
thread takes a step: the test, then the push. The calls in which another
thread runs between the two are those of `act` below. -/
def onMixedAudioRawDataReceived (s : State) (data_ : Option AudioRawData) : State :=
  match callbackTest s data_ with
  | none => s
  | some d => callbackPush s d

/-- One step of the thread running `recordingLoop`. The steps are the pieces of
the function between two points where the callback can run: opening the file
and writing the header; one evaluation of the loop condition with, under the
lock, either the timed wait, or the pop of the front frame, or the exit with
`updateWAVHeader`; the write of the popped frame outside the lock. -/
def writerStep (fileOpens : Bool) (s : State) : State :=
  match s.pc with
  | Pc.notStarted => s
  | Pc.entry =>
    if !fileOpens then { s with pc := Pc.returned }
    else { s with audioFile := some (writeWAVHeader OFStream.opened), totalSamples := 0,
                  pc := Pc.loopHead }
  | Pc.loopHead =>
    if s.recording || !s.audioBuffer.isEmpty then
      match s.audioBuffer with
      | [] => s
      | frame :: rest => { s with audioBuffer := rest, pc := Pc.holding frame }
    else
      { s with audioFile := s.audioFile.map (fun f => updateWAVHeader f s.totalSamples),
               pc := Pc.returned }
  | Pc.holding frame =>
    { s with audioFile := s.audioFile.map (fun f => f.write frame.data),
             totalSamples := (s.totalSamples + frame.data.length / 2) % U32,
             pc := Pc.loopHead }
  | Pc.returned => s

/-- What can happen to a running recorder, in the schedules where every call
of the callback runs as a whole. -/
inductive Event where
  | callback (data_ : Option AudioRawData)
  | writer
  | clearFlag
deriving DecidableEq, Repr

/-- Effect of one event; `clearFlag` is the `recording.store(false)` of
`stopRecording`. -/
def step (fileOpens : Bool) (s : State) : Event → State
  | Event.callback d => onMixedAudioRawDataReceived s d
  | Event.writer => writerStep fileOpens s
  | Event.clearFlag => { s with recording := false }

/-- Effect of a schedule: the events in the order in which they take place. -/
def run (fileOpens : Bool) (s : State) (evs : List Event) : State :=
  evs.foldl (step fileOpens) s

/-- The bytes of the output file after the 44-byte header. -/
def pcmBytes (s : State) : List Nat :=
  match s.audioFile with
  | none => []
  | some f => f.bytes.drop 44

/-- The recorder together with the SDK thread that delivers the callbacks,
one call after the other: `callback` is `some d` while that thread is inside
`onMixedAudioRawDataReceived`, past the test of line 209 and not yet holding
the lock of line 211, with data `d`; it is `none` when the thread is not in
a call. -/
structure Threads where
  recorder : State
  callback : Option AudioRawData
deriving DecidableEq, Repr

/-- What can happen to a running recorder, a call of the callback being cut
where another thread can run: `test data_` is the SDK thread entering the
callback and making the test of line 209, `push` is the call in progress
taking the lock, pushing its frame and returning, `writer` is one step of the
thread running `recordingLoop`, `clearFlag` is the `recording.store(false)` of
`stopRecording`. -/
inductive Action where
  | test (data_ : Option AudioRawData)
  | push
  | writer
  | clearFlag
deriving DecidableEq, Repr

/-- Effect of one action. The SDK thread cannot enter the callback while it
is still in a call, and there is nothing to push when it is not in one: such
actions change nothing. -/
def act (fileOpens : Bool) (t : Threads) : Action → Threads
  | Action.test data_ =>
    match t.callback with
    | some _ => t
    | none => { t with callback := callbackTest t.recorder data_ }
  | Action.push =>
    match t.callback with
    | none => t
    | some d => { recorder := callbackPush t.recorder d, callback := none }
  | Action.writer => { t with recorder := writerStep fileOpens t.recorder }
  | Action.clearFlag => { t with recorder := { t.recorder with recording := false } }

/-- Effect of a schedule of actions, in the order in which they take place. -/
def exec (fileOpens : Bool) (t : Threads) (acts : List Action) : Threads :=
  acts.foldl (act fileOpens) t

/-- The recorder right after `startRecording`, the SDK thread not in a call. -/
def startedThreads : Threads := { recorder := started, callback := none }

/-- What is noted of an action that takes place in state `t`, for the record
of the callbacks delivered while the flag is true: the buffer of a call that
is entered and passes the test. -/
def accepted (t : Threads) : Action → List (List Nat)
  | Action.test (some d) =>
    if t.callback.isNone && t.recorder.recording then [d.buffer] else []
  | _ => []

/-- What is noted of an action for the record of the buffers pushed while the
flag is true. -/
def pushedWhileRecording (t : Threads) : Action → List (List Nat)
  | Action.push =>
    match t.callback with
    | none => []
    | some d => if t.recorder.recording then [d.buffer] else []
  | _ => []

/-- What is noted of an action for the record of the buffers pushed before
`recordingLoop` has left its loop. -/
def pushedBeforeReturn (t : Threads) : Action → List (List Nat)
  | Action.push =>
    match t.callback with
    | none => []
    | some d => if t.recorder.pc = Pc.returned then [] else [d.buffer]
  | _ => []

/-- The record of a schedule: what `note` gives for each action, in the state
in which the action takes place, in order. -/
def record (note : Threads → Action → List (List Nat)) (fileOpens : Bool) :
    Threads → List Action → List (List Nat)
  | _, [] => []
  | t, a :: later => note t a ++ record note fileOpens (act fileOpens t a) later

end RealZoomAudioRecorder

/-! ## zoom_sdk_bot.cpp: `ZoomSDKAudioRecorder` (writer thread)

The class has the same `AudioFrame`, callback, `writeWAVHeader`,
`updateWAVHeader` and `recordingLoop` as `RealZoomAudioRecorder`, text for
text; the types are shared. -/

namespace ZoomSDKAudioRecorder

/-- Model of `ZoomSDKAudioRecorder::writeWAVHeader`. -/
def writeWAVHeader (file : OFStream) : OFStream :=
  file.write (wavHeaderBytes 36 0)

/-- Model of `ZoomSDKAudioRecorder::updateWAVHeader(file, totalSamples)`. -/
def updateWAVHeader (file : OFStream) (totalSamples : Nat) : OFStream :=
  let audioDataSize := totalSamples * 2 % U32
  let fileSize := (36 + audioDataSize) % U32
  let file := file.seekp 4
  let file := file.write (le32 fileSize)
  let file := file.seekp 40
  file.write (le32 audioDataSize)

/-- One step of the thread running `ZoomSDKAudioRecorder::recordingLoop`, cut
as for `RealZoomAudioRecorder.writerStep`. -/
def writerStep (fileOpens : Bool) (s : RealZoomAudioRecorder.State) :
    RealZoomAudioRecorder.State :=
  match s.pc with
  | RealZoomAudioRecorder.Pc.notStarted => s
  | RealZoomAudioRecorder.Pc.entry =>
    if !fileOpens then { s with pc := RealZoomAudioRecorder.Pc.returned }
    else { s with audioFile := some (writeWAVHeader OFStream.opened), totalSamples := 0,
                  pc := RealZoomAudioRecorder.Pc.loopHead }
  | RealZoomAudioRecorder.Pc.loopHead =>
    if s.recording || !s.audioBuffer.isEmpty then
      match s.audioBuffer with
      | [] => s
      | frame :: rest =>
        { s with audioBuffer := rest, pc := RealZoomAudioRecorder.Pc.holding frame }
    else
      { s with audioFile := s.audioFile.map (fun f => updateWAVHeader f s.totalSamples),
               pc := RealZoomAudioRecorder.Pc.returned }
  | RealZoomAudioRecorder.Pc.holding frame =>
    { s with audioFile := s.audioFile.map (fun f => f.write frame.data),
             totalSamples := (s.totalSamples + frame.data.length / 2) % U32,
             pc := RealZoomAudioRecorder.Pc.loopHead }
  | RealZoomAudioRecorder.Pc.returned => s

end ZoomSDKAudioRecorder

/-! ## hybrid_zoom_bot.cpp: `ZoomAudioRecorder` (backends, callback, writer thread) -/

namespace ZoomAudioRecorder

/-- The C struct `AudioRawData` given to `audioCallback`; `data_len` is the
length of `audio_data`. -/
structure AudioRawData where
  audio_data : List Nat
  sample_rate : Nat
  channels : Nat
deriving DecidableEq, Repr

/-- The `struct AudioFrame` of the file: `data` is a `std::vector<int16_t>`. -/
structure AudioFrame where
  data : List Int
  sample_rate : Nat
  channels : Nat
  timestamp : Nat
deriving DecidableEq, Repr

/-- Control point of the thread running `recordingLoop`; `monitor` is the
loop that watches the parecord child. -/
inductive Pc where
  | notStarted
  | entry
  | monitor
  | loopHead
  | holding (frame : AudioFrame)
  | returned
deriving DecidableEq, Repr

/-- The members of the recorder, the statics of `generateRealtimeAudio`
(`timeOffset`; `synth` stands for the two speaker phases and the state of
`rand`) and the locals of `recordingLoop` (`audioFile`, `totalSamples`).
A function pointer is `true` when it is not null. -/
structure State (σ : Type) where
  audioBuffer : List AudioFrame
  recording : Bool
  threadStarted : Bool
  pulseRecordingPid : Int
  sdk_set_audio_callback : Bool
  sdk_start_audio_recording : Bool
  sdkSubscribed : Bool
  timeOffset : Nat
  synth : σ
  pc : Pc
  audioFile : Option OFStream
  totalSamples : Nat

/-- The recorder as its constructor leaves it. -/
def constructed {σ : Type} (g : σ) : State σ :=
  { audioBuffer := [], recording := false, threadStarted := false, pulseRecordingPid := 0,
    sdk_set_audio_callback := false, sdk_start_audio_recording := false,
    sdkSubscribed := false, timeOffset := 0, synth := g, pc := Pc.notStarted,
    audioFile := none, totalSamples := 0 }

/-- What the system answers during `startRecording`: the exit status of the
two `system("pactl ...")` calls that decide `setupPulseAudio`, the value of
`fork()`, the value of `waitpid(pid, &status, WNOHANG)` one second later, and
the value of `sdk_start_audio_recording()`. -/
structure StartEnv where
  pactlInfo : Int
  loadNullSink : Int
  fork : Int
  waitpid : Int
  sdkStart : Nat
deriving DecidableEq, Repr

/-- Model of `setupPulseAudio`. -/
def setupPulseAudio (env : StartEnv) : Bool :=
  if env.pactlInfo != 0 then false
  else if env.loadNullSink == 0 then true
  else false

/-- Model of `startPulseRecording`. In the child (`fork() == 0`) the function
never returns: the process becomes parecord or exits; that is `none`. -/
def startPulseRecording {σ : Type} (s : State σ) (env : StartEnv) : Option (Bool × State σ) :=
  let s := { s with pulseRecordingPid := env.fork }
  if s.pulseRecordingPid == 0 then none
  else if s.pulseRecordingPid > 0 then
    let result := env.waitpid
    if result == 0 then some (true, s)
    else some (false, { s with pulseRecordingPid := 0 })
  else some (false, s)

/-- The part of `startRecording` after the PulseAudio attempt: the SDK
functions when both pointers are set, the simulation otherwise, then the
creation of the recording thread. -/
def startSdkOrFallback {σ : Type} (s : State σ) (env : StartEnv) : Bool × State σ :=
  if s.sdk_set_audio_callback && s.sdk_start_audio_recording then
    let s := { s with sdkSubscribed := true }
    let result := env.sdkStart
    if result != 0 then (false, { s with recording := false })
    else (true, { s with threadStarted := true, pc := Pc.entry })
  else (true, { s with threadStarted := true, pc := Pc.entry })

/-- Model of `ZoomAudioRecorder::startRecording`. -/
def startRecording {σ : Type} (s : State σ) (env : StartEnv) : Option (Bool × State σ) :=
  if s.recording then some (false, s)
  else
    let s := { s with recording := true }
    if setupPulseAudio env then
      match startPulseRecording s env with
      | none => none
      | some (pulseStarted, s) =>
        if pulseStarted then some (true, s)
        else some (startSdkOrFallback s env)
    else some (startSdkOrFallback s env)

/-- Model of a whole call of `processAudioData` during which no other thread
takes a step (the source tests the flag before it takes `bufferMutex`); `now`
is the clock reading. -/
def processAudioData {σ : Type} (s : State σ) (audioData : AudioRawData) (now : Nat) : State σ :=
  if !s.recording then s
  else
    let frame : AudioFrame :=
      { data := bytesToInt16 audioData.audio_data, sample_rate := audioData.sample_rate,
        channels := audioData.channels, timestamp := now }
    { s with audioBuffer := s.audioBuffer ++ [frame] }

/-- The `for` loop of `generateRealtimeAudio`, `n` iterations from index `i`.
The floating-point synthesis of one sample is the argument `sample`: from the
sample index `timeOffset + i` and the hidden state (phases, `rand`) it gives
the `int16_t` written and the next hidden state. -/
def generateLoop {σ : Type} (sample : Nat → σ → Int × σ) (timeOffset : Nat) :
    Nat → Nat → σ → OFStream → Nat → σ × OFStream × Nat
  | 0, _, g, audioFile, totalSamples => (g, audioFile, totalSamples)
  | n + 1, i, g, audioFile, totalSamples =>
    let r := sample ((timeOffset + i) % U32) g
    generateLoop sample timeOffset n (i + 1) r.2 (audioFile.write (int16Bytes r.1))
      ((totalSamples + 1) % U32)

/-- Number of samples per chunk: `sampleRate / 10` with `sampleRate = 16000`. -/
def samplesPerChunk : Nat := 16000 / 10

/-- Model of `generateRealtimeAudio(audioFile, totalSamples)` on the state. -/
def generateRealtimeAudio {σ : Type} (sample : Nat → σ → Int × σ) (s : State σ) : State σ :=
  match s.audioFile with
  | none => s
  | some audioFile =>
    let r := generateLoop sample s.timeOffset samplesPerChunk 0 s.synth audioFile s.totalSamples
    { s with synth := r.1, audioFile := some r.2.1, totalSamples := r.2.2,
             timeOffset := (s.timeOffset + samplesPerChunk) % U32 }

/-- The sample-by-sample write of a popped frame. -/
def writeFrame (audioFile : OFStream) (totalSamples : Nat) : List Int → OFStream × Nat
  | [] => (audioFile, totalSamples)
  | x :: rest => writeFrame (audioFile.write (int16Bytes x)) ((totalSamples + 1) % U32) rest

/-- One step of the thread running `recordingLoop`; `fileOpens` and `waitpid`
are the answers of the system where the step asks for them. The steps are
cut as for `RealZoomAudioRecorder.writerStep`; the wait on an empty queue is
followed, in the same step, by `generateRealtimeAudio` when its guard holds. -/
def writerStep {σ : Type} (sample : Nat → σ → Int × σ) (fileOpens : Bool) (waitpid : Int)
    (s : State σ) : State σ :=
  match s.pc with
  | Pc.notStarted => s
  | Pc.entry =>
    if s.pulseRecordingPid > 0 then { s with pc := Pc.monitor }
    else if !fileOpens then { s with pc := Pc.returned }
    else { s with audioFile := some (writeWAVHeader OFStream.opened), totalSamples := 0,
                  pc := Pc.loopHead }
  | Pc.monitor =>
    if s.recording then
      if waitpid > 0 then { s with pc := Pc.returned } else s
    else { s with pc := Pc.returned }
  | Pc.loopHead =>
    if s.recording || !s.audioBuffer.isEmpty then
      match s.audioBuffer with
      | [] =>
        if !s.sdk_start_audio_recording && s.pulseRecordingPid == 0 then
          generateRealtimeAudio sample s
        else s
      | frame :: rest => { s with audioBuffer := rest, pc := Pc.holding frame }
    else
      { s with audioFile := s.audioFile.map (fun f => updateWAVHeader f s.totalSamples),
               pc := Pc.returned }
  | Pc.holding frame =>
    match s.audioFile with
    | none => { s with pc := Pc.loopHead }
    | some f =>
      let r := writeFrame f s.totalSamples frame.data
      { s with audioFile := some r.1, totalSamples := r.2, pc := Pc.loopHead }
  | Pc.returned => s

/-- The writer thread run `n` steps in a row, with no other event in between. -/
def writerSteps {σ : Type} (sample : Nat → σ → Int × σ) (fileOpens : Bool) (waitpid : Int) :
    Nat → State σ → State σ
  | 0, s => s
  | n + 1, s => writerSteps sample fileOpens waitpid n (writerStep sample fileOpens waitpid s)

end ZoomAudioRecorder

/-! ## audio_recorder.cpp: `AudioRecorder` -/

/-- The two size fields of `struct WAVHeader` (audio_recorder.h); the other
fields keep their initial values, those of `wavHeaderBytes`. -/
structure WAVHeader where
  fileSize : Nat
  dataSize : Nat
deriving DecidableEq, Repr

/-- The bytes of a `WAVHeader` in memory: `sizeof(WAVHeader)` is 44. -/
def WAVHeader.toBytes (h : WAVHeader) : List Nat := wavHeaderBytes h.fileSize h.dataSize

/-- The `std::ofstream` behind `audioFile_`: whether it is open, and its put
position in the file. -/
structure FileHandle where
  isOpen : Bool
  pos : Nat
deriving DecidableEq, Repr

/-- State of an `AudioRecorder`: its members, and `disk`, the content of the
file at `outputPath_`. `audioFile_ = none` is the null `unique_ptr`. -/
structure AudioRecorder where
  disk : List Nat
  audioFile_ : Option FileHandle
  header_ : WAVHeader
  totalDataSize_ : Nat
  isRecording_ : Bool
deriving DecidableEq, Repr

namespace AudioRecorder

/-- The recorder as its constructor leaves it, the file holding `disk`. -/
def constructed (disk : List Nat) : AudioRecorder :=
  { disk := disk, audioFile_ := none, header_ := { fileSize := 0, dataSize := 0 },
    totalDataSize_ := 0, isRecording_ := false }

/-- Model of `audioFile_->write(p, n)`: nothing is written through a stream
that is not open. -/
def fileWrite (s : AudioRecorder) (data : List Nat) : AudioRecorder :=
  match s.audioFile_ with
  | none => s
  | some h =>
    if h.isOpen then
      { s with disk := writeAt s.disk h.pos data,
               audioFile_ := some { h with pos := h.pos + data.length } }
    else s

/-- Model of `audioFile_->seekp(p)`. -/
def fileSeek (s : AudioRecorder) (p : Nat) : AudioRecorder :=
  match s.audioFile_ with
  | none => s
  | some h => if h.isOpen then { s with audioFile_ := some { h with pos := p } } else s

/-- The value stored into `header_.fileSize`: `sizeof(WAVHeader) - 8 +
totalDataSize_` computed in `size_t`, then cut to `uint32_t`. -/
def fileSizeField (totalDataSize : Nat) : Nat := (44 - 8 + totalDataSize) % U64 % U32

/-- The value stored into `header_.dataSize`: `totalDataSize_` cut to `uint32_t`. -/
def dataSizeField (totalDataSize : Nat) : Nat := totalDataSize % U32

/-- Model of `AudioRecorder::writeWAVHeader`. -/
def writeWAVHeader (s : AudioRecorder) : AudioRecorder :=
  match s.audioFile_ with
  | none => s
  | some _ =>
    let s := { s with header_ := { fileSize := fileSizeField s.totalDataSize_,
                                   dataSize := dataSizeField s.totalDataSize_ } }
    let s := s.fileSeek 0
    let s := s.fileWrite s.header_.toBytes
    s.fileSeek s.disk.length

/-- Model of `AudioRecorder::updateWAVHeader`. -/
def updateWAVHeader (s : AudioRecorder) : AudioRecorder :=
  match s.audioFile_ with
  | none => s
  | some _ =>
    let s := { s with header_ := { fileSize := fileSizeField s.totalDataSize_,
                                   dataSize := dataSizeField s.totalDataSize_ } }
    let s := s.fileSeek 4
    let s := s.fileWrite (le32 s.header_.fileSize)
    let s := s.fileSeek 40
    s.fileWrite (le32 s.header_.dataSize)

/-- Model of `AudioRecorder::startRecording`; `fileOpens` tells whether the
`std::ofstream` constructed on `outputPath_` is open. -/
def startRecording (s : AudioRecorder) (fileOpens : Bool) : Bool × AudioRecorder :=
  if s.isRecording_ then (true, s)
  else if !fileOpens then (false, { s with audioFile_ := some { isOpen := false, pos := 0 } })
  else
    let s := { s with disk := [], audioFile_ := some { isOpen := true, pos := 0 } }
    let s := s.writeWAVHeader
    (true, { s with totalDataSize_ := 0, isRecording_ := true })

/-- Model of `AudioRecorder::stopRecording`. -/
def stopRecording (s : AudioRecorder) : Bool × AudioRecorder :=
  if !s.isRecording_ then (true, s)
  else
    let s := { s with isRecording_ := false }
    match s.audioFile_ with
    | none => (true, s)
    | some _ =>
      let s := s.updateWAVHeader
      (true, { s with audioFile_ := none })

/-- Model of `AudioRecorder::writeAudioData(data, length)`. -/
def writeAudioData (s : AudioRecorder) (data : List Nat) : AudioRecorder :=
  if !s.isRecording_ || s.audioFile_.isNone then s
  else
    let s := s.fileWrite data
    { s with totalDataSize_ := (s.totalDataSize_ + data.length) % U64 }

/-- A sequence of `writeAudioData` calls, in call order. -/
def writeAll (s : AudioRecorder) (bufs : List (List Nat)) : AudioRecorder :=
  bufs.foldl writeAudioData s

end AudioRecorder

/-! ## audio_capture_bot.cpp: `SystemAudioCapture` -/

/-- State of a `SystemAudioCapture`: the stream `audioFile` and whether it is
open, `totalSamples`, the ALSA handle (`none` is `nullptr`, otherwise the
device that was opened) and the static `phase` of `generateTestAudio`, a
`double` that only takes whole values. -/
structure SystemAudioCapture where
  audioFile : OFStream
  audioFileOpen : Bool
  totalSamples : Nat
  capture_handle : Option String
  phase : Nat
deriving DecidableEq, Repr

namespace SystemAudioCapture

/-- The capture as its constructor leaves it. -/
def constructed : SystemAudioCapture :=
  { audioFile := OFStream.opened, audioFileOpen := false, totalSamples := 0,
    capture_handle := none, phase := 0 }

/-- What the system answers during `start`: whether the build is the Linux
one, whether the output file opens, and the return values of `snd_pcm_open`
(per device name), `snd_pcm_hw_params` and `snd_pcm_prepare`. -/
structure StartEnv where
  linux : Bool
  fileOpens : Bool
  snd_pcm_open : String → Int
  snd_pcm_hw_params : Int
  snd_pcm_prepare : Int

/-- The candidate devices, in the order of the array `devices`. -/
def devices : List String := ["default", "pulse", "hw:Loopback,1", "plughw:0,0"]

/-- The loop over `devices`: gives the last `err` and the handle. A failed
`snd_pcm_open` leaves the handle as it was. -/
def openDevices (snd_pcm_open : String → Int) :
    List String → Int → Option String → Int × Option String
  | [], err, handle => (err, handle)
  | d :: ds, _, handle =>
    let err := snd_pcm_open d
    if err ≥ 0 then (err, some d) else openDevices snd_pcm_open ds err handle

/-- Model of `SystemAudioCapture::start`, called on a capture whose file is
not open yet. -/
def start (s : SystemAudioCapture) (env : StartEnv) : Bool × SystemAudioCapture :=
  if !env.fileOpens then (false, s)
  else
    let s := { s with audioFile := OFStream.opened, audioFileOpen := true }
    let s := { s with audioFile := s.audioFile.write (wavHeaderBytes 36 0) }
    if env.linux then
      let r := openDevices env.snd_pcm_open devices 0 s.capture_handle
      let s := { s with capture_handle := r.2 }
      if r.1 < 0 then (true, s)
      else if env.snd_pcm_hw_params < 0 then (true, { s with capture_handle := none })
      else if env.snd_pcm_prepare < 0 then (true, { s with capture_handle := none })
      else (true, s)
    else (true, s)

/-- Model of `generateTestAudio(buffer, size)`: the samples put into the
buffer and the new `phase`. The argument `tone` stands for the floating-point
expression `static_cast<int16_t>(0.3 * sin(2 * M_PI * 440 * phase / 16000) * 32767)`. -/
def generateTestAudio (tone : Nat → Int) : Nat → Nat → List Int × Nat
  | 0, phase => ([], phase)
  | size + 1, phase =>
    let x := tone phase
    let phase := phase + 1
    let phase := if phase ≥ 16000 then phase - 16000 else phase
    let r := generateTestAudio tone size phase
    (x :: r.1, r.2)

/-- What the system answers during one iteration of `captureLoop`: the Linux
build flag, the value of `snd_pcm_readi` and the buffer it filled, the value
of `snd_pcm_recover`, and the tone of `generateTestAudio`. -/
structure LoopEnv where
  linux : Bool
  snd_pcm_readi : Int
  readBuffer : List Int
  snd_pcm_recover : Int
  tone : Nat → Int

/-- The constant `bufferSize` of `captureLoop`. -/
def bufferSize : Nat := 1600

/-- One iteration of the `while (g_running)` loop of `captureLoop`. -/
def captureIteration (s : SystemAudioCapture) (env : LoopEnv) : SystemAudioCapture :=
  if env.linux && s.capture_handle.isSome then
    let frames := env.snd_pcm_readi
    let frames := if frames < 0 then env.snd_pcm_recover else frames
    if frames > 0 then
      { s with audioFile :=
                 s.audioFile.write ((env.readBuffer.flatMap int16Bytes).take (frames.toNat * 2)),
               totalSamples := (s.totalSamples + frames.toNat) % U32 }
    else s
  else
    let r := generateTestAudio env.tone bufferSize s.phase
    { s with audioFile := s.audioFile.write (r.1.flatMap int16Bytes),
             totalSamples := (s.totalSamples + bufferSize) % U32,
             phase := r.2 }

/-- Model of `SystemAudioCapture::stop`. -/
def stop (s : SystemAudioCapture) : SystemAudioCapture :=
  let s :=
    if s.audioFileOpen then
      let f := s.audioFile.seekp 4
      let fileSize := (36 + s.totalSamples * 2) % U32
      let f := f.write (le32 fileSize)
      let f := f.seekp 40
      let dataSize := s.totalSamples * 2 % U32
      let f := f.write (le32 dataSize)
      { s with audioFile := f, audioFileOpen := false }
    else s
  { s with capture_handle := none }

end SystemAudioCapture

/-! ## ubuntu_audio_bot.cpp: `UbuntuZoomRecorder` and `main` -/

namespace UbuntuZoomRecorder

/-- What the system answers while `main` starts the recording: the value of
the `fork()` in `startRecording`, whether the parecord child is already gone
right after it was spawned (its `execl` failed, or the tool exited at once),
and the value of the `fork()` in `startFFmpegRecording`. -/
structure Env where
  forkParecord : Int
  parecordExitedAtOnce : Bool
  forkFFmpeg : Int
deriving DecidableEq, Repr

/-- The global `g_recordingPid` and the lines printed on `std::cout`, each
without its variable part (the pid, the path). -/
structure State where
  g_recordingPid : Int
  out : List String
deriving DecidableEq, Repr

/-- Model of `UbuntuZoomRecorder::startRecording`. In the child the function
never returns (`none`). -/
def startRecording (s : State) (env : Env) : Option (Bool × State) :=
  let s := { s with out := s.out ++ ["RECORDING: Starting audio capture..."] }
  let s := { s with g_recordingPid := env.forkParecord }
  if s.g_recordingPid == 0 then none
  else if s.g_recordingPid < 0 then some (false, s)
  else some (true, { s with out := s.out ++ ["RECORDING: PulseAudio recording started"] })

/-- Model of `UbuntuZoomRecorder::startFFmpegRecording`. -/
def startFFmpegRecording (s : State) (env : Env) : Option (Bool × State) :=
  let s := { s with out := s.out ++ ["RECORDING: Starting FFmpeg audio capture..."] }
  let s := { s with g_recordingPid := env.forkFFmpeg }
  if s.g_recordingPid == 0 then none
  else if s.g_recordingPid < 0 then some (false, s)
  else some (true, { s with out := s.out ++ ["RECORDING: FFmpeg recording started"] })

/-- The part of `main` that starts the recording (lines 217 to 227): the
state reached and, when `main` returns there, its exit code. -/
def mainStart (s : State) (env : Env) : Option (State × Option Nat) :=
  match startRecording s env with
  | none => none
  | some (true, s) =>
    some ({ s with out := s.out ++ ["RECORDING_STARTED", "AUDIO_FILE_CREATED"] }, none)
  | some (false, s) =>
    let s := { s with out := s.out ++ ["RECORDING: Trying FFmpeg as fallback..."] }
    match startFFmpegRecording s env with
    | none => none
    | some (false, s) => some (s, some 1)
    | some (true, s) =>
      some ({ s with out := s.out ++ ["RECORDING_STARTED", "AUDIO_FILE_CREATED"] }, none)

end UbuntuZoomRecorder

/-! ## hybrid_zoom_bot.cpp: repeated calls of `generateRealtimeAudio` -/

namespace ZoomAudioRecorder

/-- The samples that the `for` loop of `generateRealtimeAudio` produces in `n`
iterations from index `i`, in order, and the hidden state after them: the
values `pcmSample` of `generateLoop`, without the stream. -/
def generatedSamples {σ : Type} (sample : Nat → σ → Int × σ) (timeOffset : Nat) :
    Nat → Nat → σ → List Int × σ
  | 0, _, g => ([], g)
  | n + 1, i, g =>
    let r := sample ((timeOffset + i) % U32) g
    let rest := generatedSamples sample timeOffset n (i + 1) r.2
    (r.1 :: rest.1, rest.2)

/-- The function `generateRealtimeAudio` called `k` times in a row. -/
def generateCalls {σ : Type} (sample : Nat → σ → Int × σ) : Nat → State σ → State σ
  | 0, s => s
  | k + 1, s => generateCalls sample k (generateRealtimeAudio sample s)

end ZoomAudioRecorder

/-! ## zoom_bot.cpp: `ZoomBot` -/

/-- State of a `ZoomBot`: the recorder it owns (`audioRecorder_` is set in the
constructor and never null), whether `meetingService_` is set, its three
flags, and what it has asked of the SDK so far: the number of `subscribe`,
`unSubscribe` and `Leave` calls. -/
structure ZoomBot where
  audioRecorder_ : AudioRecorder
  meetingService_ : Bool
  isInitialized_ : Bool
  isMeetingJoined_ : Bool
  isRecording_ : Bool
  subscribeCalls : Nat
  unSubscribeCalls : Nat
  leaveCalls : Nat
deriving DecidableEq, Repr

namespace ZoomBot

/-- What the system answers during `startRecording` and `stopRecording`:
whether the output file opens, whether `GetAudioRawdataFactory()` and
`GetAudioRawDataHelper()` return an object. -/
structure Env where
  fileOpens : Bool
  audioFactory : Bool
  audioHelper : Bool
deriving DecidableEq, Repr

/-- The bot as its constructor leaves it, the output file holding `disk`. -/
def constructed (disk : List Nat) : ZoomBot :=
  { audioRecorder_ := AudioRecorder.constructed disk, meetingService_ := false,
    isInitialized_ := false, isMeetingJoined_ := false, isRecording_ := false,
    subscribeCalls := 0, unSubscribeCalls := 0, leaveCalls := 0 }

/-- Model of `ZoomBot::startRecording`. -/
def startRecording (b : ZoomBot) (env : Env) : Bool × ZoomBot :=
  if !b.isMeetingJoined_ || b.isRecording_ then (false, b)
  else
    let r := b.audioRecorder_.startRecording env.fileOpens
    let b := { b with audioRecorder_ := r.2 }
    if !r.1 then (false, b)
    else if !env.audioFactory then (false, b)
    else if !env.audioHelper then (false, b)
    else (true, { b with subscribeCalls := b.subscribeCalls + 1, isRecording_ := true })

/-- Model of `ZoomBot::stopRecording`. -/
def stopRecording (b : ZoomBot) (env : Env) : Bool × ZoomBot :=
  if !b.isRecording_ then (true, b)
  else
    let b :=
      if env.audioFactory && env.audioHelper then
        { b with unSubscribeCalls := b.unSubscribeCalls + 1 }
      else b
    let b := { b with audioRecorder_ := b.audioRecorder_.stopRecording.2 }
    let b :=
      if b.meetingService_ && b.isMeetingJoined_ then { b with leaveCalls := b.leaveCalls + 1 }
      else b
    (true, { b with isRecording_ := false, isMeetingJoined_ := false })

end ZoomBot

/-! ## real_zoom_sdk_bot.cpp and zoom_sdk_bot.cpp: `startRecording` -/

namespace RealZoomAudioRecorder

/-- The members that `startRecording` reads and writes: whether `audioHelper`
is set, the flag `recording`, whether `recordingThread` is joinable, and what
has been done so far: the number of `subscribe` calls and of threads created. -/
structure Control where
  audioHelper : Bool
  recording : Bool
  threadJoinable : Bool
  subscribeCalls : Nat
  threadsCreated : Nat
deriving DecidableEq, Repr

/-- How a call of `startRecording` ends: it returns a value, or the process
is ended by `std::terminate`, which is what assigning a new `std::thread` to a
`recordingThread` that is still joinable does. -/
inductive Outcome where
  | returned (result : Bool) (c : Control)
  | terminated (c : Control)
deriving DecidableEq, Repr

/-- The recorder as its constructor leaves it, once `initializeSDK` has set
`audioHelper` (or not). -/
def control (audioHelper : Bool) : Control :=
  { audioHelper := audioHelper, recording := false, threadJoinable := false,
    subscribeCalls := 0, threadsCreated := 0 }

/-- Model of `RealZoomAudioRecorder::startRecording`; `subscribeResult` is the
`SDKError` that `audioHelper->subscribe` returns, 0 being `SDKERR_SUCCESS`. -/
def startRecording (c : Control) (subscribeResult : Nat) : Outcome :=
  if !c.audioHelper then Outcome.returned false c
  else
    let c := { c with recording := true }
    let c := { c with subscribeCalls := c.subscribeCalls + 1 }
    if subscribeResult != 0 then Outcome.returned false { c with recording := false }
    else
      let c := { c with threadsCreated := c.threadsCreated + 1 }
      if c.threadJoinable then Outcome.terminated c
      else Outcome.returned true { c with threadJoinable := true }

end RealZoomAudioRecorder

namespace ZoomSDKAudioRecorder

/-- Model of `ZoomSDKAudioRecorder::startRecording`, on the members of
`RealZoomAudioRecorder.Control`; without `audioHelper` the thread runs
`recordingLoopFallback`. -/
def startRecording (c : RealZoomAudioRecorder.Control) (subscribeResult : Nat) :
    RealZoomAudioRecorder.Outcome :=
  if !c.audioHelper then
    let c := { c with recording := true }
    let c := { c with threadsCreated := c.threadsCreated + 1 }
    if c.threadJoinable then RealZoomAudioRecorder.Outcome.terminated c
    else RealZoomAudioRecorder.Outcome.returned true { c with threadJoinable := true }
  else
    let c := { c with recording := true }
    let c := { c with subscribeCalls := c.subscribeCalls + 1 }
    if subscribeResult != 0 then
      RealZoomAudioRecorder.Outcome.returned false { c with recording := false }
    else
      let c := { c with threadsCreated := c.threadsCreated + 1 }
      if c.threadJoinable then RealZoomAudioRecorder.Outcome.terminated c
      else RealZoomAudioRecorder.Outcome.returned true { c with threadJoinable := true }

/-! ### `recordingLoopFallback` -/

/-- The flag `recording` and the locals of `recordingLoopFallback` once the
file is open and the header written: the stream, `writtenSamples`, the state
of `rand` (`noise`), and whether the function has left its loop and finalized
the header. -/
structure FallbackState (ρ : Type) where
  recording : Bool
  audioFile : OFStream
  writtenSamples : Nat
  noise : ρ
  finished : Bool

/-- The constant `totalSamples` of `recordingLoopFallback`:
`sampleRate * duration`, 300 seconds at 16 kHz. -/
def fallbackTotalSamples : Nat := 16000 * 300

/-- The constant `chunkSize` of `recordingLoopFallback`: `sampleRate / 10`. -/
def fallbackChunkSize : Nat := 16000 / 10

/-- The state in which `recordingLoopFallback` reaches its loop: the file
opened, the header written, nothing generated. -/
def fallbackEntry {ρ : Type} (recording : Bool) (noise : ρ) : FallbackState ρ :=
  { recording := recording, audioFile := writeWAVHeader OFStream.opened, writtenSamples := 0,
    noise := noise, finished := false }

/-- The inner `for` loop of `recordingLoopFallback`, with `n` values of `i`
left to go. The floating-point synthesis of one sample is the argument
`sample`: from `writtenSamples` and the state of `rand` it gives the
`int16_t` written and the next state of `rand`. -/
def fallbackChunk {ρ : Type} (sample : Nat → ρ → Int × ρ) :
    Nat → ρ → OFStream → Nat → ρ × OFStream × Nat
  | 0, g, audioFile, writtenSamples => (g, audioFile, writtenSamples)
  | n + 1, g, audioFile, writtenSamples =>
    if writtenSamples < fallbackTotalSamples then
      let r := sample writtenSamples g
      fallbackChunk sample n r.2 (audioFile.write (int16Bytes r.1)) (writtenSamples + 1)
    else (g, audioFile, writtenSamples)

/-- One evaluation of the `while` condition of `recordingLoopFallback`
followed, when it holds, by one iteration of the body, and otherwise by
`updateWAVHeader` and the return. -/
def fallbackStep {ρ : Type} (sample : Nat → ρ → Int × ρ) (s : FallbackState ρ) :
    FallbackState ρ :=
  if s.finished then s
  else if s.recording && decide (s.writtenSamples < fallbackTotalSamples) then
    let r := fallbackChunk sample fallbackChunkSize s.noise s.audioFile s.writtenSamples
    { s with noise := r.1, audioFile := r.2.1, writtenSamples := r.2.2 }
  else
    { s with audioFile := updateWAVHeader s.audioFile (s.writtenSamples % U32),
             finished := true }

/-- The loop run for `k` steps while nothing else touches the flag. -/
def fallbackSteps {ρ : Type} (sample : Nat → ρ → Int × ρ) :
    Nat → FallbackState ρ → FallbackState ρ
  | 0, s => s
  | k + 1, s => fallbackSteps sample k (fallbackStep sample s)

end ZoomSDKAudioRecorder

/-! ## The synthesis of one sample, with `double` read as the reals

The generators compute each sample in `double` from the sample index, from
phase accumulators and from `rand()`. Here a `double` is a real number, a math
function its real counterpart and `M_PI` the number `π`; the state of `rand`
is the sequence of values it is going to return. -/

/-- The constant `RAND_MAX` of the C library of the bots. -/
def RAND_MAX : Nat := 2147483647

/-- State of `rand`: the values it returns from now on, and how many of them
have been taken. -/
structure Rng where
  draws : Nat → Nat
  pos : Nat

/-- Model of `rand()`: a value between 0 and `RAND_MAX`, and the next state. -/
def Rng.rand (r : Rng) : Nat × Rng :=
  (r.draws r.pos % (RAND_MAX + 1), { r with pos := r.pos + 1 })

/-- Model of `static_cast<double>(d) / RAND_MAX` for a value `d` of `rand()`. -/
noncomputable def unitNoise (d : Nat) : ℝ := (d : ℝ) / (RAND_MAX : ℝ)

/-- Model of `static_cast<int16_t>(x)` for a `double` within the range of
`int16_t`: the fraction is dropped, towards zero. -/
noncomputable def truncToInt (x : ℝ) : ℤ := if 0 ≤ x then ⌊x⌋ else ⌈x⌉

/-- Model of `fmod(x, m)`: `x` less the whole multiple of `m` nearest to it on
the side of zero. -/
noncomputable def fmod (x m : ℝ) : ℝ := x - m * (truncToInt (x / m) : ℝ)

namespace ZoomAudioRecorder

/-- The hidden state of `generateRealtimeAudio`: its statics `speaker1Phase`
and `speaker2Phase`, and the state of `rand`. -/
structure Synth where
  speaker1Phase : ℝ
  speaker2Phase : ℝ
  rng : Rng

/-- The speaker part of one sample of `generateRealtimeAudio` (the three
branches on `segmentTime`): what is added to `sample`, and the two phases
after it. -/
noncomputable def voices (time speaker1Phase speaker2Phase : ℝ) : ℝ × ℝ × ℝ :=
  let segmentTime := fmod time 25
  if segmentTime < 8 then
    let intensity := 0.4 + 0.3 * Real.sin (2 * Real.pi * 0.12 * time)
    let fundamental := 150 + 30 * Real.sin (2 * Real.pi * 0.05 * time)
    let speaker1Phase := speaker1Phase + 2 * Real.pi * fundamental / 16000
    (0.4 * Real.sin speaker1Phase * intensity
      + 0.2 * Real.sin (speaker1Phase * 2) * intensity
      + 0.15 * Real.sin (speaker1Phase * 3) * intensity
      + 0.1 * Real.sin (speaker1Phase * 5) * intensity
      + 0.05 * Real.sin (2 * Real.pi * 4.5 * time) * intensity,
     speaker1Phase, speaker2Phase)
  else if segmentTime > 10 ∧ segmentTime < 18 then
    let intensity := 0.35 + 0.25 * Real.sin (2 * Real.pi * 0.15 * time)
    let fundamental := 250 + 50 * Real.sin (2 * Real.pi * 0.07 * time)
    let speaker2Phase := speaker2Phase + 2 * Real.pi * fundamental / 16000
    (0.35 * Real.sin speaker2Phase * intensity
      + 0.2 * Real.sin (speaker2Phase * 2) * intensity
      + 0.15 * Real.sin (speaker2Phase * 3.5) * intensity
      + 0.1 * Real.sin (speaker2Phase * 5) * intensity
      + 0.05 * Real.sin (2 * Real.pi * 5.5 * time) * intensity,
     speaker1Phase, speaker2Phase)
  else if segmentTime > 20 ∧ segmentTime < 23 then
    let intensity1 := 0.25
    let intensity2 := 0.2
    let speaker1Phase := speaker1Phase + 2 * Real.pi * 160 / 16000
    let speaker2Phase := speaker2Phase + 2 * Real.pi * 280 / 16000
    (0.3 * Real.sin speaker1Phase * intensity1
      + 0.25 * Real.sin speaker2Phase * intensity2
      + 0.1 * Real.sin (speaker1Phase * 2) * intensity1
      + 0.1 * Real.sin (speaker2Phase * 2) * intensity2,
     speaker1Phase, speaker2Phase)
  else (0, speaker1Phase, speaker2Phase)

/-- The ambient part of one sample of `generateRealtimeAudio`, for the sample
index `n = timeOffset + i`: typing noise (a second `rand()` only when the
index is a multiple of 8000 and the first one is below 30 modulo 100), room
noise, notification tone; what is added to `sample`, and the state of `rand`
after it. -/
noncomputable def ambience (n : Nat) (time : ℝ) (rng : Rng) : ℝ × Rng :=
  let typing : ℝ × Rng :=
    if n % 8000 == 0 then
      let a := rng.rand
      if a.1 % 100 < 30 then
        let b := a.2.rand
        (0.15 * (unitNoise b.1 - 0.5), b.2)
      else (0, a.2)
    else (0, rng)
  let c := typing.2.rand
  let room := 0.015 * (unitNoise c.1 - 0.5)
  let tone := if n % (16000 * 15) < 200 then 0.1 * Real.sin (2 * Real.pi * 800 * time) else 0
  (typing.1 + room + tone, c.2)

/-- The compressor of `generateRealtimeAudio`: beyond `maxAmplitude = 0.8` the
sample is set to `0.8` with its sign. -/
noncomputable def compress (sample : ℝ) : ℝ :=
  if |sample| > 0.8 then 0.8 * (if sample > 0 then 1 else -1) else sample

/-- The soft clipping of `generateRealtimeAudio`: `tanh(sample * 0.7) / 0.7`. -/
noncomputable def softClip (sample : ℝ) : ℝ := Real.tanh (sample * 0.7) / 0.7

/-- The `double` that `generateRealtimeAudio` converts to `int16_t`, from the
value of `sample` before the compressor. -/
noncomputable def pcmReal (sample : ℝ) : ℝ := softClip (compress sample) * 28000

/-- One iteration of the `for` loop of `generateRealtimeAudio`, for the sample
index `n = timeOffset + i`: the `pcmSample` written and the hidden state after
it. This is the argument `sample` of `generateLoop`. -/
noncomputable def realtimeSample (n : Nat) (g : Synth) : Int × Synth :=
  let time := (n : ℝ) / 16000
  let v := voices time g.speaker1Phase g.speaker2Phase
  let e := ambience n time g.rng
  (truncToInt (pcmReal (v.1 + e.1)),
   { speaker1Phase := v.2.1, speaker2Phase := v.2.2, rng := e.2 })

end ZoomAudioRecorder

namespace ZoomSDKAudioRecorder

/-- The `double` that `recordingLoopFallback` converts to `int16_t` for the
sample number `writtenSamples`, the noise term being `0.02 * (u - 0.5)`:
speaker by `segmentTime`, noise, clamp to `[-0.9, 0.9]`, times 32767. -/
noncomputable def fallbackSampleReal (writtenSamples : Nat) (u : ℝ) : ℝ :=
  let time := (writtenSamples : ℝ) / 16000
  let segmentTime := fmod time 20
  let sample : ℝ :=
    if segmentTime < 8 then
      let intensity := 0.3 + 0.2 * Real.sin (2 * Real.pi * 0.1 * time)
      0.4 * Real.sin (2 * Real.pi * 180 * time) * intensity
        + 0.3 * Real.sin (2 * Real.pi * 360 * time) * intensity
        + 0.1 * Real.sin (2 * Real.pi * 720 * time) * intensity
    else if segmentTime > 10 ∧ segmentTime < 16 then
      let intensity := 0.25 + 0.15 * Real.sin (2 * Real.pi * 0.15 * time)
      0.35 * Real.sin (2 * Real.pi * 280 * time) * intensity
        + 0.25 * Real.sin (2 * Real.pi * 560 * time) * intensity
        + 0.1 * Real.sin (2 * Real.pi * 840 * time) * intensity
    else 0
  let sample := sample + 0.02 * (u - 0.5)
  let sample := max (-0.9) (min 0.9 sample)
  sample * 32767

/-- One sample of `recordingLoopFallback`: the `pcmSample` written and the
state of `rand` after it. This is the argument `sample` of `fallbackChunk`. -/
noncomputable def fallbackSample (writtenSamples : Nat) (rng : Rng) : Int × Rng :=
  let d := rng.rand
  (truncToInt (fallbackSampleReal writtenSamples (unitNoise d.1)), d.2)

end ZoomSDKAudioRecorder

/-! ## simple_bot.cpp: `generateTestAudio` -/

namespace SimpleBot

/-- The `double` that `generateTestAudio` converts to `int16_t` for the sample
number `i`, the noise term being `0.05 * (u - 0.5)`: three partials, noise,
times `32767 * 0.8`. -/
noncomputable def testSampleReal (i : Nat) (u : ℝ) : ℝ :=
  let time := (i : ℝ) / 16000
  let sample : ℝ :=
    0.3 * Real.sin (2 * Real.pi * 200 * time)
      + 0.2 * Real.sin (2 * Real.pi * 400 * time)
      + 0.1 * Real.sin (2 * Real.pi * 800 * time)
  let sample := sample + 0.05 * (u - 0.5)
  sample * 32767 * 0.8

/-- One sample of `generateTestAudio`: the `pcmSample` written and the state
of `rand` after it. -/
noncomputable def testSample (i : Nat) (rng : Rng) : Int × Rng :=
  let d := rng.rand
  (truncToInt (testSampleReal i (unitNoise d.1)), d.2)

end SimpleBot

/-! ## Reading header fields back -/

/-- The 16-bit little-endian field stored at byte offset `off`. -/
def readLE16 (bytes : List Nat) (off : Nat) : Nat :=
  fromLE ((bytes.drop off).take 2)

/-- The bytes of a four-character tag such as `"RIFF"`. -/
def tagBytes (tag : String) : List Nat := tag.toList.map Char.toNat

/-- The four bytes stored at byte offset `off`. -/
def tagAt (bytes : List Nat) (off : Nat) : List Nat := (bytes.drop off).take 4

/-! ## Calls to the system, as a record of what a function did -/

/-- A call made to the operating system or to the SDK: `kill(pid, SIGTERM)`,
`waitpid(pid, &status, 0)`, `waitpid(pid, &status, WNOHANG)` with the value it
returned, `system(cmd)`, `sdk_stop_audio_recording()`. -/
inductive Sys where
  | kill (pid : Int)
  | waitpidBlocking (pid : Int)
  | waitpidNoHang (pid : Int) (result : Int)
  | system (cmd : String)
  | sdkStopAudioRecording
deriving DecidableEq, Repr

/-- Whether every `kill` of a record is followed at once by the blocking
`waitpid` on the same pid. -/
def killsAreWaited : List Sys → Bool
  | [] => true
  | Sys.kill p :: rest =>
    match rest with
    | Sys.waitpidBlocking q :: rest2 => (p == q) && killsAreWaited rest2
    | _ => false
  | _ :: rest => killsAreWaited rest

/-- Whether a record holds no `kill` of a pid that an earlier `waitpid` of the
record has reaped (a blocking `waitpid`, or one with `WNOHANG` that returned
the pid). -/
def noKillAfterReap : List Sys → Bool
  | [] => true
  | Sys.waitpidBlocking p :: rest => !rest.contains (Sys.kill p) && noKillAfterReap rest
  | Sys.waitpidNoHang p result :: rest =>
    (if result == p then !rest.contains (Sys.kill p) else true) && noKillAfterReap rest
  | _ :: rest => noKillAfterReap rest

namespace ZoomAudioRecorder

/-- A number of writer steps after which the thread has returned once the
flag is cleared: the `join` of `stopRecording` lasts no longer. -/
def joinFuel {σ : Type} (s : State σ) : Nat := 2 * s.audioBuffer.length + 3

/-- Model of `ZoomAudioRecorder::stopRecording`: the state it leaves and
the calls it made. `sdk_stop_audio_recording` tells whether that pointer is
set; `join` lets the thread run to its return. -/
def stopRecording {σ : Type} (sample : Nat → σ → Int × σ) (fileOpens : Bool)
    (sdk_stop_audio_recording : Bool) (s : State σ) : State σ × List Sys :=
  if !s.recording then (s, [])
  else
    let s := { s with recording := false }
    let r : State σ × List Sys :=
      if s.pulseRecordingPid > 0 then
        ({ s with pulseRecordingPid := 0 },
         [Sys.kill s.pulseRecordingPid, Sys.waitpidBlocking s.pulseRecordingPid,
          Sys.system "pactl unload-module module-null-sink 2>/dev/null",
          Sys.system "pactl unload-module module-loopback 2>/dev/null"])
      else (s, [])
    let calls := r.2 ++ (if sdk_stop_audio_recording then [Sys.sdkStopAudioRecording] else [])
    let s := r.1
    let s :=
      if s.threadStarted then
        { writerSteps sample fileOpens 0 (joinFuel s) s with threadStarted := false }
      else s
    (s, calls)

end ZoomAudioRecorder

namespace UbuntuZoomRecorder

/-- The global `g_recordingPid` and the record of the calls made so far,
for the part of `main` after the recording has started. -/
structure Run where
  g_recordingPid : Int
  calls : List Sys
deriving DecidableEq, Repr

/-- Model of `UbuntuZoomRecorder::stopRecording`. -/
def stopRecording (r : Run) : Run :=
  if r.g_recordingPid > 0 then
    { g_recordingPid := 0,
      calls := r.calls ++ [Sys.kill r.g_recordingPid, Sys.waitpidBlocking r.g_recordingPid] }
  else r

/-- Model of `UbuntuZoomRecorder::cleanup`. -/
def cleanup (r : Run) : Run :=
  { r with calls := r.calls ++ [Sys.system "pactl unload-module module-null-sink 2>/dev/null",
                                Sys.system "pactl unload-module module-loopback 2>/dev/null"] }

/-- The recording loop of `main` (lines 229 to 243). The list holds, for each
iteration entered (`g_running` was true), the value that
`waitpid(g_recordingPid, &status, WNOHANG)` returns in it; when the list is
used up, `g_running` is false at the next test. -/
def mainLoop : List Int → Run → Run
  | [], r => r
  | result :: later, r =>
    if r.g_recordingPid > 0 then
      let r := { r with calls := r.calls ++ [Sys.waitpidNoHang r.g_recordingPid result] }
      if result > 0 then r else mainLoop later r
    else mainLoop later r

/-- The end of `main`: the loop, then `stopRecording`, then `cleanup`. -/
def mainFinish (results : List Int) (r : Run) : Run :=
  cleanup (stopRecording (mainLoop results r))

end UbuntuZoomRecorder

namespace SystemAudioCapture

/-- A call made to ALSA by one iteration of `captureLoop`. -/
inductive AlsaCall where
  | readi
  | recover (err : Int)
deriving DecidableEq, Repr

/-- The ALSA calls of one iteration of `captureLoop`, in order. -/
def captureCalls (s : SystemAudioCapture) (env : LoopEnv) : List AlsaCall :=
  if env.linux && s.capture_handle.isSome then
    if env.snd_pcm_readi < 0 then [AlsaCall.readi, AlsaCall.recover env.snd_pcm_readi]
    else [AlsaCall.readi]
  else []

/-- The loop `while (g_running)` of `captureLoop`: one `LoopEnv` per
iteration entered; when the list is used up, `g_running` is false. The loop
has no other exit and the function returns nothing. -/
def captureLoop (envs : List LoopEnv) (s : SystemAudioCapture) : SystemAudioCapture :=
  envs.foldl captureIteration s

end SystemAudioCapture

/-! ## zoom_sdk_integration.cpp: `StartAudioRecording`, the raw data delegate, `StopAudioRecording` -/

namespace ZoomSdkIntegration

/-- The globals `g_audioHelper` (set or not), `g_audioFile` (stream and
whether it is open), `g_recording`, the member `totalSamples` of the static
delegate, and the number of `subscribe` and `unSubscribe` calls made. -/
structure State where
  g_audioHelper : Bool
  g_audioFile : OFStream
  g_audioFileOpen : Bool
  g_recording : Bool
  totalSamples : Nat
  subscribeCalls : Nat
  unSubscribeCalls : Nat
deriving DecidableEq, Repr

/-- The globals before any recording. -/
def initial (audioHelper : Bool) : State :=
  { g_audioHelper := audioHelper, g_audioFile := OFStream.opened, g_audioFileOpen := false,
    g_recording := false, totalSamples := 0, subscribeCalls := 0, unSubscribeCalls := 0 }

/-- Model of `StartAudioRecording`, called while `g_audioFile` is closed;
`subscribeResult` is the `SDKError` of `subscribe`, 0 being success. -/
def StartAudioRecording (s : State) (fileOpens : Bool) (subscribeResult : Nat) : Bool × State :=
  if !s.g_audioHelper then (false, s)
  else if !fileOpens then (false, s)
  else
    let s := { s with g_audioFile := OFStream.opened, g_audioFileOpen := true }
    let s := { s with g_audioFile := s.g_audioFile.write (wavHeaderBytes 36 0) }
    let s := { s with subscribeCalls := s.subscribeCalls + 1 }
    if subscribeResult != 0 then (false, { s with g_audioFileOpen := false })
    else (true, { s with g_recording := true })

/-- Model of `ZoomAudioRawDataDelegate::onMixedAudioRawDataReceived`; `none`
is a null `data_`, and a null or empty buffer is the empty list. -/
def onMixedAudioRawDataReceived (s : State) (data_ : Option (List Nat)) : State :=
  match data_ with
  | none => s
  | some buffer =>
    if !s.g_recording || !s.g_audioFileOpen then s
    else if buffer.length > 0 then
      { s with g_audioFile := s.g_audioFile.write buffer,
               totalSamples := (s.totalSamples + buffer.length / 2) % U32 }
    else s

/-- A sequence of callbacks, in delivery order. -/
def receiveAll (s : State) (buffers : List (List Nat)) : State :=
  buffers.foldl (fun st b => onMixedAudioRawDataReceived st (some b)) s

/-- Model of `StopAudioRecording`: the sizes come from `tellp()` at the end
of the file, cut to `uint32_t`. -/
def StopAudioRecording (s : State) : State :=
  let s := { s with g_recording := false }
  let s := if s.g_audioHelper then { s with unSubscribeCalls := s.unSubscribeCalls + 1 } else s
  if s.g_audioFileOpen then
    let f := s.g_audioFile.seekEnd
    let fileSize := f.pos % U32
    let dataSize := (fileSize + U32 - 44) % U32
    let f := f.seekp 4
    let fileSize := (fileSize + U32 - 8) % U32
    let f := f.write (le32 fileSize)
    let f := f.seekp 40
    let f := f.write (le32 dataSize)
    { s with g_audioFile := f, g_audioFileOpen := false }
  else s

end ZoomSdkIntegration

/-! ## zoom_bot.cpp: the callbacks and `cleanup` of `ZoomBot` -/

namespace ZoomBot

/-- Model of `ZoomBot::onMeetingJoined`. -/
def onMeetingJoined (b : ZoomBot) : ZoomBot := { b with isMeetingJoined_ := true }

/-- Model of `ZoomBot::onMeetingLeft`. -/
def onMeetingLeft (b : ZoomBot) : ZoomBot :=
  { b with isMeetingJoined_ := false, isRecording_ := false }

/-- Model of `ZoomBot::onAudioDataReceived(data, length)`. -/
def onAudioDataReceived (b : ZoomBot) (data : List Nat) : ZoomBot :=
  if b.isRecording_ then { b with audioRecorder_ := b.audioRecorder_.writeAudioData data }
  else b

/-- Model of `ZoomBot::cleanup`, on the members of the model (the release of
the SDK handle `sdk_` touches none of them). -/
def cleanup (b : ZoomBot) (env : Env) : ZoomBot :=
  let b := if b.isRecording_ then (b.stopRecording env).2 else b
  { b with isInitialized_ := false }

/-- An operation on a `ZoomBot`, with what the system answers during it. -/
inductive Op where
  | startRecording (env : Env)
  | stopRecording (env : Env)
  | cleanup (env : Env)
  | onMeetingJoined
  | onMeetingLeft
  | onAudioDataReceived (data : List Nat)
deriving DecidableEq, Repr

/-- Effect of one operation. -/
def apply (b : ZoomBot) : Op → ZoomBot
  | Op.startRecording env => (b.startRecording env).2
  | Op.stopRecording env => (b.stopRecording env).2
  | Op.cleanup env => b.cleanup env
  | Op.onMeetingJoined => b.onMeetingJoined
  | Op.onMeetingLeft => b.onMeetingLeft
  | Op.onAudioDataReceived data => b.onAudioDataReceived data

/-- Effect of a sequence of operations, in order. -/
def applyAll (b : ZoomBot) (ops : List Op) : ZoomBot := ops.foldl apply b

end ZoomBot

/-! ## `std::string` operations used by `parseConfig` -/

namespace StdString

/-- The constant `std::string::npos`, the largest `size_t`. -/
def npos : Nat := U64 - 1

/-- Search of `pat` in the characters that remain, the first of them having
index `i` in the whole string. -/
def findIn (pat : List Char) : List Char → Nat → Nat
  | [], i => if pat = [] then i else npos
  | c :: cs, i => if (c :: cs).take pat.length = pat then i else findIn pat cs (i + 1)

/-- Model of `s.find(pat, pos)`: the least index from `pos` on at which `pat`
occurs in `s`, `npos` when there is none. -/
def find (s pat : List Char) (pos : Nat) : Nat :=
  if pos ≤ s.length then findIn pat (s.drop pos) pos else npos

/-- Model of `s.substr(pos, n)`; `none` is the exception `std::out_of_range`,
thrown when `pos` is beyond the length. -/
def substr (s : List Char) (pos n : Nat) : Option (List Char) :=
  if pos > s.length then none else some ((s.drop pos).take n)

/-- The lines that successive `std::getline(file, line)` calls give on a file
of the given content, until the call that fails. -/
def getlines : List Char → List (List Char)
  | [] => []
  | c :: cs =>
    if c = '\n' then [] :: getlines cs
    else
      match getlines cs with
      | [] => [[c]]
      | l :: ls => (c :: l) :: ls

/-- A key between double quotes, as the tests of `parseConfig` write it. -/
def quoted (key : String) : List Char := '"' :: (key.toList ++ ['"'])

/-- The three statements shared by all branches of `parseConfig`: the value
`line.substr(start + 1, end - start - 1)` with `start = line.find(":") + 2`
and `end = line.find("\"", start + 1)`, all in `size_t`. -/
def value (line : List Char) : Option (List Char) :=
  let start := (find line [':'] 0 + 2) % U64
  let end_ := find line ['"'] ((start + 1) % U64)
  substr line ((start + 1) % U64) ((end_ + U64 - start + U64 - 1) % U64)

end StdString

/-! ## hybrid_zoom_bot.cpp: `parseConfig` -/

namespace HybridZoomBot

/-- The struct `Config` of hybrid_zoom_bot.cpp. -/
structure Config where
  meetingNumber : List Char
  password : List Char
  userName : List Char
  audioFile : List Char
  sessionId : List Char
  apiKey : List Char
  apiSecret : List Char
deriving DecidableEq, Repr

/-- A default-constructed `Config`: every string empty. -/
def Config.empty : Config := ⟨[], [], [], [], [], [], []⟩

/-- The body of the `while (std::getline(file, line))` loop; `none` when
`substr` throws. -/
def parseLine (config : Config) (line : List Char) : Option Config :=
  if StdString.find line (StdString.quoted "meetingNumber") 0 ≠ StdString.npos then
    (StdString.value line).map (fun v => { config with meetingNumber := v })
  else if StdString.find line (StdString.quoted "userName") 0 ≠ StdString.npos then
    (StdString.value line).map (fun v => { config with userName := v })
  else if StdString.find line (StdString.quoted "audioFile") 0 ≠ StdString.npos then
    (StdString.value line).map (fun v => { config with audioFile := v })
  else if StdString.find line (StdString.quoted "sessionId") 0 ≠ StdString.npos then
    (StdString.value line).map (fun v => { config with sessionId := v })
  else if StdString.find line (StdString.quoted "password") 0 ≠ StdString.npos then
    (StdString.value line).map (fun v => { config with password := v })
  else some config

/-- The loop over the lines, in order. -/
def parseLines (config : Config) : List (List Char) → Option Config
  | [] => some config
  | line :: later =>
    match parseLine config line with
    | none => none
    | some config => parseLines config later

/-- Model of `parseConfig`: `content` is the content of the file (empty when
it does not open), `apiKey` and `apiSecret` the two environment variables,
`none` when unset. The result `none` is an exception thrown by `substr`. -/
def parseConfig (content : List Char) (apiKey apiSecret : Option (List Char)) : Option Config :=
  match parseLines Config.empty (StdString.getlines content) with
  | none => none
  | some config =>
    match apiKey, apiSecret with
    | some k, some s => some { config with apiKey := k, apiSecret := s }
    | _, _ => some config

/-- The keys that `parseConfig` tests, in the order of its `else if` chain. -/
def keys : List String := ["meetingNumber", "userName", "audioFile", "sessionId", "password"]

/-- The field that the branch number `i` of the chain assigns. -/
def Config.get (c : Config) : Nat → List Char
  | 0 => c.meetingNumber
  | 1 => c.userName
  | 2 => c.audioFile
  | 3 => c.sessionId
  | _ => c.password

/-- The config with the field of branch number `i` replaced. -/
def Config.set (c : Config) (i : Nat) (v : List Char) : Config :=
  match i with
  | 0 => { c with meetingNumber := v }
  | 1 => { c with userName := v }
  | 2 => { c with audioFile := v }
  | 3 => { c with sessionId := v }
  | _ => { c with password := v }

end HybridZoomBot

/-! ## simple_bot.cpp: `parseConfig` -/

namespace SimpleBot

/-- The struct `Config` of simple_bot.cpp. -/
structure Config where
  meetingNumber : List Char
  userName : List Char
  audioFile : List Char
  sessionId : List Char
deriving DecidableEq, Repr

/-- A default-constructed `Config`: every string empty. -/
def Config.empty : Config := ⟨[], [], [], []⟩

/-- The body of the `while (std::getline(file, line))` loop; `none` when
`substr` throws. -/
def parseLine (config : Config) (line : List Char) : Option Config :=
  if StdString.find line (StdString.quoted "meetingNumber") 0 ≠ StdString.npos then
    (StdString.value line).map (fun v => { config with meetingNumber := v })
  else if StdString.find line (StdString.quoted "userName") 0 ≠ StdString.npos then
    (StdString.value line).map (fun v => { config with userName := v })
  else if StdString.find line (StdString.quoted "audioFile") 0 ≠ StdString.npos then
    (StdString.value line).map (fun v => { config with audioFile := v })
  else if StdString.find line (StdString.quoted "sessionId") 0 ≠ StdString.npos then
    (StdString.value line).map (fun v => { config with sessionId := v })
  else some config

/-- The loop over the lines, in order. -/
def parseLines (config : Config) : List (List Char) → Option Config
  | [] => some config
  | line :: later =>
    match parseLine config line with
    | none => none
    | some config => parseLines config later

/-- Model of `parseConfig`: `content` is the content of the file (empty when
it does not open). The result `none` is an exception thrown by `substr`. -/
def parseConfig (content : List Char) : Option Config :=
  parseLines Config.empty (StdString.getlines content)

/-- The keys that `parseConfig` tests, in the order of its `else if` chain. -/
def keys : List String := ["meetingNumber", "userName", "audioFile", "sessionId"]

/-- The field that the branch number `i` of the chain assigns. -/
def Config.get (c : Config) : Nat → List Char
  | 0 => c.meetingNumber
  | 1 => c.userName
  | 2 => c.audioFile
  | _ => c.sessionId

/-- The config with the field of branch number `i` replaced. -/
def Config.set (c : Config) (i : Nat) (v : List Char) : Config :=
  match i with
  | 0 => { c with meetingNumber := v }
  | 1 => { c with userName := v }
  | 2 => { c with audioFile := v }
  | _ => { c with sessionId := v }

end SimpleBot

namespace ZoomAudioRecorder

/-- A bound on the number of steps the recording thread still makes once the
flag is cleared. -/
def joinSteps {σ : Type} (s : State σ) : Nat :=
  match s.pc with
  | Pc.notStarted => 0
  | Pc.entry => 2 * s.audioBuffer.length + 2
  | Pc.monitor => 1
  | Pc.loopHead => 2 * s.audioBuffer.length + 1
  | Pc.holding _ => 2 * s.audioBuffer.length + 2
  | Pc.returned => 0

end ZoomAudioRecorder

/-! ## Invariants used in the proofs -/

namespace RealZoomAudioRecorder

/-- The bytes of the queued frames, front first. -/
def queuedBytes (q : List AudioFrame) : List Nat := (q.map AudioFrame.data).flatten

/-- Invariant of the recorder while frames with total content `acc` have been
accepted: the file is the provisional header followed by what was written, and
what was written, the frame in the writer's hands and the queue make up `acc`;
after the return the file is the final header followed by `acc`. -/
def Inv (s : State) (acc : List Nat) : Prop :=
  match s.pc with
  | Pc.notStarted => False
  | Pc.entry => s.audioFile = none ∧ queuedBytes s.audioBuffer = acc
  | Pc.loopHead =>
    ∃ w, s.audioFile = some ⟨wavHeaderBytes 36 0 ++ w, 44 + w.length⟩ ∧
      w ++ queuedBytes s.audioBuffer = acc
  | Pc.holding frame =>
    ∃ w, s.audioFile = some ⟨wavHeaderBytes 36 0 ++ w, 44 + w.length⟩ ∧
      w ++ frame.data ++ queuedBytes s.audioBuffer = acc
  | Pc.returned =>
    s.recording = false ∧ s.audioBuffer = [] ∧
    ∃ p, s.audioFile = some
      ⟨wavHeaderBytes ((36 + s.totalSamples * 2 % U32) % U32) (s.totalSamples * 2 % U32) ++ acc, p⟩

/-- The invariant `Inv` without the empty queue after the return: a call of
the callback that was past its test when the loop was left can still push. -/
def Written (s : State) (acc : List Nat) : Prop :=
  if s.pc = Pc.returned then
    s.recording = false ∧
    ∃ p, s.audioFile = some
      ⟨wavHeaderBytes ((36 + s.totalSamples * 2 % U32) % U32) (s.totalSamples * 2 % U32) ++ acc, p⟩
  else Inv s acc

/-- Invariant of the recorder and the SDK thread, with the three records
`P` (pushed before the return), `W` (pushed while the flag is true) and `A`
(accepted by the test). -/
def Consistent (t : Threads) (P W A : List (List Nat)) : Prop :=
  Written t.recorder P.flatten ∧
  (∃ late, P = W ++ late ∧ late.length ≤ 1 ∧
    (t.recorder.recording = true → late = []) ∧ (t.callback.isSome = true → late = [])) ∧
  (∃ rest, A = P ++ rest ∧
    (t.recorder.pc ≠ Pc.returned → rest = (t.callback.map AudioRawData.buffer).toList))

/-- Number of writer steps that surely suffice to reach the return once the
flag is cleared. -/
def stepsLeft (s : State) : Nat :=
  match s.pc with
  | Pc.notStarted => 0
  | Pc.entry => 2 * s.audioBuffer.length + 2
  | Pc.loopHead => 2 * s.audioBuffer.length + 1
  | Pc.holding _ => 2 * s.audioBuffer.length + 2
  | Pc.returned => 0

end RealZoomAudioRecorder

/-! ## Lemmas on bytes and streams -/

theorem le32_length (n : Nat) : (le32 n).length = 4 := rfl

theorem le16_length (n : Nat) : (le16 n).length = 2 := rfl

theorem fromLE_le32 (n : Nat) : fromLE (le32 n) = n % U32 := by
  simp only [le32, fromLE, U32]
  omega

theorem wavHeaderBytes_length (a b : Nat) : (wavHeaderBytes a b).length = 44 := rfl

/-- Reading back a 32-bit field right where it was written. -/
theorem readLE32_writeAt (bytes : List Nat) (pos n : Nat) :
    readLE32 (writeAt bytes pos (le32 n)) pos = n % U32 := by
  have hlen : (bytes.take pos ++ List.replicate (pos - bytes.length) 0).length = pos := by
    simp only [List.length_append, List.length_take, List.length_replicate]
    omega
  unfold readLE32 writeAt
  rw [List.append_assoc, List.append_assoc]
  rw [← List.append_assoc (bytes.take pos)]
  rw [List.drop_append_of_le_length (by omega)]
  rw [List.drop_of_length_le (by omega), List.nil_append]
  rw [List.take_append_of_le_length (by simp [le32_length])]
  rw [List.take_of_length_le (by simp [le32_length])]
  exact fromLE_le32 n

theorem writeAt_length (bytes : List Nat) (pos : Nat) (data : List Nat) :
    (writeAt bytes pos data).length = max bytes.length (pos + data.length) := by
  simp only [writeAt, List.length_append, List.length_take, List.length_replicate,
    List.length_drop]
  omega

/-- A write further on leaves a 32-bit field that lies before it untouched. -/
theorem readLE32_writeAt_of_le (bytes : List Nat) (pos off : Nat) (data : List Nat)
    (h1 : off + 4 ≤ pos) (h2 : off + 4 ≤ bytes.length) :
    readLE32 (writeAt bytes pos data) off = readLE32 bytes off := by
  have hlen : off + 4 ≤ (bytes.take pos).length := by
    simp only [List.length_take]; omega
  unfold readLE32 writeAt
  rw [List.append_assoc, List.append_assoc]
  rw [List.drop_append_of_le_length (by omega)]
  rw [List.take_append_of_le_length (by simp only [List.length_drop]; omega)]
  rw [List.drop_take, List.take_take]
  have e : min 4 (pos - off) = 4 := by omega
  rw [e]

/-- The two size fields after the seek-and-write sequence shared by the three
finalizers: `dataSize` at offset 40, `fileSize` at offset 4. -/
theorem finalize_fields (f : OFStream) (fileSize dataSize : Nat) :
    readLE32 (((f.seekp 4).write (le32 fileSize)).seekp 40 |>.write (le32 dataSize)).bytes 40
        = dataSize % U32 ∧
    readLE32 (((f.seekp 4).write (le32 fileSize)).seekp 40 |>.write (le32 dataSize)).bytes 4
        = fileSize % U32 := by
  constructor
  · simp only [OFStream.write, OFStream.seekp]
    exact readLE32_writeAt _ _ _
  · simp only [OFStream.write, OFStream.seekp]
    rw [readLE32_writeAt_of_le _ _ _ _ (by omega)
      (by rw [writeAt_length, le32_length]; omega)]
    exact readLE32_writeAt _ _ _

/-! ## C1: the size fields written by the finalizers -/

/-- C1 (as stated, refuted): with `N = 2^31` samples the hybrid recorder's
`updateWAVHeader` stores 0 in the `dataSize` field, not `N * 2`, and 36 in
the `fileSize` field, not `36 + N * 2`. -/
theorem C1_overflow_counterexample :
    readLE32 (ZoomAudioRecorder.updateWAVHeader
        (ZoomAudioRecorder.writeWAVHeader OFStream.opened) 2147483648).bytes 40 = 0 ∧
    readLE32 (ZoomAudioRecorder.updateWAVHeader
        (ZoomAudioRecorder.writeWAVHeader OFStream.opened) 2147483648).bytes 40
      ≠ 2147483648 * 2 ∧
    readLE32 (ZoomAudioRecorder.updateWAVHeader
        (ZoomAudioRecorder.writeWAVHeader OFStream.opened) 2147483648).bytes 4
      ≠ 36 + 2147483648 * 2 := by
  have h := finalize_fields (ZoomAudioRecorder.writeWAVHeader OFStream.opened)
    ((36 + 2147483648 * 2 % U32) % U32) (2147483648 * 2 % U32)
  have hd : readLE32 (ZoomAudioRecorder.updateWAVHeader
      (ZoomAudioRecorder.writeWAVHeader OFStream.opened) 2147483648).bytes 40
      = 2147483648 * 2 % U32 % U32 := h.1
  have hf : readLE32 (ZoomAudioRecorder.updateWAVHeader
      (ZoomAudioRecorder.writeWAVHeader OFStream.opened) 2147483648).bytes 4
      = (36 + 2147483648 * 2 % U32) % U32 % U32 := h.2
  rw [hd, hf]
  simp [U32]

/-- C1 (amended): for every stream and every sample count `N`, each of the
three finalizers (`updateWAVHeader` of the hybrid and of the real-SDK
recorder, `SystemAudioCapture::stop` on an open file with `totalSamples = N`)
stores `N * 2` reduced modulo `2^32` at offset 40 and `36 + N * 2` reduced
modulo `2^32` at offset 4; the stored values are `N * 2` and `36 + N * 2`
themselves whenever these are below `2^32`. -/
theorem C1_finalizer_fields (f : OFStream) (s : SystemAudioCapture) (N : Nat)
    (hopen : s.audioFileOpen = true) (hN : s.totalSamples = N) :
    ∀ bytes ∈ [(ZoomAudioRecorder.updateWAVHeader f N).bytes,
               (RealZoomAudioRecorder.updateWAVHeader f N).bytes,
               (SystemAudioCapture.stop s).audioFile.bytes],
      readLE32 bytes 40 = N * 2 % U32 ∧
      readLE32 bytes 4 = (36 + N * 2) % U32 ∧
      (N * 2 < U32 → readLE32 bytes 40 = N * 2) ∧
      (36 + N * 2 < U32 → readLE32 bytes 4 = 36 + N * 2) := by
  have h := finalize_fields f ((36 + N * 2 % U32) % U32) (N * 2 % U32)
  have h2 := finalize_fields s.audioFile ((36 + N * 2) % U32) (N * 2 % U32)
  have e1 : N * 2 % U32 % U32 = N * 2 % U32 := Nat.mod_mod _ _
  have e2 : (36 + N * 2 % U32) % U32 % U32 = (36 + N * 2) % U32 := by
    rw [Nat.mod_mod, Nat.add_mod_mod]
  have e3 : (36 + N * 2) % U32 % U32 = (36 + N * 2) % U32 := Nat.mod_mod _ _
  rw [e1, e2] at h
  rw [e1, e3] at h2
  have key : ∀ bytes : List Nat, readLE32 bytes 40 = N * 2 % U32 →
      readLE32 bytes 4 = (36 + N * 2) % U32 →
      readLE32 bytes 40 = N * 2 % U32 ∧
      readLE32 bytes 4 = (36 + N * 2) % U32 ∧
      (N * 2 < U32 → readLE32 bytes 40 = N * 2) ∧
      (36 + N * 2 < U32 → readLE32 bytes 4 = 36 + N * 2) := by
    intro bytes hd hf
    exact ⟨hd, hf, fun hlt => by rw [hd, Nat.mod_eq_of_lt hlt],
      fun hlt => by rw [hf, Nat.mod_eq_of_lt hlt]⟩
  have hs : readLE32 (SystemAudioCapture.stop s).audioFile.bytes 40 = N * 2 % U32 ∧
      readLE32 (SystemAudioCapture.stop s).audioFile.bytes 4 = (36 + N * 2) % U32 := by
    subst hN
    simpa [SystemAudioCapture.stop, hopen] using h2
  intro bytes hb
  simp only [List.mem_cons, List.mem_singleton, List.not_mem_nil, or_false] at hb
  rcases hb with rfl | rfl | rfl
  · exact key _ h.1 h.2
  · exact key _ h.1 h.2
  · exact key _ hs.1 hs.2

/-- C1 (amended), at a concrete input: 16000 samples, for the hybrid recorder
on a file that holds the provisional header. -/
theorem C1_finalizer_fields_witness :
    readLE32 (ZoomAudioRecorder.updateWAVHeader
      (ZoomAudioRecorder.writeWAVHeader OFStream.opened) 16000).bytes 40 = 16000 * 2 :=
  (C1_finalizer_fields (ZoomAudioRecorder.writeWAVHeader OFStream.opened)
    { SystemAudioCapture.constructed with audioFileOpen := true, totalSamples := 16000 }
    16000 rfl rfl _ (List.mem_cons_self _ _)).2.2.1 (by decide)

/-! ## Appending to a stream and rewriting the header in place -/

/-- Writing at the end of the content appends. -/
theorem writeAt_end (bytes data : List Nat) (p : Nat) (hp : p = bytes.length) :
    writeAt bytes p data = bytes ++ data := by
  subst hp
  simp [writeAt]

/-- A write at the end of the file appends. -/
theorem OFStream.write_at_end (bytes data : List Nat) :
    OFStream.write ⟨bytes, bytes.length⟩ data = ⟨bytes ++ data, bytes.length + data.length⟩ := by
  simp [OFStream.write, writeAt]

/-- The seek-and-write sequence of the finalizers, on a file that starts with
a 44-byte header: the two size fields change, nothing else does. -/
theorem finalize_bytes (a b a1 b1 p : Nat) (d : List Nat) :
    ((((OFStream.mk (wavHeaderBytes a b ++ d) p).seekp 4).write (le32 a1)).seekp 40
        |>.write (le32 b1)) = ⟨wavHeaderBytes a1 b1 ++ d, 44⟩ := by
  simp [OFStream.write, OFStream.seekp, writeAt, wavHeaderBytes, le32, le16]

/-! ## The real-SDK recorder: invariant of the queue and the file -/

namespace RealZoomAudioRecorder

theorem queuedBytes_append (q : List AudioFrame) (fr : AudioFrame) :
    queuedBytes (q ++ [fr]) = queuedBytes q ++ fr.data := by
  simp [queuedBytes]

theorem queuedBytes_cons (fr : AudioFrame) (q : List AudioFrame) :
    queuedBytes (fr :: q) = fr.data ++ queuedBytes q := by
  simp [queuedBytes]

theorem inv_writerStep (s : State) (acc : List Nat) (h : Inv s acc) :
    Inv (writerStep true s) acc := by
  obtain ⟨q, r, pc, file, total⟩ := s
  cases pc with
  | notStarted => exact h
  | entry =>
    obtain ⟨_, h2⟩ := h
    refine ⟨[], ?_, by simpa using h2⟩
    simp [writerStep, writeWAVHeader, OFStream.write, OFStream.opened, writeAt,
      wavHeaderBytes_length]
  | loopHead =>
    obtain ⟨w, h1, h2⟩ := h
    simp only at h1 h2
    cases q with
    | nil =>
      cases r
      · subst h1
        simp only [queuedBytes, List.map_nil, List.flatten_nil, List.append_nil] at h2
        subst h2
        simp only [writerStep, Bool.false_or, List.isEmpty_nil, Bool.not_true,
          Bool.false_eq_true, if_false, Option.map_some', Inv, true_and]
        exact ⟨44, by rw [updateWAVHeader, finalize_bytes]⟩
      · simp only [writerStep, Bool.true_or, if_true, Inv]
        exact ⟨w, h1, h2⟩
    | cons fr rest =>
      have hc : (r || !(fr :: rest).isEmpty) = true := by simp
      simp only [writerStep, hc, if_true, Inv]
      refine ⟨w, h1, ?_⟩
      rw [← h2, queuedBytes_cons, List.append_assoc]
  | holding fr =>
    obtain ⟨w, h1, h2⟩ := h
    simp only at h1 h2
    subst h1
    simp only [writerStep, Option.map_some', Inv]
    refine ⟨w ++ fr.data, ?_, by rw [← h2]⟩
    have e : 44 + w.length = (wavHeaderBytes 36 0 ++ w).length := by
      simp [wavHeaderBytes_length]
    rw [e, OFStream.write_at_end]
    simp [wavHeaderBytes_length, Nat.add_assoc]
  | returned => exact h

theorem inv_clearFlag (s : State) (acc : List Nat) (h : Inv s acc) :
    Inv { s with recording := false } acc := by
  obtain ⟨q, r, pc, file, total⟩ := s
  cases pc <;> simp_all [Inv]

theorem inv_started : Inv started [] := by
  simp [Inv, started, queuedBytes]

end RealZoomAudioRecorder

namespace RealZoomAudioRecorder

theorem writerStep_recording (b : Bool) (s : State) :
    (writerStep b s).recording = s.recording := by
  obtain ⟨q, r, pc, file, total⟩ := s
  cases pc <;> simp only [writerStep] <;> (try split) <;> (try split) <;> rfl

/-- Once the flag is cleared every writer step brings the return nearer. -/
theorem stepsLeft_writerStep (s : State) (hr : s.recording = false) :
    stepsLeft (writerStep true s) ≤ stepsLeft s - 1 ∧
    ((writerStep true s).pc = Pc.notStarted → s.pc = Pc.notStarted) := by
  obtain ⟨q, r, pc, file, total⟩ := s
  simp only at hr
  subst hr
  cases pc with
  | notStarted => simp [writerStep, stepsLeft]
  | entry => simp [writerStep, stepsLeft]
  | loopHead =>
    cases q with
    | nil => simp [writerStep, stepsLeft]
    | cons fr rest => simp [writerStep, stepsLeft]; omega
  | holding fr => simp [writerStep, stepsLeft]
  | returned => simp [writerStep, stepsLeft]

theorem run_writers_returns (n : Nat) : ∀ s : State, s.recording = false →
    s.pc ≠ Pc.notStarted → stepsLeft s ≤ n →
    (run true s (List.replicate n Event.writer)).pc = Pc.returned := by
  induction n with
  | zero =>
    intro s _ hpc hle
    obtain ⟨q, r, pc, file, total⟩ := s
    cases pc <;> simp_all [stepsLeft, run]
  | succ n ih =>
    intro s hr hpc hle
    have h := stepsLeft_writerStep s hr
    have hrun : run true s (List.replicate (n + 1) Event.writer)
        = run true (writerStep true s) (List.replicate n Event.writer) := by
      simp [run, List.replicate_succ, step]
    rw [hrun]
    apply ih
    · rw [writerStep_recording]; exact hr
    · exact fun hc => hpc (h.2 hc)
    · omega

theorem pc_ne_notStarted_of_inv (s : State) (acc : List Nat) (h : Inv s acc) :
    s.pc ≠ Pc.notStarted := by
  intro hc
  obtain ⟨q, r, pc, file, total⟩ := s
  simp only at hc
  subst hc
  exact h

end RealZoomAudioRecorder

/-! ## C2: the recorded bytes and the delivered buffers -/

namespace RealZoomAudioRecorder

/-- A push before the return adds the buffer to what the invariant accounts
for, whatever the flag is. -/
theorem inv_push (s : State) (acc : List Nat) (d : AudioRawData) (h : Inv s acc)
    (hpc : s.pc ≠ Pc.returned) : Inv (callbackPush s d) (acc ++ d.buffer) := by
  obtain ⟨q, r, pc, file, total⟩ := s
  cases pc <;> simp only [Inv, callbackPush, queuedBytes_append] at h ⊢
  · obtain ⟨h1, h2⟩ := h
    exact ⟨h1, by rw [← h2]⟩
  · obtain ⟨w, h1, h2⟩ := h
    exact ⟨w, h1, by simp [← h2]⟩
  · obtain ⟨w, h1, h2⟩ := h
    exact ⟨w, h1, by simp [← h2]⟩
  · exact absurd rfl hpc

theorem written_of_inv (s : State) (acc : List Nat) (h : Inv s acc) : Written s acc := by
  obtain ⟨q, r, pc, file, total⟩ := s
  by_cases hpc : pc = Pc.returned
  · subst hpc
    simp only [Written, if_true]
    exact ⟨h.1, h.2.2⟩
  · simp only [Written, hpc, if_false]
    exact h

theorem inv_of_written (s : State) (acc : List Nat) (h : Written s acc)
    (hpc : s.pc ≠ Pc.returned) : Inv s acc := by
  simp only [Written, hpc, if_false] at h
  exact h

theorem written_returned (s : State) (acc : List Nat) (h : Written s acc)
    (hpc : s.pc = Pc.returned) :
    s.recording = false ∧
    ∃ p, s.audioFile = some
      ⟨wavHeaderBytes ((36 + s.totalSamples * 2 % U32) % U32) (s.totalSamples * 2 % U32)
        ++ acc, p⟩ := by
  simp only [Written, hpc, if_true] at h
  exact h

theorem writerStep_returned (b : Bool) (s : State) (hpc : s.pc = Pc.returned) :
    writerStep b s = s := by
  obtain ⟨q, r, pc, file, total⟩ := s
  simp only at hpc
  subst hpc
  rfl

theorem written_writerStep (s : State) (acc : List Nat) (h : Written s acc) :
    Written (writerStep true s) acc := by
  by_cases hpc : s.pc = Pc.returned
  · rw [writerStep_returned true s hpc]
    exact h
  · exact written_of_inv _ _ (inv_writerStep s acc (inv_of_written s acc h hpc))

theorem written_clearFlag (s : State) (acc : List Nat) (h : Written s acc) :
    Written { s with recording := false } acc := by
  by_cases hpc : s.pc = Pc.returned
  · have k := written_returned s acc h hpc
    simp only [Written, hpc, if_true, true_and]
    exact k.2
  · exact written_of_inv _ _ (inv_clearFlag s acc (inv_of_written s acc h hpc))

theorem written_push_returned (s : State) (acc : List Nat) (d : AudioRawData)
    (h : Written s acc) (hpc : s.pc = Pc.returned) : Written (callbackPush s d) acc := by
  have k := written_returned s acc h hpc
  have e : (callbackPush s d).pc = Pc.returned := hpc
  simp only [Written, e, if_true]
  exact k

theorem written_pc (s : State) (acc : List Nat) (h : Written s acc) :
    s.pc ≠ Pc.notStarted ∧ (s.recording = true → s.pc ≠ Pc.returned) := by
  constructor
  · intro hc
    have hne : s.pc ≠ Pc.returned := by rw [hc]; simp
    exact pc_ne_notStarted_of_inv s acc (inv_of_written s acc h hne) hc
  · intro hr hc
    have k := written_returned s acc h hc
    rw [hr] at k
    exact absurd k.1 (by simp)

/-- A whole call of the callback is its test followed at once by its push. -/
theorem whole_call (b : Bool) (s : State) (data_ : Option AudioRawData) :
    act b (act b ⟨s, none⟩ (Action.test data_)) Action.push
      = ⟨onMixedAudioRawDataReceived s data_, none⟩ := by
  simp only [act, onMixedAudioRawDataReceived]
  cases callbackTest s data_ <;> rfl

/-- Every action keeps the invariant, the three records being extended by
what is noted of the action. -/
theorem consistent_act (t : Threads) (a : Action) (P W A : List (List Nat))
    (h : Consistent t P W A) :
    Consistent (act true t a) (P ++ pushedBeforeReturn t a) (W ++ pushedWhileRecording t a)
      (A ++ accepted t a) := by
  obtain ⟨hw, ⟨late, hP, hlen, hrec, hcb⟩, ⟨rest, hA, hrest⟩⟩ := h
  obtain ⟨s, c⟩ := t
  simp only at hw hrec hcb hrest
  cases a with
  | test data_ =>
    cases c with
    | some d0 =>
      have e1 : accepted ⟨s, some d0⟩ (Action.test data_) = [] := by
        cases data_ <;> simp [accepted]
      simp only [act, pushedBeforeReturn, pushedWhileRecording, e1, List.append_nil]
      exact ⟨hw, ⟨late, hP, hlen, hrec, hcb⟩, ⟨rest, hA, hrest⟩⟩
    | none =>
      cases data_ with
      | none =>
        have e2 : callbackTest s none = none := by simp [callbackTest]
        simp only [act, pushedBeforeReturn, pushedWhileRecording, accepted, e2, List.append_nil]
        exact ⟨hw, ⟨late, hP, hlen, hrec, hcb⟩, ⟨rest, hA, hrest⟩⟩
      | some d =>
        cases hr : s.recording with
        | false =>
          have e2 : callbackTest s (some d) = none := by simp [callbackTest, hr]
          simp only [act, pushedBeforeReturn, pushedWhileRecording, accepted, e2, hr,
            Option.isNone_none, Bool.and_false, Bool.false_eq_true, if_false, List.append_nil]
          exact ⟨hw, ⟨late, hP, hlen, hrec, hcb⟩, ⟨rest, hA, hrest⟩⟩
        | true =>
          have e2 : callbackTest s (some d) = some d := by simp [callbackTest, hr]
          have hl : late = [] := hrec hr
          have hne := (written_pc s _ hw).2 hr
          have hr0 : rest = [] := by simpa using hrest hne
          simp only [act, pushedBeforeReturn, pushedWhileRecording, accepted, e2, hr,
            Option.isNone_none, Bool.and_true, if_true, List.append_nil]
          refine ⟨hw, ⟨[], ?_, by simp, fun _ => rfl, fun _ => rfl⟩, ⟨[d.buffer], ?_, ?_⟩⟩
          · rw [hP, hl]
          · rw [hA, hr0, List.append_nil]
          · intro _; rfl
  | push =>
    cases c with
    | none =>
      simp only [act, pushedBeforeReturn, pushedWhileRecording, accepted, List.append_nil]
      exact ⟨hw, ⟨late, hP, hlen, hrec, hcb⟩, ⟨rest, hA, hrest⟩⟩
    | some d =>
      have hl : late = [] := hcb rfl
      rw [hl, List.append_nil] at hP
      by_cases hpc : s.pc = Pc.returned
      · have hr : s.recording = false := (written_returned s _ hw hpc).1
        simp only [act, pushedBeforeReturn, pushedWhileRecording, accepted, hpc, hr, if_true,
          Bool.false_eq_true, if_false, List.append_nil]
        refine ⟨written_push_returned s _ d hw hpc, ⟨[], by rw [hP, List.append_nil], by simp,
          fun _ => rfl, fun _ => rfl⟩, ⟨rest, hA, ?_⟩⟩
        intro hne
        exact absurd hpc hne
      · have hr0 : rest = [d.buffer] := by simpa using hrest hpc
        have hwr : Written (callbackPush s d) (P ++ [d.buffer]).flatten := by
          rw [List.flatten_append]
          have := written_of_inv _ _ (inv_push s _ d (inv_of_written s _ hw hpc) hpc)
          simpa using this
        cases hr : s.recording with
        | true =>
          simp only [act, pushedBeforeReturn, pushedWhileRecording, accepted, hpc, hr, if_true,
            if_false, List.append_nil]
          refine ⟨hwr, ⟨[], by rw [hP, List.append_nil], by simp, fun _ => rfl, fun _ => rfl⟩,
            ⟨[], by rw [hA, hr0, List.append_nil], fun _ => rfl⟩⟩
        | false =>
          simp only [act, pushedBeforeReturn, pushedWhileRecording, accepted, hpc, hr,
            Bool.false_eq_true, if_false, List.append_nil]
          refine ⟨hwr, ⟨[d.buffer], by rw [hP], by simp, ?_, ?_⟩,
            ⟨[], by rw [hA, hr0, List.append_nil], fun _ => rfl⟩⟩
          · intro hc
            have e : (callbackPush s d).recording = s.recording := rfl
            rw [e, hr] at hc
            exact absurd hc (by simp)
          · intro hc
            exact absurd hc (by simp)
  | writer =>
    simp only [act, pushedBeforeReturn, pushedWhileRecording, accepted, List.append_nil]
    refine ⟨written_writerStep s _ hw, ⟨late, hP, hlen, ?_, hcb⟩, ⟨rest, hA, ?_⟩⟩
    · intro hc
      rw [writerStep_recording] at hc
      exact hrec hc
    · intro hne
      apply hrest
      intro hc
      apply hne
      rw [writerStep_returned true s hc]
      exact hc
  | clearFlag =>
    simp only [act, pushedBeforeReturn, pushedWhileRecording, accepted, List.append_nil]
    refine ⟨written_clearFlag s _ hw, ⟨late, hP, hlen, ?_, hcb⟩, ⟨rest, hA, hrest⟩⟩
    intro hc
    exact absurd hc (by simp)

/-- The invariant holds along every schedule. -/
theorem consistent_exec (acts : List Action) : ∀ (t : Threads) (P W A : List (List Nat)),
    Consistent t P W A →
    Consistent (exec true t acts) (P ++ record pushedBeforeReturn true t acts)
      (W ++ record pushedWhileRecording true t acts) (A ++ record accepted true t acts) := by
  induction acts with
  | nil =>
    intro t P W A h
    simpa [exec, record] using h
  | cons a acts ih =>
    intro t P W A h
    have k := ih _ _ _ _ (consistent_act t a P W A h)
    simpa [exec, record, List.append_assoc] using k

theorem consistent_started : Consistent startedThreads [] [] [] := by
  refine ⟨written_of_inv _ _ (by simpa using inv_started), ⟨[], rfl, by simp, fun _ => rfl,
    fun _ => rfl⟩, ⟨[], rfl, fun _ => rfl⟩⟩

/-- A schedule in two parts. -/
theorem exec_append (t : Threads) (a b : List Action) :
    exec true t (a ++ b) = exec true (exec true t a) b := by
  simp [exec, List.foldl_append]

/-- The record of a schedule in two parts. -/
theorem record_append (note : Threads → Action → List (List Nat)) (a b : List Action) :
    ∀ t : Threads, record note true t (a ++ b)
      = record note true t a ++ record note true (exec true t a) b := by
  induction a with
  | nil => intro t; simp [record, exec]
  | cons x a ih =>
    intro t
    have e : record note true t (x :: (a ++ b))
        = note t x ++ record note true (act true t x) (a ++ b) := rfl
    have e2 : record note true t (x :: a)
        = note t x ++ record note true (act true t x) a := rfl
    have e3 : exec true t (x :: a) = exec true (act true t x) a := rfl
    rw [List.cons_append, e, e2, e3, ih, List.append_assoc]

/-- Steps of the writer alone act on the recorder as in the coarser schedules. -/
theorem exec_writers (n : Nat) : ∀ t : Threads,
    exec true t (List.replicate n Action.writer)
      = { t with recorder := run true t.recorder (List.replicate n Event.writer) } := by
  induction n with
  | zero => intro t; rfl
  | succ n ih =>
    intro t
    have e : exec true t (Action.writer :: List.replicate n Action.writer)
        = exec true (act true t Action.writer) (List.replicate n Action.writer) := rfl
    have e2 : run true t.recorder (Event.writer :: List.replicate n Event.writer)
        = run true (writerStep true t.recorder) (List.replicate n Event.writer) := rfl
    rw [List.replicate_succ, List.replicate_succ, e, e2, ih]
    rfl

/-- Nothing is noted of the clearing of the flag followed by steps of the
writer, when nothing is noted of either action. -/
theorem record_clear_writers (note : Threads → Action → List (List Nat))
    (h1 : ∀ t, note t Action.writer = []) (h2 : ∀ t, note t Action.clearFlag = [])
    (n : Nat) (t : Threads) :
    record note true t (Action.clearFlag :: List.replicate n Action.writer) = [] := by
  have hw : ∀ (n : Nat) (u : Threads),
      record note true u (List.replicate n Action.writer) = [] := by
    intro n
    induction n with
    | zero => intro u; rfl
    | succ n ih =>
      intro u
      have e : record note true u (Action.writer :: List.replicate n Action.writer)
          = note u Action.writer
            ++ record note true (act true u Action.writer) (List.replicate n Action.writer) :=
        rfl
      rw [List.replicate_succ, e, h1, ih, List.append_nil]
  have e : record note true t (Action.clearFlag :: List.replicate n Action.writer)
      = note t Action.clearFlag
        ++ record note true (act true t Action.clearFlag) (List.replicate n Action.writer) :=
    rfl
  rw [e, h2, hw, List.append_nil]

/-- The file of a recorder whose loop has returned. -/
theorem written_file (s : State) (acc : List Nat) (h : Written s acc)
    (hpc : s.pc = Pc.returned) :
    s.recording = false ∧
    (∃ a b p, s.audioFile = some ⟨wavHeaderBytes a b ++ acc, p⟩) ∧ pcmBytes s = acc := by
  obtain ⟨h1, p, h3⟩ := written_returned s acc h hpc
  refine ⟨h1, ⟨_, _, p, h3⟩, ?_⟩
  simp only [pcmBytes, h3]
  exact List.drop_left' (wavHeaderBytes_length _ _)

/-- After the flag is cleared the writer returns within `stepsLeft` steps. -/
theorem exec_clear_writers_returns (t : Threads) (acc : List Nat)
    (h : Written t.recorder acc) :
    (exec true t (Action.clearFlag
        :: List.replicate (stepsLeft { t.recorder with recording := false })
            Action.writer)).recorder.pc = Pc.returned := by
  have e : exec true t (Action.clearFlag
      :: List.replicate (stepsLeft { t.recorder with recording := false }) Action.writer)
      = exec true (act true t Action.clearFlag)
          (List.replicate (stepsLeft { t.recorder with recording := false }) Action.writer) :=
    rfl
  rw [e, exec_writers]
  have hw := written_clearFlag t.recorder acc h
  exact run_writers_returns _ { t.recorder with recording := false } rfl
    (written_pc _ _ hw).1 (Nat.le_refl _)

end RealZoomAudioRecorder

/-- C2 (as stated, refuted): the callback of a two-byte buffer is delivered
while the flag is true and passes the test of line 209; before it takes the
lock the flag is cleared and the writer opens the file, finds the flag false
and the queue empty, and leaves its loop; the push then puts the frame into
the queue. `recordingLoop` has returned, the flag is clear, and the file holds
no byte after the header although one buffer was delivered while the flag was
true. -/
theorem C2_frame_lost_between_test_and_push_counterexample :
    RealZoomAudioRecorder.record RealZoomAudioRecorder.accepted true
        RealZoomAudioRecorder.startedThreads
        [RealZoomAudioRecorder.Action.test (some ⟨[1, 2], 16000, 1, 0⟩),
         RealZoomAudioRecorder.Action.clearFlag, RealZoomAudioRecorder.Action.writer,
         RealZoomAudioRecorder.Action.writer, RealZoomAudioRecorder.Action.push]
      = [[1, 2]] ∧
    RealZoomAudioRecorder.exec true RealZoomAudioRecorder.startedThreads
        [RealZoomAudioRecorder.Action.test (some ⟨[1, 2], 16000, 1, 0⟩),
         RealZoomAudioRecorder.Action.clearFlag, RealZoomAudioRecorder.Action.writer,
         RealZoomAudioRecorder.Action.writer, RealZoomAudioRecorder.Action.push]
      = ⟨⟨[⟨[1, 2], 16000, 1, 0⟩], false, RealZoomAudioRecorder.Pc.returned,
          some ⟨wavHeaderBytes 36 0, 44⟩, 0⟩, none⟩ ∧
    RealZoomAudioRecorder.pcmBytes
        (RealZoomAudioRecorder.exec true RealZoomAudioRecorder.startedThreads
          [RealZoomAudioRecorder.Action.test (some ⟨[1, 2], 16000, 1, 0⟩),
           RealZoomAudioRecorder.Action.clearFlag, RealZoomAudioRecorder.Action.writer,
           RealZoomAudioRecorder.Action.writer,
           RealZoomAudioRecorder.Action.push]).recorder = [] := by
  refine ⟨by decide, by decide, by decide⟩

/-- C2 (amended): in `RealZoomAudioRecorder`, started with the output file
opening, the callbacks being delivered one call after the other, for every
schedule of flag tests and pushes of the callback, writer steps and clearing
of the flag, with `P` the buffers pushed before `recordingLoop` left its loop,
`W` the buffers pushed while the flag was true and `A` the buffers delivered
while the flag was true (accepted by the test), each in order:
once `recordingLoop` has returned, the flag is clear and the file is the
44-byte final header followed by exactly the concatenation of `P`; `P` is `W`
followed by at most one more buffer; `P` is a beginning of `A`; clearing the
flag and letting the writer run makes `recordingLoop` return; and when the
flag is cleared while it is true and no call is between its test and its
push, the file ends as the header followed by the concatenation of `A`. -/
theorem C2_file_is_pushed_before_return (acts : List RealZoomAudioRecorder.Action)
    (t : RealZoomAudioRecorder.Threads) (P W A : List (List Nat))
    (ht : t = RealZoomAudioRecorder.exec true RealZoomAudioRecorder.startedThreads acts)
    (hP : P = RealZoomAudioRecorder.record RealZoomAudioRecorder.pushedBeforeReturn true
      RealZoomAudioRecorder.startedThreads acts)
    (hW : W = RealZoomAudioRecorder.record RealZoomAudioRecorder.pushedWhileRecording true
      RealZoomAudioRecorder.startedThreads acts)
    (hA : A = RealZoomAudioRecorder.record RealZoomAudioRecorder.accepted true
      RealZoomAudioRecorder.startedThreads acts) :
    (t.recorder.pc = RealZoomAudioRecorder.Pc.returned →
      t.recorder.recording = false ∧
      (∃ a b p, t.recorder.audioFile = some ⟨wavHeaderBytes a b ++ P.flatten, p⟩) ∧
      RealZoomAudioRecorder.pcmBytes t.recorder = P.flatten) ∧
    (∃ late, P = W ++ late ∧ late.length ≤ 1) ∧
    (∃ rest, A = P ++ rest) ∧
    (∃ n, (RealZoomAudioRecorder.exec true t (RealZoomAudioRecorder.Action.clearFlag
          :: List.replicate n RealZoomAudioRecorder.Action.writer)).recorder.pc
        = RealZoomAudioRecorder.Pc.returned) ∧
    (t.recorder.recording = true → t.callback = none →
      ∃ n, (RealZoomAudioRecorder.exec true t (RealZoomAudioRecorder.Action.clearFlag
            :: List.replicate n RealZoomAudioRecorder.Action.writer)).recorder.pc
          = RealZoomAudioRecorder.Pc.returned ∧
        RealZoomAudioRecorder.pcmBytes
          (RealZoomAudioRecorder.exec true t (RealZoomAudioRecorder.Action.clearFlag
            :: List.replicate n RealZoomAudioRecorder.Action.writer)).recorder
          = A.flatten) := by
  have hc := RealZoomAudioRecorder.consistent_exec acts _ _ _ _
    RealZoomAudioRecorder.consistent_started
  simp only [List.nil_append] at hc
  rw [← ht, ← hP, ← hW, ← hA] at hc
  obtain ⟨hw, ⟨late, h1, h2, -, -⟩, ⟨rest, h3, h4⟩⟩ := hc
  refine ⟨fun hpc => RealZoomAudioRecorder.written_file _ _ hw hpc, ⟨late, h1, h2⟩, ⟨rest, h3⟩,
    ⟨_, RealZoomAudioRecorder.exec_clear_writers_returns t _ hw⟩, ?_⟩
  intro hr hcb
  refine ⟨_, RealZoomAudioRecorder.exec_clear_writers_returns t _ hw, ?_⟩
  have hne := (RealZoomAudioRecorder.written_pc _ _ hw).2 hr
  have hrest : rest = [] := by
    rw [h4 hne, hcb]
    rfl
  rw [hrest, List.append_nil] at h3
  have hc2 := RealZoomAudioRecorder.consistent_exec
    (acts ++ RealZoomAudioRecorder.Action.clearFlag
      :: List.replicate (RealZoomAudioRecorder.stepsLeft { t.recorder with recording := false })
          RealZoomAudioRecorder.Action.writer) _ _ _ _
    RealZoomAudioRecorder.consistent_started
  simp only [List.nil_append] at hc2
  rw [RealZoomAudioRecorder.exec_append, RealZoomAudioRecorder.record_append, ← ht, ← hP,
    RealZoomAudioRecorder.record_clear_writers _ (fun _ => rfl) (fun _ => rfl),
    List.append_nil] at hc2
  have hfile := RealZoomAudioRecorder.written_file _ _ hc2.1
    (RealZoomAudioRecorder.exec_clear_writers_returns t _ hw)
  rw [h3]
  exact hfile.2.2

/-- C2 (amended) at a concrete schedule: a first callback is pushed and
written while the flag is true; a second one passes the test, the flag is
cleared, and its push comes before the writer looks at the queue again, so
its buffer is in the file as well. -/
theorem C2_file_is_pushed_before_return_witness :
    (RealZoomAudioRecorder.exec true RealZoomAudioRecorder.startedThreads
        [RealZoomAudioRecorder.Action.test (some ⟨[1, 2], 16000, 1, 0⟩),
         RealZoomAudioRecorder.Action.push, RealZoomAudioRecorder.Action.writer,
         RealZoomAudioRecorder.Action.writer, RealZoomAudioRecorder.Action.writer,
         RealZoomAudioRecorder.Action.test (some ⟨[3, 4, 5], 16000, 1, 1⟩),
         RealZoomAudioRecorder.Action.clearFlag, RealZoomAudioRecorder.Action.push,
         RealZoomAudioRecorder.Action.writer, RealZoomAudioRecorder.Action.writer,
         RealZoomAudioRecorder.Action.writer]).recorder.pc
      = RealZoomAudioRecorder.Pc.returned ∧
    RealZoomAudioRecorder.pcmBytes
        (RealZoomAudioRecorder.exec true RealZoomAudioRecorder.startedThreads
          [RealZoomAudioRecorder.Action.test (some ⟨[1, 2], 16000, 1, 0⟩),
           RealZoomAudioRecorder.Action.push, RealZoomAudioRecorder.Action.writer,
           RealZoomAudioRecorder.Action.writer, RealZoomAudioRecorder.Action.writer,
           RealZoomAudioRecorder.Action.test (some ⟨[3, 4, 5], 16000, 1, 1⟩),
           RealZoomAudioRecorder.Action.clearFlag, RealZoomAudioRecorder.Action.push,
           RealZoomAudioRecorder.Action.writer, RealZoomAudioRecorder.Action.writer,
           RealZoomAudioRecorder.Action.writer]).recorder
      = [1, 2, 3, 4, 5] :=
  ⟨by decide,
   ((C2_file_is_pushed_before_return
      [RealZoomAudioRecorder.Action.test (some ⟨[1, 2], 16000, 1, 0⟩),
       RealZoomAudioRecorder.Action.push, RealZoomAudioRecorder.Action.writer,
       RealZoomAudioRecorder.Action.writer, RealZoomAudioRecorder.Action.writer,
       RealZoomAudioRecorder.Action.test (some ⟨[3, 4, 5], 16000, 1, 1⟩),
       RealZoomAudioRecorder.Action.clearFlag, RealZoomAudioRecorder.Action.push,
       RealZoomAudioRecorder.Action.writer, RealZoomAudioRecorder.Action.writer,
       RealZoomAudioRecorder.Action.writer] _ _ _ _ rfl rfl rfl rfl).1 (by decide)).2.2.trans
     (by decide)⟩

/-! ## C3: the writer loop leaves only when drained -/

/-- C3: in the writer loop of the hybrid recorder and of the SDK recorder, at
the loop head the loop is left (and the header finalized) exactly when the
recording flag is false and the queue is empty; with a non-empty queue the
step removes exactly the front frame and takes it in hand, leaving the rest
of the queue in order; the step that follows writes the frame in hand and
comes back to the loop head without touching the queue. -/
theorem C3_writer_exits_only_when_drained {σ : Type} (sample : Nat → σ → Int × σ)
    (fileOpens : Bool) (waitpid : Int) (s : ZoomAudioRecorder.State σ)
    (z : RealZoomAudioRecorder.State) :
    (s.pc = ZoomAudioRecorder.Pc.loopHead →
      (((ZoomAudioRecorder.writerStep sample fileOpens waitpid s).pc
          = ZoomAudioRecorder.Pc.returned ↔ (s.recording = false ∧ s.audioBuffer = [])) ∧
       (s.recording = false ∧ s.audioBuffer = [] →
          (ZoomAudioRecorder.writerStep sample fileOpens waitpid s).audioFile
            = s.audioFile.map (fun f => ZoomAudioRecorder.updateWAVHeader f s.totalSamples)) ∧
       (∀ fr rest, s.audioBuffer = fr :: rest →
          (ZoomAudioRecorder.writerStep sample fileOpens waitpid s).audioBuffer = rest ∧
          (ZoomAudioRecorder.writerStep sample fileOpens waitpid s).pc
            = ZoomAudioRecorder.Pc.holding fr))) ∧
    (∀ fr, s.pc = ZoomAudioRecorder.Pc.holding fr →
      (ZoomAudioRecorder.writerStep sample fileOpens waitpid s).pc
        = ZoomAudioRecorder.Pc.loopHead ∧
      (ZoomAudioRecorder.writerStep sample fileOpens waitpid s).audioBuffer = s.audioBuffer) ∧
    (z.pc = RealZoomAudioRecorder.Pc.loopHead →
      (((ZoomSDKAudioRecorder.writerStep fileOpens z).pc = RealZoomAudioRecorder.Pc.returned
          ↔ (z.recording = false ∧ z.audioBuffer = [])) ∧
       (z.recording = false ∧ z.audioBuffer = [] →
          (ZoomSDKAudioRecorder.writerStep fileOpens z).audioFile
            = z.audioFile.map (fun f => ZoomSDKAudioRecorder.updateWAVHeader f z.totalSamples)) ∧
       (∀ fr rest, z.audioBuffer = fr :: rest →
          (ZoomSDKAudioRecorder.writerStep fileOpens z).audioBuffer = rest ∧
          (ZoomSDKAudioRecorder.writerStep fileOpens z).pc
            = RealZoomAudioRecorder.Pc.holding fr))) ∧
    (∀ fr, z.pc = RealZoomAudioRecorder.Pc.holding fr →
      (ZoomSDKAudioRecorder.writerStep fileOpens z).pc = RealZoomAudioRecorder.Pc.loopHead ∧
      (ZoomSDKAudioRecorder.writerStep fileOpens z).audioBuffer = z.audioBuffer) := by
  refine ⟨?_, ?_, ?_, ?_⟩
  · intro hpc
    rcases s with ⟨q, r, ts, pid, p1, p2, sub, tOff, g, pc, file, total⟩
    simp only at hpc
    subst hpc
    cases q with
    | nil =>
      cases r
      · simp [ZoomAudioRecorder.writerStep]
      · simp only [ZoomAudioRecorder.writerStep, Bool.true_or, if_true]
        refine ⟨?_, by simp, by simp⟩
        split
        · cases file <;> simp [ZoomAudioRecorder.generateRealtimeAudio]
        · simp
    | cons fr rest => simp [ZoomAudioRecorder.writerStep]
  · intro fr hpc
    rcases s with ⟨q, r, ts, pid, p1, p2, sub, tOff, g, pc, file, total⟩
    simp only at hpc
    subst hpc
    cases file <;> simp [ZoomAudioRecorder.writerStep]
  · intro hpc
    rcases z with ⟨q, r, pc, file, total⟩
    simp only at hpc
    subst hpc
    cases q with
    | nil => cases r <;> simp [ZoomSDKAudioRecorder.writerStep]
    | cons fr rest => simp [ZoomSDKAudioRecorder.writerStep]
  · intro fr hpc
    rcases z with ⟨q, r, pc, file, total⟩
    simp only at hpc
    subst hpc
    simp [ZoomSDKAudioRecorder.writerStep]

/-- C3 at a concrete state of the hybrid recorder: flag cleared, one frame
still queued; the step does not return but takes the frame. -/
theorem C3_writer_exits_only_when_drained_witness :
    (ZoomAudioRecorder.writerStep (fun _ (g : Unit) => ((0 : Int), g)) true 0
      { ZoomAudioRecorder.constructed () with
        audioBuffer := [⟨[5, -7], 16000, 1, 0⟩, ⟨[9], 16000, 1, 1⟩],
        pc := ZoomAudioRecorder.Pc.loopHead,
        audioFile := some (ZoomAudioRecorder.writeWAVHeader OFStream.opened) }).audioBuffer
      = [⟨[9], 16000, 1, 1⟩] :=
  ((C3_writer_exits_only_when_drained (fun _ (g : Unit) => ((0 : Int), g)) true 0
    { ZoomAudioRecorder.constructed () with
      audioBuffer := [⟨[5, -7], 16000, 1, 0⟩, ⟨[9], 16000, 1, 1⟩],
      pc := ZoomAudioRecorder.Pc.loopHead,
      audioFile := some (ZoomAudioRecorder.writeWAVHeader OFStream.opened) }
    RealZoomAudioRecorder.started).1 rfl).2.2 _ _ rfl |>.1

/-! ## `AudioRecorder`: the header fields -/

namespace AudioRecorder

theorem fileSizeField_eq (t : Nat) : fileSizeField t = (36 + t) % U32 := by
  simp only [fileSizeField, U64, U32]
  omega

theorem fileSizeField_dataSizeField (t : Nat) :
    fileSizeField t = (36 + dataSizeField t) % U32 := by
  simp only [fileSizeField, dataSizeField, U64, U32]
  omega

theorem writeWAVHeader_header (s : AudioRecorder) (h : FileHandle) (hf : s.audioFile_ = some h) :
    (writeWAVHeader s).header_
      = { fileSize := fileSizeField s.totalDataSize_, dataSize := dataSizeField s.totalDataSize_ } := by
  obtain ⟨disk, file, hdr, total, isRec⟩ := s
  simp only at hf
  subst hf
  cases hopen : h.isOpen <;> simp [writeWAVHeader, fileSeek, fileWrite, hopen]

theorem updateWAVHeader_header (s : AudioRecorder) (h : FileHandle) (hf : s.audioFile_ = some h) :
    (updateWAVHeader s).header_
      = { fileSize := fileSizeField s.totalDataSize_, dataSize := dataSizeField s.totalDataSize_ } := by
  obtain ⟨disk, file, hdr, total, isRec⟩ := s
  simp only at hf
  subst hf
  cases hopen : h.isOpen <;> simp [updateWAVHeader, fileSeek, fileWrite, hopen]

theorem writeWAVHeader_disk (s : AudioRecorder) (h : FileHandle) (hf : s.audioFile_ = some h)
    (hopen : h.isOpen = true) :
    (writeWAVHeader s).disk
      = wavHeaderBytes (fileSizeField s.totalDataSize_) (dataSizeField s.totalDataSize_)
          ++ s.disk.drop 44 ∧
    (writeWAVHeader s).audioFile_ = some ⟨true, max s.disk.length 44⟩ := by
  obtain ⟨disk, file, hdr, total, isRec⟩ := s
  obtain ⟨o, p⟩ := h
  simp only at hf hopen
  subst hf hopen
  simp [writeWAVHeader, fileSeek, fileWrite, WAVHeader.toBytes, writeAt, wavHeaderBytes_length]
  omega

theorem updateWAVHeader_disk (s : AudioRecorder) (h : FileHandle) (hf : s.audioFile_ = some h)
    (hopen : h.isOpen = true) :
    readLE32 (updateWAVHeader s).disk 4 = fileSizeField s.totalDataSize_ ∧
    readLE32 (updateWAVHeader s).disk 40 = dataSizeField s.totalDataSize_ := by
  obtain ⟨disk, file, hdr, total, isRec⟩ := s
  obtain ⟨o, p⟩ := h
  simp only at hf hopen
  subst hf hopen
  have key := finalize_fields ⟨disk, p⟩ (fileSizeField total) (dataSizeField total)
  have e1 : fileSizeField total % U32 = fileSizeField total := by
    rw [fileSizeField_eq, Nat.mod_mod]
  have e2 : dataSizeField total % U32 = dataSizeField total := by
    rw [dataSizeField, Nat.mod_mod]
  rw [e1, e2] at key
  simpa [updateWAVHeader, fileSeek, fileWrite, OFStream.write, OFStream.seekp, and_comm]
    using key

end AudioRecorder

namespace AudioRecorder

/-- State of a recorder after a successful start and writes of total content
`w`: recording, the stream open at the end of the file, the file a 44-byte
header followed by `w`, the counter equal to the length of `w`. -/
theorem recording_after_start (s : AudioRecorder) (hs : s.isRecording_ = false) :
    (startRecording s true).1 = true ∧
    (startRecording s true).2.isRecording_ = true ∧
    (startRecording s true).2.audioFile_ = some ⟨true, 44⟩ ∧
    (startRecording s true).2.disk
      = wavHeaderBytes (fileSizeField s.totalDataSize_) (dataSizeField s.totalDataSize_) ∧
    (startRecording s true).2.totalDataSize_ = 0 := by
  obtain ⟨disk, file, hdr, total, isRec⟩ := s
  simp only at hs
  subst hs
  have h := writeWAVHeader_disk
    { disk := [], audioFile_ := some ⟨true, 0⟩, header_ := hdr, totalDataSize_ := total,
      isRecording_ := false } ⟨true, 0⟩ rfl rfl
  simp only [List.drop_nil, List.append_nil, List.length_nil, Nat.zero_max] at h
  simp [startRecording, h.1, h.2]

theorem writeAudioData_recording (s : AudioRecorder) (a b : Nat) (w data : List Nat)
    (hr : s.isRecording_ = true) (hf : s.audioFile_ = some ⟨true, 44 + w.length⟩)
    (hd : s.disk = wavHeaderBytes a b ++ w) :
    (writeAudioData s data).isRecording_ = true ∧
    (writeAudioData s data).audioFile_ = some ⟨true, 44 + (w ++ data).length⟩ ∧
    (writeAudioData s data).disk = wavHeaderBytes a b ++ (w ++ data) ∧
    (writeAudioData s data).totalDataSize_ = (s.totalDataSize_ + data.length) % U64 ∧
    (writeAudioData s data).header_ = s.header_ := by
  obtain ⟨disk, file, hdr, total, isRec⟩ := s
  simp only at hr hf hd
  subst hr hf hd
  have e : 44 + w.length = (wavHeaderBytes a b ++ w).length := by simp [wavHeaderBytes_length]
  simp only [writeAudioData, fileWrite, Bool.not_true, Option.isNone_some, Bool.or_self,
    Bool.false_eq_true, if_false, if_true, true_and]
  refine ⟨by simp [Nat.add_assoc], ?_, trivial⟩
  rw [writeAt_end _ _ _ e, List.append_assoc]

theorem writeAll_recording (bufs : List (List Nat)) : ∀ (s : AudioRecorder) (a b : Nat)
    (w : List Nat), s.isRecording_ = true → s.audioFile_ = some ⟨true, 44 + w.length⟩ →
    s.disk = wavHeaderBytes a b ++ w →
    (writeAll s bufs).isRecording_ = true ∧
    (writeAll s bufs).audioFile_ = some ⟨true, 44 + (w ++ bufs.flatten).length⟩ ∧
    (writeAll s bufs).disk = wavHeaderBytes a b ++ (w ++ bufs.flatten) ∧
    (writeAll s bufs).totalDataSize_ % U64
      = (s.totalDataSize_ + (bufs.map List.length).sum) % U64 ∧
    (writeAll s bufs).header_ = s.header_ := by
  induction bufs with
  | nil =>
    intro s a b w hr hf hd
    simp only [writeAll, List.foldl_nil, List.flatten_nil, List.append_nil, List.map_nil,
      List.sum_nil, Nat.add_zero]
    exact ⟨hr, hf, hd, trivial, trivial⟩
  | cons d bufs ih =>
    intro s a b w hr hf hd
    obtain ⟨h1, h2, h3, h4, h5⟩ := writeAudioData_recording s a b w d hr hf hd
    obtain ⟨k1, k2, k3, k4, k5⟩ := ih (writeAudioData s d) a b (w ++ d) h1 h2 h3
    simp only [writeAll, List.foldl_cons] at k1 k2 k3 k4 k5 ⊢
    refine ⟨k1, ?_, ?_, ?_, k5.trans h5⟩
    · simpa [List.append_assoc] using k2
    · simpa [List.append_assoc] using k3
    · rw [k4, h4]
      simp only [List.map_cons, List.sum_cons, U64]
      omega

end AudioRecorder

namespace AudioRecorder

theorem stopRecording_recording (s : AudioRecorder) (a b p : Nat) (w : List Nat)
    (hr : s.isRecording_ = true) (hf : s.audioFile_ = some ⟨true, p⟩)
    (hd : s.disk = wavHeaderBytes a b ++ w) :
    stopRecording s = (true,
      { disk := wavHeaderBytes (fileSizeField s.totalDataSize_) (dataSizeField s.totalDataSize_)
                  ++ w,
        audioFile_ := none,
        header_ := ⟨fileSizeField s.totalDataSize_, dataSizeField s.totalDataSize_⟩,
        totalDataSize_ := s.totalDataSize_,
        isRecording_ := false }) := by
  obtain ⟨disk, file, hdr, total, isRec⟩ := s
  simp only at hr hf hd
  subst hr hf hd
  have key := congrArg OFStream.bytes
    (finalize_bytes a b (fileSizeField total) (dataSizeField total) p w)
  simp only [OFStream.write, OFStream.seekp] at key
  simp [stopRecording, updateWAVHeader, fileSeek, fileWrite, key]

end AudioRecorder

/-! ## C4: `fileSize` against `36 + dataSize` in `AudioRecorder` -/

/-- C4 (as stated, refuted): a recorder is started, given one buffer of
`2^32 - 36` bytes and stopped; `updateWAVHeader` leaves `fileSize = 0` and
`dataSize = 2^32 - 36` in the header and in the file, so `fileSize` is not
`36 + dataSize`. -/
theorem C4_header_invariant_counterexample :
    (AudioRecorder.stopRecording (AudioRecorder.writeAudioData
      (AudioRecorder.startRecording (AudioRecorder.constructed []) true).2
      (List.replicate 4294967260 0))).2.header_ = { fileSize := 0, dataSize := 4294967260 } ∧
    (AudioRecorder.stopRecording (AudioRecorder.writeAudioData
      (AudioRecorder.startRecording (AudioRecorder.constructed []) true).2
      (List.replicate 4294967260 0))).2.header_.fileSize
      ≠ 36 + (AudioRecorder.stopRecording (AudioRecorder.writeAudioData
      (AudioRecorder.startRecording (AudioRecorder.constructed []) true).2
      (List.replicate 4294967260 0))).2.header_.dataSize ∧
    readLE32 (AudioRecorder.stopRecording (AudioRecorder.writeAudioData
      (AudioRecorder.startRecording (AudioRecorder.constructed []) true).2
      (List.replicate 4294967260 0))).2.disk 4
      ≠ 36 + readLE32 (AudioRecorder.stopRecording (AudioRecorder.writeAudioData
      (AudioRecorder.startRecording (AudioRecorder.constructed []) true).2
      (List.replicate 4294967260 0))).2.disk 40 := by
  obtain ⟨-, h1, h2, h3, h4⟩ :=
    AudioRecorder.recording_after_start (AudioRecorder.constructed []) rfl
  obtain ⟨k1, k2, k3, k4, -⟩ := AudioRecorder.writeAudioData_recording _ _ _ []
    (List.replicate 4294967260 0) h1 h2 (by rw [h3, List.append_nil])
  rw [h4, List.length_replicate] at k4
  rw [AudioRecorder.stopRecording_recording _ _ _ _ _ k1 k2 k3, k4]
  have e1 : AudioRecorder.fileSizeField ((0 + 4294967260) % U64) = 0 := by decide
  have e2 : AudioRecorder.dataSizeField ((0 + 4294967260) % U64) = 4294967260 := by decide
  simp only [e1, e2]
  refine ⟨trivial, by decide, ?_⟩
  have r4 : ∀ d : List Nat, readLE32 (wavHeaderBytes 0 4294967260 ++ d) 4 = 0 := by
    intro d; simp [readLE32, wavHeaderBytes, le32, fromLE]
  have r40 : ∀ d : List Nat, readLE32 (wavHeaderBytes 0 4294967260 ++ d) 40 = 4294967260 := by
    intro d; simp [readLE32, wavHeaderBytes, le32, le16, fromLE]
  rw [r4, r40]
  decide

/-- C4 (amended): for every value of `totalDataSize_`, the header that
`writeWAVHeader` writes and the fields that `updateWAVHeader` rewrites satisfy
`fileSize = (36 + dataSize) mod 2^32`, in the member `header_` and, when the
stream is open, in the file; and `fileSize = 36 + dataSize` holds whenever
`totalDataSize_ mod 2^32` is below `2^32 - 36`. -/
theorem C4_header_invariant_mod (s : AudioRecorder) (h : FileHandle)
    (hf : s.audioFile_ = some h) :
    ((AudioRecorder.writeWAVHeader s).header_.fileSize
        = (36 + (AudioRecorder.writeWAVHeader s).header_.dataSize) % U32 ∧
     (AudioRecorder.updateWAVHeader s).header_.fileSize
        = (36 + (AudioRecorder.updateWAVHeader s).header_.dataSize) % U32) ∧
    (h.isOpen = true →
      (AudioRecorder.writeWAVHeader s).disk.take 44
        = (AudioRecorder.writeWAVHeader s).header_.toBytes ∧
      readLE32 (AudioRecorder.updateWAVHeader s).disk 4
        = (AudioRecorder.updateWAVHeader s).header_.fileSize ∧
      readLE32 (AudioRecorder.updateWAVHeader s).disk 40
        = (AudioRecorder.updateWAVHeader s).header_.dataSize) ∧
    (s.totalDataSize_ % U32 + 36 < U32 →
      (AudioRecorder.writeWAVHeader s).header_.fileSize
        = 36 + (AudioRecorder.writeWAVHeader s).header_.dataSize ∧
      (AudioRecorder.updateWAVHeader s).header_.fileSize
        = 36 + (AudioRecorder.updateWAVHeader s).header_.dataSize) := by
  rw [AudioRecorder.writeWAVHeader_header s h hf, AudioRecorder.updateWAVHeader_header s h hf]
  refine ⟨⟨AudioRecorder.fileSizeField_dataSizeField _,
    AudioRecorder.fileSizeField_dataSizeField _⟩, ?_, ?_⟩
  · intro hopen
    refine ⟨?_, AudioRecorder.updateWAVHeader_disk s h hf hopen⟩
    rw [(AudioRecorder.writeWAVHeader_disk s h hf hopen).1]
    rw [List.take_left' (wavHeaderBytes_length _ _)]
    rfl
  · intro hlt
    have e : AudioRecorder.fileSizeField s.totalDataSize_
        = 36 + AudioRecorder.dataSizeField s.totalDataSize_ := by
      simp only [AudioRecorder.fileSizeField, AudioRecorder.dataSizeField, U64, U32] at hlt ⊢
      omega
    exact ⟨e, e⟩

/-- C4 (amended), at a concrete recorder: 3200 bytes counted, file open. -/
theorem C4_header_invariant_mod_witness :
    (AudioRecorder.updateWAVHeader
      { disk := wavHeaderBytes 36 0, audioFile_ := some ⟨true, 44⟩, header_ := ⟨36, 0⟩,
        totalDataSize_ := 3200, isRecording_ := true }).header_.fileSize
      = 36 + (AudioRecorder.updateWAVHeader
      { disk := wavHeaderBytes 36 0, audioFile_ := some ⟨true, 44⟩, header_ := ⟨36, 0⟩,
        totalDataSize_ := 3200, isRecording_ := true }).header_.dataSize :=
  ((C4_header_invariant_mod
      { disk := wavHeaderBytes 36 0, audioFile_ := some ⟨true, 44⟩, header_ := ⟨36, 0⟩,
        totalDataSize_ := 3200, isRecording_ := true } ⟨true, 44⟩ rfl).2.2 (by decide)).2

/-! ## C5: what `AudioRecorder` leaves in the file -/

/-- C5 (as stated, refuted): on a recorder that is already recording and has
received the two bytes 1, 2, `startRecording` succeeds (it returns true at its
first test and changes nothing); after one `writeAudioData` of the three
bytes 3, 4, 5 and `stopRecording`, the `dataSize` of the header is 5, not 3,
and the file is the header followed by the five bytes, not by the three
written after the start. -/
theorem C5_start_on_recording_recorder_counterexample :
    (AudioRecorder.startRecording
        (AudioRecorder.writeAudioData
          (AudioRecorder.startRecording (AudioRecorder.constructed []) true).2 [1, 2])
        true).1 = true ∧
    (AudioRecorder.stopRecording (AudioRecorder.writeAll
        (AudioRecorder.startRecording
          (AudioRecorder.writeAudioData
            (AudioRecorder.startRecording (AudioRecorder.constructed []) true).2 [1, 2])
          true).2
        [[3, 4, 5]])).2.header_.dataSize = 5 ∧
    readLE32 (AudioRecorder.stopRecording (AudioRecorder.writeAll
        (AudioRecorder.startRecording
          (AudioRecorder.writeAudioData
            (AudioRecorder.startRecording (AudioRecorder.constructed []) true).2 [1, 2])
          true).2
        [[3, 4, 5]])).2.disk 40 = 5 ∧
    (AudioRecorder.stopRecording (AudioRecorder.writeAll
        (AudioRecorder.startRecording
          (AudioRecorder.writeAudioData
            (AudioRecorder.startRecording (AudioRecorder.constructed []) true).2 [1, 2])
          true).2
        [[3, 4, 5]])).2.disk = wavHeaderBytes 41 5 ++ [1, 2, 3, 4, 5] ∧
    (([[3, 4, 5]] : List (List Nat)).map List.length).sum = 3 := by
  refine ⟨by decide, by decide, by decide, by decide, by decide⟩

/-- C5 (amended): for every `AudioRecorder` that is not recording and whose file opens,
`startRecording` returns true; after any sequence of `writeAudioData` calls
whose lengths sum to less than `2^32`, `stopRecording` returns true, the
`dataSize` of the header (member and file, offset 40) is the sum of the
lengths, and the file is the 44-byte header followed by the buffers
concatenated in call order. A `writeAudioData` call on a recorder that is not
recording leaves the whole state (file and counter) unchanged. -/
theorem C5_audio_recorder_file (s : AudioRecorder) (bufs : List (List Nat))
    (hs : s.isRecording_ = false) (hlt : (bufs.map List.length).sum < U32) :
    (AudioRecorder.startRecording s true).1 = true ∧
    (AudioRecorder.stopRecording
      (AudioRecorder.writeAll (AudioRecorder.startRecording s true).2 bufs)).1 = true ∧
    (AudioRecorder.stopRecording
      (AudioRecorder.writeAll (AudioRecorder.startRecording s true).2 bufs)).2.header_.dataSize
      = (bufs.map List.length).sum ∧
    readLE32 (AudioRecorder.stopRecording
      (AudioRecorder.writeAll (AudioRecorder.startRecording s true).2 bufs)).2.disk 40
      = (bufs.map List.length).sum ∧
    (AudioRecorder.stopRecording
      (AudioRecorder.writeAll (AudioRecorder.startRecording s true).2 bufs)).2.disk
      = wavHeaderBytes ((36 + (bufs.map List.length).sum) % U32) (bufs.map List.length).sum
          ++ bufs.flatten ∧
    (∀ (r : AudioRecorder) (data : List Nat), r.isRecording_ = false →
      AudioRecorder.writeAudioData r data = r) := by
  obtain ⟨h0, h1, h2, h3, h4⟩ := AudioRecorder.recording_after_start s hs
  obtain ⟨k1, k2, k3, k4, -⟩ := AudioRecorder.writeAll_recording bufs _ _ _ [] h1 h2
    (by rw [h3, List.append_nil])
  rw [h4, Nat.zero_add] at k4
  rw [List.nil_append] at k3
  have hstop := AudioRecorder.stopRecording_recording _ _ _ _ _ k1 k2 k3
  have ed : AudioRecorder.dataSizeField
      (AudioRecorder.writeAll (AudioRecorder.startRecording s true).2 bufs).totalDataSize_
      = (bufs.map List.length).sum := by
    simp only [AudioRecorder.dataSizeField, U64, U32] at k4 hlt ⊢
    omega
  have ef : AudioRecorder.fileSizeField
      (AudioRecorder.writeAll (AudioRecorder.startRecording s true).2 bufs).totalDataSize_
      = (36 + (bufs.map List.length).sum) % U32 := by
    rw [AudioRecorder.fileSizeField_dataSizeField, ed]
  rw [ed, ef] at hstop
  rw [hstop]
  refine ⟨h0, rfl, rfl, ?_, rfl, ?_⟩
  · have hlen : (bufs.map List.length).sum % U32 = (bufs.map List.length).sum :=
      Nat.mod_eq_of_lt hlt
    simp only [readLE32, wavHeaderBytes]
    have := fromLE_le32 (bufs.map List.length).sum
    rw [hlen] at this
    simpa [le32, le16] using this
  · intro r data hr
    simp [AudioRecorder.writeAudioData, hr]

/-- C5 at a concrete recorder: an old file is overwritten, two buffers are
written, the file is header plus `[1, 2, 3]`. -/
theorem C5_audio_recorder_file_witness :
    (AudioRecorder.stopRecording (AudioRecorder.writeAll
      (AudioRecorder.startRecording (AudioRecorder.constructed [9, 9]) true).2
      [[1, 2], [3]])).2.disk = wavHeaderBytes 39 3 ++ [1, 2, 3] :=
  (C5_audio_recorder_file (AudioRecorder.constructed [9, 9]) [[1, 2], [3]] rfl
    (by decide)).2.2.2.2.1

/-! ## C6: `dataSize` against the bytes written by the SDK recorders -/

/-- C6 (the code departs from it): in `RealZoomAudioRecorder::recordingLoop`
and in `ZoomSDKAudioRecorder::recordingLoop`, when one frame with bytes `d`
is dequeued and the loop then drains and returns, all of `d` is appended after
the header but the `dataSize` written is `2 * (d.length / 2)` modulo `2^32`;
for the three-byte frame `[1, 2, 3]` the file holds 3 PCM bytes and
`dataSize` is 2. -/
theorem C6_dataSize_counts_whole_samples_only (d : List Nat) (rate ch ts : Nat) :
    (∃ f, (RealZoomAudioRecorder.run true RealZoomAudioRecorder.started
        [RealZoomAudioRecorder.Event.callback (some ⟨d, rate, ch, ts⟩),
         RealZoomAudioRecorder.Event.writer, RealZoomAudioRecorder.Event.writer,
         RealZoomAudioRecorder.Event.writer, RealZoomAudioRecorder.Event.clearFlag,
         RealZoomAudioRecorder.Event.writer])
        = ⟨[], false, RealZoomAudioRecorder.Pc.returned, some f, d.length / 2 % U32⟩ ∧
      f.bytes.drop 44 = d ∧
      readLE32 f.bytes 40 = d.length / 2 % U32 * 2 % U32) ∧
    (∃ f, ZoomSDKAudioRecorder.writerStep true
        (RealZoomAudioRecorder.step true
          (ZoomSDKAudioRecorder.writerStep true (ZoomSDKAudioRecorder.writerStep true
            (ZoomSDKAudioRecorder.writerStep true
              (RealZoomAudioRecorder.onMixedAudioRawDataReceived RealZoomAudioRecorder.started
                (some ⟨d, rate, ch, ts⟩)))))
          RealZoomAudioRecorder.Event.clearFlag)
        = ⟨[], false, RealZoomAudioRecorder.Pc.returned, some f, d.length / 2 % U32⟩ ∧
      f.bytes.drop 44 = d ∧
      readLE32 f.bytes 40 = d.length / 2 % U32 * 2 % U32) ∧
    ([1, 2, 3] : List Nat).length = 3 ∧
    ([1, 2, 3] : List Nat).length / 2 % U32 * 2 % U32 = 2 := by
  have h0 : OFStream.write OFStream.opened (wavHeaderBytes 36 0)
      = ⟨wavHeaderBytes 36 0, (wavHeaderBytes 36 0).length⟩ := by
    simp [OFStream.write, OFStream.opened, writeAt]
  have hw : OFStream.write (OFStream.write OFStream.opened (wavHeaderBytes 36 0)) d
      = ⟨wavHeaderBytes 36 0 ++ d, 44 + d.length⟩ := by
    rw [h0, OFStream.write_at_end, wavHeaderBytes_length]
  have hread : readLE32 (wavHeaderBytes ((36 + d.length / 2 % U32 * 2 % U32) % U32)
      (d.length / 2 % U32 * 2 % U32) ++ d) 40 = d.length / 2 % U32 * 2 % U32 := by
    have := fromLE_le32 (d.length / 2 % U32 * 2 % U32)
    rw [Nat.mod_mod] at this
    simpa [readLE32, wavHeaderBytes, le32, le16] using this
  refine ⟨⟨⟨wavHeaderBytes ((36 + d.length / 2 % U32 * 2 % U32) % U32)
      (d.length / 2 % U32 * 2 % U32) ++ d, 44⟩, ?_, ?_, hread⟩,
    ⟨⟨wavHeaderBytes ((36 + d.length / 2 % U32 * 2 % U32) % U32)
      (d.length / 2 % U32 * 2 % U32) ++ d, 44⟩, ?_, ?_, hread⟩, rfl, by decide⟩
  · simp [RealZoomAudioRecorder.run, RealZoomAudioRecorder.step,
      RealZoomAudioRecorder.started, RealZoomAudioRecorder.onMixedAudioRawDataReceived,
      RealZoomAudioRecorder.callbackTest, RealZoomAudioRecorder.callbackPush,
      RealZoomAudioRecorder.writerStep, RealZoomAudioRecorder.writeWAVHeader,
      RealZoomAudioRecorder.updateWAVHeader, hw]
    exact finalize_bytes _ _ _ _ _ _
  · exact List.drop_left'  (wavHeaderBytes_length _ _)
  · simp [RealZoomAudioRecorder.step,
      RealZoomAudioRecorder.started, RealZoomAudioRecorder.onMixedAudioRawDataReceived,
      RealZoomAudioRecorder.callbackTest, RealZoomAudioRecorder.callbackPush,
      ZoomSDKAudioRecorder.writerStep, ZoomSDKAudioRecorder.writeWAVHeader,
      ZoomSDKAudioRecorder.updateWAVHeader, hw]
    exact finalize_bytes _ _ _ _ _ _
  · exact List.drop_left'  (wavHeaderBytes_length _ _)

/-! ## The hybrid recorder: what one generated chunk adds -/

namespace ZoomAudioRecorder

theorem writeWAVHeader_opened :
    writeWAVHeader OFStream.opened = ⟨wavHeaderBytes 36 0, 44⟩ := by
  decide

/-- The generation loop on a stream positioned at its end appends two bytes
per iteration and counts one sample per iteration. -/
theorem generateLoop_appends {σ : Type} (sample : Nat → σ → Int × σ) (tOff : Nat) (n : Nat) :
    ∀ (i : Nat) (g : σ) (bytes : List Nat) (total : Nat), total < U32 →
    ∃ (chunk : List Nat) (g1 : σ), chunk.length = 2 * n ∧
      generateLoop sample tOff n i g ⟨bytes, bytes.length⟩ total
        = (g1, ⟨bytes ++ chunk, bytes.length + 2 * n⟩, (total + n) % U32) := by
  induction n with
  | zero =>
    intro i g bytes total ht
    exact ⟨[], g, rfl, by simp [generateLoop, Nat.mod_eq_of_lt ht]⟩
  | succ n ih =>
    intro i g bytes total _
    obtain ⟨chunk, g1, hlen, h⟩ := ih (i + 1) (sample ((tOff + i) % U32) g).2
      (bytes ++ int16Bytes (sample ((tOff + i) % U32) g).1) ((total + 1) % U32)
      (Nat.mod_lt _ (by decide))
    refine ⟨int16Bytes (sample ((tOff + i) % U32) g).1 ++ chunk, g1, ?_, ?_⟩
    · simp [hlen, int16Bytes, le16]; omega
    · simp only [generateLoop]
      rw [OFStream.write_at_end]
      have e : bytes.length + (int16Bytes (sample ((tOff + i) % U32) g).1).length
          = (bytes ++ int16Bytes (sample ((tOff + i) % U32) g).1).length := by simp
      rw [e, h]
      simp only [List.append_assoc, List.length_append, int16Bytes, le16, List.length_cons,
        List.length_nil, Prod.mk.injEq, OFStream.mk.injEq, true_and, U32]
      omega

end ZoomAudioRecorder

/-! ## C7: the synthetic fallback of the hybrid recorder -/

/-- C7 (the code departs from it): on a freshly constructed hybrid recorder
with no SDK function loaded, when `setupPulseAudio` succeeds and `fork` fails
(returns -1), `startRecording` returns true and starts the thread with
`pulseRecordingPid = -1`; the writer loop then never calls
`generateRealtimeAudio`: after any number of wake-ups on the empty queue the
file is the bare 44-byte header with `totalSamples = 0`, and after the flag is
cleared the loop returns leaving a file with `dataSize = 0`. When instead the
spawned child has exited at the liveness check, the pid is reset to 0 and the
first wake-up already appends one chunk of 1600 samples (3200 bytes). -/
theorem C7_fork_failure_records_nothing {σ : Type} (sample : Nat → σ → Int × σ) (g : σ)
    (waitpid : Int) (n : Nat) :
    ZoomAudioRecorder.startRecording (ZoomAudioRecorder.constructed g) ⟨0, 0, -1, 0, 0⟩
      = some (true, { ZoomAudioRecorder.constructed g with
          recording := true, pulseRecordingPid := -1, threadStarted := true,
          pc := ZoomAudioRecorder.Pc.entry }) ∧
    ZoomAudioRecorder.writerSteps sample true waitpid (n + 1)
        { ZoomAudioRecorder.constructed g with
          recording := true, pulseRecordingPid := -1, threadStarted := true,
          pc := ZoomAudioRecorder.Pc.entry }
      = { ZoomAudioRecorder.constructed g with
          recording := true, pulseRecordingPid := -1, threadStarted := true,
          pc := ZoomAudioRecorder.Pc.loopHead,
          audioFile := some ⟨wavHeaderBytes 36 0, 44⟩, totalSamples := 0 } ∧
    ZoomAudioRecorder.writerStep sample true waitpid
        { ZoomAudioRecorder.constructed g with
          recording := false, pulseRecordingPid := -1, threadStarted := true,
          pc := ZoomAudioRecorder.Pc.loopHead,
          audioFile := some ⟨wavHeaderBytes 36 0, 44⟩, totalSamples := 0 }
      = { ZoomAudioRecorder.constructed g with
          recording := false, pulseRecordingPid := -1, threadStarted := true,
          pc := ZoomAudioRecorder.Pc.returned,
          audioFile := some ⟨wavHeaderBytes 36 0, 44⟩, totalSamples := 0 } ∧
    ZoomAudioRecorder.startRecording (ZoomAudioRecorder.constructed g) ⟨0, 0, 4242, 4242, 0⟩
      = some (true, { ZoomAudioRecorder.constructed g with
          recording := true, pulseRecordingPid := 0, threadStarted := true,
          pc := ZoomAudioRecorder.Pc.entry }) ∧
    (∃ chunk : List Nat, chunk.length = 3200 ∧
      (ZoomAudioRecorder.writerSteps sample true waitpid 2
        { ZoomAudioRecorder.constructed g with
          recording := true, pulseRecordingPid := 0, threadStarted := true,
          pc := ZoomAudioRecorder.Pc.entry }).audioFile
        = some ⟨wavHeaderBytes 36 0 ++ chunk, 44 + 3200⟩ ∧
      (ZoomAudioRecorder.writerSteps sample true waitpid 2
        { ZoomAudioRecorder.constructed g with
          recording := true, pulseRecordingPid := 0, threadStarted := true,
          pc := ZoomAudioRecorder.Pc.entry }).totalSamples = 1600) := by
  refine ⟨?_, ?_, ?_, ?_, ?_⟩
  · simp [ZoomAudioRecorder.startRecording, ZoomAudioRecorder.constructed,
      ZoomAudioRecorder.setupPulseAudio, ZoomAudioRecorder.startPulseRecording,
      ZoomAudioRecorder.startSdkOrFallback]
  · have hstep : ZoomAudioRecorder.writerStep sample true waitpid
        { ZoomAudioRecorder.constructed g with
          recording := true, pulseRecordingPid := -1, threadStarted := true,
          pc := ZoomAudioRecorder.Pc.loopHead,
          audioFile := some ⟨wavHeaderBytes 36 0, 44⟩, totalSamples := 0 }
        = { ZoomAudioRecorder.constructed g with
          recording := true, pulseRecordingPid := -1, threadStarted := true,
          pc := ZoomAudioRecorder.Pc.loopHead,
          audioFile := some ⟨wavHeaderBytes 36 0, 44⟩, totalSamples := 0 } := by
      simp [ZoomAudioRecorder.writerStep, ZoomAudioRecorder.constructed]
    have hfix : ∀ k, ZoomAudioRecorder.writerSteps sample true waitpid k
        { ZoomAudioRecorder.constructed g with
          recording := true, pulseRecordingPid := -1, threadStarted := true,
          pc := ZoomAudioRecorder.Pc.loopHead,
          audioFile := some ⟨wavHeaderBytes 36 0, 44⟩, totalSamples := 0 }
        = { ZoomAudioRecorder.constructed g with
          recording := true, pulseRecordingPid := -1, threadStarted := true,
          pc := ZoomAudioRecorder.Pc.loopHead,
          audioFile := some ⟨wavHeaderBytes 36 0, 44⟩, totalSamples := 0 } := by
      intro k
      induction k with
      | zero => rfl
      | succ k ih => rw [ZoomAudioRecorder.writerSteps, hstep, ih]
    have hentry : ZoomAudioRecorder.writerStep sample true waitpid
        { ZoomAudioRecorder.constructed g with
          recording := true, pulseRecordingPid := -1, threadStarted := true,
          pc := ZoomAudioRecorder.Pc.entry }
        = { ZoomAudioRecorder.constructed g with
          recording := true, pulseRecordingPid := -1, threadStarted := true,
          pc := ZoomAudioRecorder.Pc.loopHead,
          audioFile := some ⟨wavHeaderBytes 36 0, 44⟩, totalSamples := 0 } := by
      simp [ZoomAudioRecorder.writerStep, ZoomAudioRecorder.constructed,
        ZoomAudioRecorder.writeWAVHeader_opened]
    rw [ZoomAudioRecorder.writerSteps, hentry, hfix]
  · have hfin := finalize_bytes 36 0 36 0 44 []
    simp only [List.append_nil] at hfin
    simp [ZoomAudioRecorder.writerStep, ZoomAudioRecorder.constructed,
      ZoomAudioRecorder.updateWAVHeader, U32, hfin]
  · simp [ZoomAudioRecorder.startRecording, ZoomAudioRecorder.constructed,
      ZoomAudioRecorder.setupPulseAudio, ZoomAudioRecorder.startPulseRecording,
      ZoomAudioRecorder.startSdkOrFallback]
  · obtain ⟨chunk, g1, hlen, hgen⟩ := ZoomAudioRecorder.generateLoop_appends sample 0
      ZoomAudioRecorder.samplesPerChunk 0 g (wavHeaderBytes 36 0) 0 (by decide)
    rw [wavHeaderBytes_length] at hgen
    refine ⟨chunk, hlen, ?_, ?_⟩
    · simp [ZoomAudioRecorder.writerSteps, ZoomAudioRecorder.writerStep,
        ZoomAudioRecorder.constructed,
        ZoomAudioRecorder.writeWAVHeader_opened, ZoomAudioRecorder.generateRealtimeAudio, hgen]
      rfl
    · simp [ZoomAudioRecorder.writerSteps, ZoomAudioRecorder.writerStep,
        ZoomAudioRecorder.constructed,
        ZoomAudioRecorder.writeWAVHeader_opened, ZoomAudioRecorder.generateRealtimeAudio, hgen]
      rfl

/-! ## C8: `SystemAudioCapture` without a device -/

namespace SystemAudioCapture

theorem generateTestAudio_length (tone : Nat → Int) (size : Nat) :
    ∀ phase, (generateTestAudio tone size phase).1.length = size := by
  induction size with
  | zero => intro phase; rfl
  | succ size ih => intro phase; simp [generateTestAudio, ih]

theorem flatMap_int16Bytes_length (xs : List Int) :
    (xs.flatMap int16Bytes).length = 2 * xs.length := by
  induction xs with
  | nil => rfl
  | cons x xs ih => simp [List.flatMap_cons, ih, int16Bytes, le16]; omega

theorem openDevices_all_fail (snd_pcm_open : String → Int) (ds : List String)
    (hfail : ∀ d ∈ ds, snd_pcm_open d < 0) : ∀ (err : Int) (handle : Option String),
    err < 0 → (openDevices snd_pcm_open ds err handle).1 < 0 ∧
      (openDevices snd_pcm_open ds err handle).2 = handle := by
  induction ds with
  | nil => intro err handle herr; exact ⟨herr, rfl⟩
  | cons d ds ih =>
    intro err handle _
    have hd : snd_pcm_open d < 0 := hfail d (List.mem_cons_self _ _)
    have hnot : ¬ snd_pcm_open d ≥ 0 := by omega
    simp only [openDevices, hnot, if_false]
    exact ih (fun x hx => hfail x (List.mem_cons_of_mem _ hx)) _ _ hd

end SystemAudioCapture

/-- C8: in `SystemAudioCapture`, whenever the output file opens, `start`
returns true, for every outcome of the device opens and of the parameter
setup; if the handle is null before and every candidate device fails to open,
the handle is null after `start` and the file holds the 44-byte header; and on
a capture with a null handle, writing at the end of its file, each iteration
of `captureLoop` appends exactly 3200 bytes (1600 generated samples), adds
1600 to `totalSamples` (in `uint32_t` arithmetic) and leaves the handle null. -/
theorem C8_capture_without_device (s t : SystemAudioCapture) (env : SystemAudioCapture.StartEnv)
    (lenv : SystemAudioCapture.LoopEnv) (hopen : env.fileOpens = true) :
    (SystemAudioCapture.start s env).1 = true ∧
    (s.capture_handle = none →
      (∀ d ∈ SystemAudioCapture.devices, env.snd_pcm_open d < 0) →
      (SystemAudioCapture.start s env).2.capture_handle = none ∧
      (SystemAudioCapture.start s env).2.audioFileOpen = true ∧
      (SystemAudioCapture.start s env).2.audioFile = ⟨wavHeaderBytes 36 0, 44⟩) ∧
    (t.capture_handle = none → t.audioFile.pos = t.audioFile.bytes.length →
      ∃ chunk : List Nat, chunk.length = 3200 ∧
        (SystemAudioCapture.captureIteration t lenv).audioFile
          = ⟨t.audioFile.bytes ++ chunk, t.audioFile.bytes.length + 3200⟩ ∧
        (SystemAudioCapture.captureIteration t lenv).totalSamples
          = (t.totalSamples + 1600) % U32 ∧
        (t.totalSamples + 1600 < U32 →
          (SystemAudioCapture.captureIteration t lenv).totalSamples = t.totalSamples + 1600) ∧
        (SystemAudioCapture.captureIteration t lenv).capture_handle = none) := by
  have hhdr : OFStream.write OFStream.opened (wavHeaderBytes 36 0)
      = ⟨wavHeaderBytes 36 0, 44⟩ := by decide
  refine ⟨?_, ?_, ?_⟩
  · simp only [SystemAudioCapture.start, hopen]
    simp only [Bool.not_true, Bool.false_eq_true, if_false]
    split
    · split
      · rfl
      · split
        · rfl
        · split <;> rfl
    · rfl
  · intro hnone hfail
    simp only [SystemAudioCapture.start, hopen, Bool.not_true, Bool.false_eq_true, if_false,
      hhdr, hnone]
    cases hlin : env.linux
    · simp
    · have h := SystemAudioCapture.openDevices_all_fail env.snd_pcm_open
        SystemAudioCapture.devices hfail (-1) none (by decide)
      have h0 : (SystemAudioCapture.openDevices env.snd_pcm_open SystemAudioCapture.devices 0
          none) = (SystemAudioCapture.openDevices env.snd_pcm_open SystemAudioCapture.devices
          (-1) none) := by
        simp [SystemAudioCapture.devices, SystemAudioCapture.openDevices]
      rw [h0]
      simp [h.1, h.2]
  · intro hnone hpos
    obtain ⟨file, fopen, total, handle, phase⟩ := t
    obtain ⟨bytes, pos⟩ := file
    simp only at hnone hpos
    subst hnone hpos
    refine ⟨((SystemAudioCapture.generateTestAudio lenv.tone SystemAudioCapture.bufferSize
      phase).1.flatMap int16Bytes), ?_, ?_, ?_, ?_, ?_⟩
    · rw [SystemAudioCapture.flatMap_int16Bytes_length,
        SystemAudioCapture.generateTestAudio_length]
      rfl
    · simp only [SystemAudioCapture.captureIteration, Option.isSome_none, Bool.and_false,
        Bool.false_eq_true, if_false]
      rw [OFStream.write_at_end, SystemAudioCapture.flatMap_int16Bytes_length,
        SystemAudioCapture.generateTestAudio_length]
      rfl
    · simp [SystemAudioCapture.captureIteration, SystemAudioCapture.bufferSize]
    · intro hlt
      simp [SystemAudioCapture.captureIteration, SystemAudioCapture.bufferSize,
        Nat.mod_eq_of_lt hlt]
    · simp [SystemAudioCapture.captureIteration]

/-- C8 at a concrete run: every device fails with `-2`, `start` returns true
with a null handle; one iteration of the loop on a capture with a null handle
counts 1600 samples. -/
theorem C8_capture_without_device_witness :
    (SystemAudioCapture.start SystemAudioCapture.constructed
      ⟨true, true, fun _ => -2, 0, 0⟩).1 = true ∧
    (SystemAudioCapture.start SystemAudioCapture.constructed
      ⟨true, true, fun _ => -2, 0, 0⟩).2.capture_handle = none ∧
    (SystemAudioCapture.captureIteration SystemAudioCapture.constructed
      ⟨true, 0, [], 0, fun _ => 0⟩).totalSamples = (0 + 1600) % U32 :=
  ⟨(C8_capture_without_device SystemAudioCapture.constructed SystemAudioCapture.constructed
      ⟨true, true, fun _ => -2, 0, 0⟩ ⟨true, 0, [], 0, fun _ => 0⟩ rfl).1,
   ((C8_capture_without_device SystemAudioCapture.constructed SystemAudioCapture.constructed
      ⟨true, true, fun _ => -2, 0, 0⟩ ⟨true, 0, [], 0, fun _ => 0⟩ rfl).2.1 rfl
      (fun _ _ => (by decide : (-2 : Int) < 0))).1,
   ((C8_capture_without_device SystemAudioCapture.constructed SystemAudioCapture.constructed
      ⟨true, true, fun _ => -2, 0, 0⟩ ⟨true, 0, [], 0, fun _ => 0⟩ rfl).2.2 rfl rfl).elim
      (fun _ h => h.2.2.1)⟩

/-! ## C9: the liveness check after spawning parecord -/

/-- C9: in the hybrid recorder, in the parent process (`fork` returned a
positive pid): if the one `waitpid(..., WNOHANG)` after the grace period does
not return 0, `startPulseRecording` returns false with `pulseRecordingPid`
reset to 0, and `startRecording` (on a recorder that is not recording, with
PulseAudio set up) returns what the next backend (SDK functions or
simulation) gives, started from that state; if it returns 0,
`startPulseRecording` returns true with the pid kept, and `startRecording`
returns true with that state. -/
theorem C9_liveness_check_decides {σ : Type} (s : ZoomAudioRecorder.State σ)
    (env : ZoomAudioRecorder.StartEnv) (hfork : env.fork > 0) :
    (env.waitpid ≠ 0 →
      ZoomAudioRecorder.startPulseRecording s env
        = some (false, { s with pulseRecordingPid := 0 }) ∧
      (s.recording = false → ZoomAudioRecorder.setupPulseAudio env = true →
        ZoomAudioRecorder.startRecording s env
          = some (ZoomAudioRecorder.startSdkOrFallback
              { s with recording := true, pulseRecordingPid := 0 } env))) ∧
    (env.waitpid = 0 →
      ZoomAudioRecorder.startPulseRecording s env
        = some (true, { s with pulseRecordingPid := env.fork }) ∧
      (s.recording = false → ZoomAudioRecorder.setupPulseAudio env = true →
        ZoomAudioRecorder.startRecording s env
          = some (true, { s with recording := true, pulseRecordingPid := env.fork }))) := by
  have hne : ¬ env.fork = 0 := by omega
  constructor
  · intro hw
    have hp : ∀ r : ZoomAudioRecorder.State σ, ZoomAudioRecorder.startPulseRecording r env
        = some (false, { r with pulseRecordingPid := 0 }) := by
      intro r
      simp [ZoomAudioRecorder.startPulseRecording, hne, hfork, hw]
    refine ⟨hp s, ?_⟩
    intro hrec hsetup
    simp [ZoomAudioRecorder.startRecording, hrec, hsetup, hp]
  · intro hw
    have hp : ∀ r : ZoomAudioRecorder.State σ, ZoomAudioRecorder.startPulseRecording r env
        = some (true, { r with pulseRecordingPid := env.fork }) := by
      intro r
      simp [ZoomAudioRecorder.startPulseRecording, hne, hfork, hw]
    refine ⟨hp s, ?_⟩
    intro hrec hsetup
    simp [ZoomAudioRecorder.startRecording, hrec, hsetup, hp]

/-- C9 at a concrete run: the child 4242 is reported gone (`waitpid` returns
its pid), the pid is reset and the simulation is started. -/
theorem C9_liveness_check_decides_witness :
    ZoomAudioRecorder.startRecording (ZoomAudioRecorder.constructed ()) ⟨0, 0, 4242, 4242, 0⟩
      = some (ZoomAudioRecorder.startSdkOrFallback
          { ZoomAudioRecorder.constructed () with recording := true, pulseRecordingPid := 0 }
          ⟨0, 0, 4242, 4242, 0⟩) :=
  ((C9_liveness_check_decides (ZoomAudioRecorder.constructed ()) ⟨0, 0, 4242, 4242, 0⟩
    (by decide)).1 (by decide)).2 rfl rfl

/-! ## C10: parecord exiting at once in `ubuntu_audio_bot` -/

/-- C10 (the code departs from it): in `ubuntu_audio_bot`, whenever `fork`
succeeds in the parent (positive pid), `UbuntuZoomRecorder::startRecording`
returns true and `main` prints `RECORDING_STARTED` without ever calling
`startFFmpegRecording`, whether or not the parecord child has exited right
after being spawned: the state reached does not depend on it. -/
theorem C10_parecord_exit_not_detected (s : UbuntuZoomRecorder.State) (pid ffPid : Int)
    (exited : Bool) (hpid : pid > 0) :
    (∃ s1, UbuntuZoomRecorder.startRecording s ⟨pid, exited, ffPid⟩ = some (true, s1) ∧
      s1.g_recordingPid = pid ∧
      UbuntuZoomRecorder.mainStart s ⟨pid, exited, ffPid⟩
        = some ({ s1 with out := s1.out ++ ["RECORDING_STARTED", "AUDIO_FILE_CREATED"] },
            none)) ∧
    UbuntuZoomRecorder.mainStart s ⟨pid, true, ffPid⟩
      = UbuntuZoomRecorder.mainStart s ⟨pid, false, ffPid⟩ ∧
    (∀ s2 code, UbuntuZoomRecorder.mainStart s ⟨pid, exited, ffPid⟩ = some (s2, code) →
      "RECORDING_STARTED" ∈ s2.out ∧
      (s.out = [] → "RECORDING: Starting FFmpeg audio capture..." ∉ s2.out) ∧
      code = none) := by
  have hne : ¬ pid = 0 := by omega
  have hnl : ¬ pid < 0 := by omega
  have hstart : ∀ e : Bool, UbuntuZoomRecorder.startRecording s ⟨pid, e, ffPid⟩
      = some (true, ⟨pid, s.out ++ ["RECORDING: Starting audio capture..."]
            ++ ["RECORDING: PulseAudio recording started"]⟩) := by
    intro e
    simp [UbuntuZoomRecorder.startRecording, hne, hnl]
  have hmain : ∀ e : Bool, UbuntuZoomRecorder.mainStart s ⟨pid, e, ffPid⟩
      = some (⟨pid, s.out ++ ["RECORDING: Starting audio capture..."]
            ++ ["RECORDING: PulseAudio recording started"]
            ++ ["RECORDING_STARTED", "AUDIO_FILE_CREATED"]⟩, none) := by
    intro e
    simp [UbuntuZoomRecorder.mainStart, hstart]
  refine ⟨⟨_, hstart exited, rfl, by rw [hmain]⟩, by rw [hmain, hmain], ?_⟩
  intro s2 code h
  rw [hmain] at h
  simp only [Option.some.injEq, Prod.mk.injEq] at h
  obtain ⟨h1, h2⟩ := h
  subst h1
  refine ⟨by simp, ?_, h2.symm⟩
  intro hout
  simp [hout]

/-- C10 at the failing input: `fork` returns 4242 and the child exits at once. -/
theorem C10_parecord_exit_not_detected_witness :
    UbuntuZoomRecorder.mainStart ⟨0, []⟩ ⟨4242, true, 4243⟩
      = UbuntuZoomRecorder.mainStart ⟨0, []⟩ ⟨4242, false, 4243⟩ :=
  (C10_parecord_exit_not_detected ⟨0, []⟩ 4242 4243 true (by decide)).2.1

/-! ## The hybrid recorder: the chunk as a function of time offset and hidden state -/

namespace ZoomAudioRecorder

theorem generatedSamples_length {σ : Type} (sample : Nat → σ → Int × σ) (tOff : Nat) (n : Nat) :
    ∀ (i : Nat) (g : σ), (generatedSamples sample tOff n i g).1.length = n := by
  induction n with
  | zero => intro i g; rfl
  | succ n ih => intro i g; simp [generatedSamples, ih]

theorem flatMap_int16Bytes_len (xs : List Int) :
    (xs.flatMap int16Bytes).length = 2 * xs.length := by
  induction xs with
  | nil => rfl
  | cons x xs ih => simp [List.flatMap_cons, ih, int16Bytes, le16]; omega

/-- The generation loop on a stream positioned at its end appends the bytes of
the generated samples, whatever the stream holds. -/
theorem generateLoop_samples {σ : Type} (sample : Nat → σ → Int × σ) (tOff : Nat) (n : Nat) :
    ∀ (i : Nat) (g : σ) (bytes : List Nat) (total : Nat), total < U32 →
      generateLoop sample tOff n i g ⟨bytes, bytes.length⟩ total
        = ((generatedSamples sample tOff n i g).2,
           ⟨bytes ++ (generatedSamples sample tOff n i g).1.flatMap int16Bytes,
            bytes.length + 2 * n⟩,
           (total + n) % U32) := by
  induction n with
  | zero =>
    intro i g bytes total ht
    simp [generateLoop, generatedSamples, Nat.mod_eq_of_lt ht]
  | succ n ih =>
    intro i g bytes total _
    have h := ih (i + 1) (sample ((tOff + i) % U32) g).2
      (bytes ++ int16Bytes (sample ((tOff + i) % U32) g).1) ((total + 1) % U32)
      (Nat.mod_lt _ (by decide))
    simp only [generateLoop, generatedSamples]
    rw [OFStream.write_at_end]
    have e : bytes.length + (int16Bytes (sample ((tOff + i) % U32) g).1).length
        = (bytes ++ int16Bytes (sample ((tOff + i) % U32) g).1).length := by simp
    rw [e, h]
    simp only [List.append_assoc, List.length_append, int16Bytes, le16, List.length_cons,
      List.length_nil, Prod.mk.injEq, OFStream.mk.injEq, true_and, U32, List.flatMap_cons]
    omega

/-- One call of `generateRealtimeAudio` on a recorder that writes at the end
of its file. -/
theorem generateRealtimeAudio_appends {σ : Type} (sample : Nat → σ → Int × σ) (s : State σ)
    (bytes : List Nat) (hf : s.audioFile = some ⟨bytes, bytes.length⟩)
    (ht : s.totalSamples < U32) :
    generateRealtimeAudio sample s
      = { s with
          synth := (generatedSamples sample s.timeOffset samplesPerChunk 0 s.synth).2,
          audioFile := some
            ⟨bytes ++ (generatedSamples sample s.timeOffset samplesPerChunk 0
              s.synth).1.flatMap int16Bytes, bytes.length + 3200⟩,
          totalSamples := (s.totalSamples + 1600) % U32,
          timeOffset := (s.timeOffset + 1600) % U32 } := by
  simp only [generateRealtimeAudio, hf]
  rw [generateLoop_samples sample s.timeOffset samplesPerChunk 0 s.synth bytes s.totalSamples ht]
  simp [samplesPerChunk]

/-- The effect of `k` calls in a row on a file that starts with a 44-byte
header. -/
theorem generateCalls_appends {σ : Type} (sample : Nat → σ → Int × σ) (a b : Nat) (k : Nat) :
    ∀ (s : State σ) (w : List Nat),
      s.audioFile = some ⟨wavHeaderBytes a b ++ w, 44 + w.length⟩ → s.totalSamples < U32 →
      s.timeOffset < U32 →
      ∃ data : List Nat, data.length = 3200 * k ∧
        (generateCalls sample k s).audioFile
          = some ⟨wavHeaderBytes a b ++ (w ++ data), 44 + (w.length + 3200 * k)⟩ ∧
        (generateCalls sample k s).totalSamples = (s.totalSamples + 1600 * k) % U32 ∧
        (generateCalls sample k s).timeOffset = (s.timeOffset + 1600 * k) % U32 := by
  induction k with
  | zero =>
    intro s w hf ht ho
    exact ⟨[], rfl, by simpa [generateCalls] using hf,
      by simp [generateCalls, Nat.mod_eq_of_lt ht],
      by simp [generateCalls, Nat.mod_eq_of_lt ho]⟩
  | succ k ih =>
    intro s w hf ht ho
    have hlen : 44 + w.length = (wavHeaderBytes a b ++ w).length := by
      simp [wavHeaderBytes_length]
    rw [hlen] at hf
    have h1 := generateRealtimeAudio_appends sample s _ hf ht
    have hchunk : ((generatedSamples sample s.timeOffset samplesPerChunk 0
        s.synth).1.flatMap int16Bytes).length = 3200 := by
      rw [flatMap_int16Bytes_len, generatedSamples_length]
      rfl
    obtain ⟨data, hd, k1, k2, k3⟩ := ih (generateRealtimeAudio sample s)
      (w ++ (generatedSamples sample s.timeOffset samplesPerChunk 0
        s.synth).1.flatMap int16Bytes)
      (by rw [h1]; simp [wavHeaderBytes_length, hchunk, Nat.add_assoc])
      (by rw [h1]; exact Nat.mod_lt _ (by decide))
      (by rw [h1]; exact Nat.mod_lt _ (by decide))
    refine ⟨(generatedSamples sample s.timeOffset samplesPerChunk 0
        s.synth).1.flatMap int16Bytes ++ data, ?_, ?_, ?_, ?_⟩
    · rw [List.length_append, hchunk, hd]; omega
    · rw [generateCalls, k1, List.length_append, hchunk]
      simp only [List.append_assoc, Option.some.injEq, OFStream.mk.injEq, true_and]
      omega
    · rw [generateCalls, k2, h1]
      simp only [U32]
      omega
    · rw [generateCalls, k3, h1]
      simp only [U32]
      omega

end ZoomAudioRecorder

/-! ## C11: the synthetic mode of the hybrid recorder, chunk by chunk -/

/-- C11: on a hybrid recorder that writes at the end of its file, each call of
`generateRealtimeAudio` appends exactly 3200 bytes (1600 samples) and advances
`timeOffset` and `totalSamples` by 1600 (in `uint32_t` arithmetic, exactly when
no wrap occurs); hence for every `k` with `1600 * k < 2^31`, `k` calls from
`totalSamples = 0` on a file holding the provisional header, followed by
`updateWAVHeader`, give `totalSamples = 1600 * k` and a file of
`44 + 3200 * k` bytes, the final header followed by the generated data, with
`dataSize = 3200 * k`. -/
theorem C11_synthetic_chunks {σ : Type} (sample : Nat → σ → Int × σ)
    (s : ZoomAudioRecorder.State σ) (bytes : List Nat) (k : Nat)
    (hf : s.audioFile = some ⟨bytes, bytes.length⟩) (ht : s.totalSamples < U32)
    (ho : s.timeOffset < U32) :
    (∃ chunk : List Nat, chunk.length = 2 * 1600 ∧
      (ZoomAudioRecorder.generateRealtimeAudio sample s).audioFile
        = some ⟨bytes ++ chunk, bytes.length + 3200⟩) ∧
    (ZoomAudioRecorder.generateRealtimeAudio sample s).totalSamples
      = (s.totalSamples + 1600) % U32 ∧
    (ZoomAudioRecorder.generateRealtimeAudio sample s).timeOffset
      = (s.timeOffset + 1600) % U32 ∧
    (s.totalSamples + 1600 < U32 →
      (ZoomAudioRecorder.generateRealtimeAudio sample s).totalSamples = s.totalSamples + 1600) ∧
    (s.timeOffset + 1600 < U32 →
      (ZoomAudioRecorder.generateRealtimeAudio sample s).timeOffset = s.timeOffset + 1600) ∧
    (1600 * k < 2 ^ 31 → s.totalSamples = 0 → bytes = wavHeaderBytes 36 0 →
      ∃ (f : OFStream) (data : List Nat),
        (ZoomAudioRecorder.generateCalls sample k s).audioFile = some f ∧
        (ZoomAudioRecorder.generateCalls sample k s).totalSamples = 1600 * k ∧
        data.length = 3200 * k ∧
        (ZoomAudioRecorder.updateWAVHeader f (1600 * k)).bytes
          = wavHeaderBytes (36 + 3200 * k) (3200 * k) ++ data ∧
        (ZoomAudioRecorder.updateWAVHeader f (1600 * k)).bytes.length = 44 + 3200 * k ∧
        readLE32 (ZoomAudioRecorder.updateWAVHeader f (1600 * k)).bytes 40 = 3200 * k) := by
  have h1 := ZoomAudioRecorder.generateRealtimeAudio_appends sample s bytes hf ht
  refine ⟨⟨_, ?_, by rw [h1]⟩, by rw [h1], by rw [h1], ?_, ?_, ?_⟩
  · rw [ZoomAudioRecorder.flatMap_int16Bytes_len, ZoomAudioRecorder.generatedSamples_length]
    rfl
  · intro hlt
    rw [h1]
    exact Nat.mod_eq_of_lt hlt
  · intro hlt
    rw [h1]
    exact Nat.mod_eq_of_lt hlt
  · intro hk h0 hb
    subst hb
    obtain ⟨data, hd, k1, k2, -⟩ := ZoomAudioRecorder.generateCalls_appends sample 36 0 k s []
      (by simpa [wavHeaderBytes_length] using hf) ht ho
    have hk32 : 1600 * k < U32 := by simp only [U32]; omega
    have hfin := finalize_bytes 36 0 ((36 + 1600 * k * 2 % U32) % U32) (1600 * k * 2 % U32)
      (44 + 3200 * k) data
    have e1 : 1600 * k * 2 % U32 = 3200 * k := by simp only [U32]; omega
    have e2 : (36 + 3200 * k) % U32 = 36 + 3200 * k := by simp only [U32]; omega
    rw [e1, e2] at hfin
    have hupd : ZoomAudioRecorder.updateWAVHeader
        ⟨wavHeaderBytes 36 0 ++ data, 44 + 3200 * k⟩ (1600 * k)
        = ⟨wavHeaderBytes (36 + 3200 * k) (3200 * k) ++ data, 44⟩ := by
      simp only [ZoomAudioRecorder.updateWAVHeader, e1, e2]
      exact hfin
    refine ⟨⟨wavHeaderBytes 36 0 ++ data, 44 + 3200 * k⟩, data, by simpa using k1, ?_, hd,
      by rw [hupd], ?_, ?_⟩
    · rw [k2, h0, Nat.zero_add]
      exact Nat.mod_eq_of_lt hk32
    · rw [hupd]
      simp [wavHeaderBytes_length, hd]
    · rw [hupd]
      have hr := fromLE_le32 (3200 * k)
      have e3 : 3200 * k % U32 = 3200 * k := by simp only [U32]; omega
      rw [e3] at hr
      simpa [readLE32, wavHeaderBytes, le32, le16] using hr

/-- C11 at `k = 10`, one simulated second: ten calls from the provisional
header, then `updateWAVHeader`, leave `44 + 16000 * 2` bytes with
`dataSize = 32000`. -/
theorem C11_synthetic_chunks_witness :
    ∃ (f : OFStream) (data : List Nat),
      (ZoomAudioRecorder.generateCalls (fun n (g : Unit) => ((n : Int), g)) 10
        { ZoomAudioRecorder.constructed () with
          audioFile := some ⟨wavHeaderBytes 36 0, 44⟩ }).audioFile = some f ∧
      (ZoomAudioRecorder.generateCalls (fun n (g : Unit) => ((n : Int), g)) 10
        { ZoomAudioRecorder.constructed () with
          audioFile := some ⟨wavHeaderBytes 36 0, 44⟩ }).totalSamples = 1600 * 10 ∧
      data.length = 3200 * 10 ∧
      (ZoomAudioRecorder.updateWAVHeader f (1600 * 10)).bytes
        = wavHeaderBytes (36 + 3200 * 10) (3200 * 10) ++ data ∧
      (ZoomAudioRecorder.updateWAVHeader f (1600 * 10)).bytes.length = 44 + 3200 * 10 ∧
      readLE32 (ZoomAudioRecorder.updateWAVHeader f (1600 * 10)).bytes 40 = 3200 * 10 :=
  (C11_synthetic_chunks (fun n (g : Unit) => ((n : Int), g))
    { ZoomAudioRecorder.constructed () with audioFile := some ⟨wavHeaderBytes 36 0, 44⟩ }
    (wavHeaderBytes 36 0) 10 rfl (by decide) (by decide)).2.2.2.2.2 (by decide) rfl rfl

/-! ## C12: stopping twice -/

/-- C12: `AudioRecorder::stopRecording` returns true on every recorder state;
applied to the state it leaves, it returns true again and changes nothing
(recorder members and file content); on a recorder that is not recording, so
on one that was never started, it returns true and changes nothing.
`ZoomBot::stopRecording` on a bot that is not recording returns true and
changes nothing. -/
theorem C12_stop_is_idempotent (s : AudioRecorder) (disk : List Nat) (b : ZoomBot)
    (env : ZoomBot.Env) :
    (AudioRecorder.stopRecording s).1 = true ∧
    AudioRecorder.stopRecording (AudioRecorder.stopRecording s).2
      = (true, (AudioRecorder.stopRecording s).2) ∧
    (s.isRecording_ = false → AudioRecorder.stopRecording s = (true, s)) ∧
    AudioRecorder.stopRecording (AudioRecorder.constructed disk)
      = (true, AudioRecorder.constructed disk) ∧
    (b.isRecording_ = false → ZoomBot.stopRecording b env = (true, b)) := by
  have hnot : ∀ r : AudioRecorder, r.isRecording_ = false →
      AudioRecorder.stopRecording r = (true, r) := by
    intro r hr
    simp [AudioRecorder.stopRecording, hr]
  have hflag : (AudioRecorder.stopRecording s).2.isRecording_ = false := by
    obtain ⟨d, file, hdr, total, isRec⟩ := s
    cases isRec
    · simp [AudioRecorder.stopRecording]
    · cases file with
      | none => simp [AudioRecorder.stopRecording]
      | some h =>
        cases hopen : h.isOpen <;>
          simp [AudioRecorder.stopRecording, AudioRecorder.updateWAVHeader,
            AudioRecorder.fileSeek, AudioRecorder.fileWrite, hopen]
  refine ⟨?_, hnot _ hflag, hnot s, hnot _ rfl, ?_⟩
  · obtain ⟨d, file, hdr, total, isRec⟩ := s
    cases isRec
    · simp [AudioRecorder.stopRecording]
    · cases file <;> simp [AudioRecorder.stopRecording]
  · intro hb
    simp [ZoomBot.stopRecording, hb]

/-- C12 at a concrete recorder and a concrete bot that were never started:
stopping returns true and changes nothing. -/
theorem C12_stop_is_idempotent_witness :
    AudioRecorder.stopRecording (AudioRecorder.constructed [7]) = (true, AudioRecorder.constructed [7]) ∧
    ZoomBot.stopRecording (ZoomBot.constructed [7]) ⟨true, true, true⟩
      = (true, ZoomBot.constructed [7]) :=
  ⟨(C12_stop_is_idempotent (AudioRecorder.constructed [7]) [7] (ZoomBot.constructed [7])
      ⟨true, true, true⟩).2.2.1 rfl,
   (C12_stop_is_idempotent (AudioRecorder.constructed [7]) [7] (ZoomBot.constructed [7])
      ⟨true, true, true⟩).2.2.2.2 rfl⟩

/-! ## C13: starting while recording -/

/-- C13: on an `AudioRecorder` that is recording, `startRecording` returns
true and leaves the whole state (file, header, `totalDataSize_`) unchanged,
whether or not the file would open; on a hybrid `ZoomAudioRecorder` whose flag
is set, `startRecording` returns false and leaves the state unchanged; on a
`ZoomBot` that is recording, `startRecording` returns false and leaves the
state unchanged. -/
theorem C13_start_while_recording {σ : Type} (s : AudioRecorder) (fileOpens : Bool)
    (h : ZoomAudioRecorder.State σ) (henv : ZoomAudioRecorder.StartEnv)
    (b : ZoomBot) (benv : ZoomBot.Env) :
    (s.isRecording_ = true → AudioRecorder.startRecording s fileOpens = (true, s)) ∧
    (h.recording = true → ZoomAudioRecorder.startRecording h henv = some (false, h)) ∧
    (b.isRecording_ = true → ZoomBot.startRecording b benv = (false, b)) := by
  refine ⟨?_, ?_, ?_⟩
  · intro hs
    simp [AudioRecorder.startRecording, hs]
  · intro hh
    simp [ZoomAudioRecorder.startRecording, hh]
  · intro hb
    simp [ZoomBot.startRecording, hb]

/-- C13 at concrete states: a recorder in the middle of a recording, a hybrid
recorder with its flag set, a bot that is recording. -/
theorem C13_start_while_recording_witness :
    AudioRecorder.startRecording
        ⟨wavHeaderBytes 36 0 ++ [1, 2], some ⟨true, 46⟩, ⟨36, 0⟩, 2, true⟩ true
      = (true, ⟨wavHeaderBytes 36 0 ++ [1, 2], some ⟨true, 46⟩, ⟨36, 0⟩, 2, true⟩) ∧
    ZoomAudioRecorder.startRecording
        { ZoomAudioRecorder.constructed () with recording := true } ⟨0, 0, 4242, 0, 0⟩
      = some (false, { ZoomAudioRecorder.constructed () with recording := true }) ∧
    ZoomBot.startRecording
        { ZoomBot.constructed [] with isMeetingJoined_ := true, isRecording_ := true }
        ⟨true, true, true⟩
      = (false, { ZoomBot.constructed [] with isMeetingJoined_ := true, isRecording_ := true }) :=
  ⟨(C13_start_while_recording (σ := Unit)
      ⟨wavHeaderBytes 36 0 ++ [1, 2], some ⟨true, 46⟩, ⟨36, 0⟩, 2, true⟩ true
      { ZoomAudioRecorder.constructed () with recording := true } ⟨0, 0, 4242, 0, 0⟩
      { ZoomBot.constructed [] with isMeetingJoined_ := true, isRecording_ := true }
      ⟨true, true, true⟩).1 rfl,
   (C13_start_while_recording
      ⟨wavHeaderBytes 36 0 ++ [1, 2], some ⟨true, 46⟩, ⟨36, 0⟩, 2, true⟩ true
      { ZoomAudioRecorder.constructed () with recording := true } ⟨0, 0, 4242, 0, 0⟩
      { ZoomBot.constructed [] with isMeetingJoined_ := true, isRecording_ := true }
      ⟨true, true, true⟩).2.1 rfl,
   (C13_start_while_recording (σ := Unit)
      ⟨wavHeaderBytes 36 0 ++ [1, 2], some ⟨true, 46⟩, ⟨36, 0⟩, 2, true⟩ true
      { ZoomAudioRecorder.constructed () with recording := true } ⟨0, 0, 4242, 0, 0⟩
      { ZoomBot.constructed [] with isMeetingJoined_ := true, isRecording_ := true }
      ⟨true, true, true⟩).2.2 rfl⟩

/-! ## C14: starting the SDK recorders while recording -/

/-- C14 (the code departs from it): `RealZoomAudioRecorder::startRecording`
and `ZoomSDKAudioRecorder::startRecording` do not test the flag. Called with
`audioHelper` set, the flag already true and `subscribe` succeeding, each
calls `subscribe` once more and creates one more thread; when the first
thread is still joinable, the assignment to `recordingThread` then ends the
process, and otherwise the call returns true. Without `audioHelper`,
`ZoomSDKAudioRecorder::startRecording` creates one more thread as well. -/
theorem C14_second_start_subscribes_again (c : RealZoomAudioRecorder.Control)
    (hrec : c.recording = true) :
    (c.audioHelper = true →
      RealZoomAudioRecorder.startRecording c 0
        = (if c.threadJoinable then
            RealZoomAudioRecorder.Outcome.terminated
              { c with subscribeCalls := c.subscribeCalls + 1,
                       threadsCreated := c.threadsCreated + 1 }
           else
            RealZoomAudioRecorder.Outcome.returned true
              { c with subscribeCalls := c.subscribeCalls + 1,
                       threadsCreated := c.threadsCreated + 1, threadJoinable := true }) ∧
      ZoomSDKAudioRecorder.startRecording c 0 = RealZoomAudioRecorder.startRecording c 0) ∧
    (c.audioHelper = false →
      ZoomSDKAudioRecorder.startRecording c 0
        = (if c.threadJoinable then
            RealZoomAudioRecorder.Outcome.terminated
              { c with threadsCreated := c.threadsCreated + 1 }
           else
            RealZoomAudioRecorder.Outcome.returned true
              { c with threadsCreated := c.threadsCreated + 1, threadJoinable := true })) := by
  obtain ⟨helper, r, joinable, subs, threads⟩ := c
  simp only at hrec
  subst hrec
  constructor
  · intro hh
    simp only at hh
    subst hh
    cases joinable <;>
      simp [RealZoomAudioRecorder.startRecording, ZoomSDKAudioRecorder.startRecording]
  · intro hh
    simp only at hh
    subst hh
    cases joinable <;> simp [ZoomSDKAudioRecorder.startRecording]

/-- C14 at the failing input: the recorder as a first successful
`startRecording` leaves it, started again. -/
theorem C14_second_start_subscribes_again_witness :
    RealZoomAudioRecorder.startRecording (RealZoomAudioRecorder.control true) 0
      = RealZoomAudioRecorder.Outcome.returned true ⟨true, true, true, 1, 1⟩ ∧
    RealZoomAudioRecorder.startRecording ⟨true, true, true, 1, 1⟩ 0
      = RealZoomAudioRecorder.Outcome.terminated ⟨true, true, true, 2, 2⟩ :=
  ⟨by decide, ((C14_second_start_subscribes_again ⟨true, true, true, 1, 1⟩ rfl).1 rfl).1⟩

/-! ## The fallback loop of `ZoomSDKAudioRecorder` -/

namespace ZoomSDKAudioRecorder

theorem sdk_writeWAVHeader_opened :
    writeWAVHeader OFStream.opened = ⟨wavHeaderBytes 36 0, 44⟩ := by
  decide

/-- Below the cap the inner loop writes all its `n` samples at the end of the
stream. -/
theorem fallbackChunk_full {ρ : Type} (sample : Nat → ρ → Int × ρ) (n : Nat) :
    ∀ (g : ρ) (bytes : List Nat) (written : Nat), written + n ≤ fallbackTotalSamples →
      ∃ (chunk : List Nat) (g1 : ρ), chunk.length = 2 * n ∧
        fallbackChunk sample n g ⟨bytes, bytes.length⟩ written
          = (g1, ⟨bytes ++ chunk, bytes.length + 2 * n⟩, written + n) := by
  induction n with
  | zero =>
    intro g bytes written _
    exact ⟨[], g, rfl, by simp [fallbackChunk]⟩
  | succ n ih =>
    intro g bytes written hle
    have hlt : written < fallbackTotalSamples := by omega
    obtain ⟨chunk, g1, hlen, h⟩ := ih (sample written g).2
      (bytes ++ int16Bytes (sample written g).1) (written + 1) (by omega)
    refine ⟨int16Bytes (sample written g).1 ++ chunk, g1, ?_, ?_⟩
    · simp [hlen, int16Bytes, le16]; omega
    · simp only [fallbackChunk, hlt, if_true]
      rw [OFStream.write_at_end]
      have e : bytes.length + (int16Bytes (sample written g).1).length
          = (bytes ++ int16Bytes (sample written g).1).length := by simp
      rw [e, h]
      simp only [List.append_assoc, List.length_append, int16Bytes, le16, List.length_cons,
        List.length_nil, Prod.mk.injEq, OFStream.mk.injEq, true_and]
      omega

/-- While the flag stays set, the first 3000 steps of the loop each write one
full chunk. -/
theorem fallbackSteps_below_cap {ρ : Type} (sample : Nat → ρ → Int × ρ) (k : Nat) :
    ∀ (s : FallbackState ρ) (j : Nat) (w : List Nat), j + k ≤ 3000 →
      s.recording = true → s.finished = false → s.writtenSamples = 1600 * j →
      s.audioFile = ⟨wavHeaderBytes 36 0 ++ w, 44 + w.length⟩ →
      ∃ data : List Nat, data.length = 3200 * k ∧
        (fallbackSteps sample k s).recording = true ∧
        (fallbackSteps sample k s).finished = false ∧
        (fallbackSteps sample k s).writtenSamples = 1600 * (j + k) ∧
        (fallbackSteps sample k s).audioFile
          = ⟨wavHeaderBytes 36 0 ++ (w ++ data), 44 + (w.length + 3200 * k)⟩ := by
  induction k with
  | zero =>
    intro s j w _ hr hfin hw hf
    exact ⟨[], rfl, hr, hfin, by simpa [fallbackSteps] using hw,
      by simpa [fallbackSteps] using hf⟩
  | succ k ih =>
    intro s j w hle hr hfin hw hf
    obtain ⟨rec, file, written, noise, fin⟩ := s
    simp only at hr hfin hw hf
    subst hr hfin hw hf
    have hcs : fallbackChunkSize = 1600 := rfl
    have hts : fallbackTotalSamples = 4800000 := rfl
    have hcap : 1600 * j + fallbackChunkSize ≤ fallbackTotalSamples := by omega
    have hlen : 44 + w.length = (wavHeaderBytes 36 0 ++ w).length := by
      simp [wavHeaderBytes_length]
    obtain ⟨chunk, g1, hc, hchunk⟩ := fallbackChunk_full sample fallbackChunkSize noise
      (wavHeaderBytes 36 0 ++ w) (1600 * j) hcap
    have hlt : 1600 * j < fallbackTotalSamples := by omega
    have hstep : fallbackStep sample
        { recording := true, audioFile := ⟨wavHeaderBytes 36 0 ++ w, 44 + w.length⟩,
          writtenSamples := 1600 * j, noise := noise, finished := false }
        = { recording := true,
            audioFile := ⟨wavHeaderBytes 36 0 ++ (w ++ chunk), 44 + (w ++ chunk).length⟩,
            writtenSamples := 1600 * (j + 1), noise := g1, finished := false } := by
      simp only [fallbackStep, Bool.false_eq_true, if_false, Bool.true_and, hlt, decide_True,
        if_true]
      rw [hlen, hchunk]
      simp only [FallbackState.mk.injEq, OFStream.mk.injEq, List.append_assoc,
        List.length_append, wavHeaderBytes_length, hc, true_and]
      exact ⟨by omega, by omega, trivial⟩
    obtain ⟨data, hd, k1, k2, k3, k4⟩ := ih
      { recording := true,
        audioFile := ⟨wavHeaderBytes 36 0 ++ (w ++ chunk), 44 + (w ++ chunk).length⟩,
        writtenSamples := 1600 * (j + 1), noise := g1, finished := false }
      (j + 1) (w ++ chunk) (by omega) rfl rfl rfl rfl
    refine ⟨chunk ++ data, ?_, ?_, ?_, ?_, ?_⟩
    · rw [List.length_append, hc, hd]; omega
    · rw [fallbackSteps, hstep]; exact k1
    · rw [fallbackSteps, hstep]; exact k2
    · rw [fallbackSteps, hstep, k3]; omega
    · rw [fallbackSteps, hstep, k4]
      simp only [List.append_assoc, List.length_append, hc, OFStream.mk.injEq, true_and]
      omega

end ZoomSDKAudioRecorder

namespace ZoomSDKAudioRecorder

theorem fallbackSteps_succ {ρ : Type} (sample : Nat → ρ → Int × ρ) (k : Nat) :
    ∀ s : FallbackState ρ,
      fallbackSteps sample (k + 1) s = fallbackStep sample (fallbackSteps sample k s) := by
  induction k with
  | zero => intro s; rfl
  | succ k ih => intro s; rw [fallbackSteps, ih (fallbackStep sample s)]; rfl

/-- At the cap the loop is left, whatever the flag says. -/
theorem fallbackStep_at_cap {ρ : Type} (sample : Nat → ρ → Int × ρ) (s : FallbackState ρ)
    (hfin : s.finished = false) (hw : s.writtenSamples = 4800000) :
    (fallbackStep sample s).finished = true ∧
    (fallbackStep sample s).writtenSamples = 4800000 ∧
    (fallbackStep sample s).recording = s.recording ∧
    (fallbackStep sample s).audioFile = updateWAVHeader s.audioFile 4800000 := by
  have hnot : ¬ (4800000 < fallbackTotalSamples) := by decide
  simp [fallbackStep, hfin, hw, hnot, U32]

end ZoomSDKAudioRecorder

/-! ## C17: how long the fallback loop goes on -/

/-- C17 (as stated, refuted): with the flag set all along, after 3000
iterations of `recordingLoopFallback` the flag is still true and
`1600 * 3000` samples are written, but the loop does not go on to the next
chunk: the next evaluation of its condition leaves the loop and finalizes the
header, with `writtenSamples` still `4800000`. -/
theorem C17_fallback_stops_at_cap_counterexample :
    (ZoomSDKAudioRecorder.fallbackSteps (fun _ (g : Unit) => ((0 : Int), g)) 3000
      (ZoomSDKAudioRecorder.fallbackEntry true ())).recording = true ∧
    (ZoomSDKAudioRecorder.fallbackSteps (fun _ (g : Unit) => ((0 : Int), g)) 3000
      (ZoomSDKAudioRecorder.fallbackEntry true ())).writtenSamples = 1600 * 3000 ∧
    (ZoomSDKAudioRecorder.fallbackSteps (fun _ (g : Unit) => ((0 : Int), g)) (3000 + 1)
      (ZoomSDKAudioRecorder.fallbackEntry true ())).finished = true ∧
    (ZoomSDKAudioRecorder.fallbackSteps (fun _ (g : Unit) => ((0 : Int), g)) (3000 + 1)
      (ZoomSDKAudioRecorder.fallbackEntry true ())).writtenSamples ≠ 1600 * (3000 + 1) := by
  obtain ⟨data, -, h1, h2, h3, -⟩ := ZoomSDKAudioRecorder.fallbackSteps_below_cap
    (fun _ (g : Unit) => ((0 : Int), g)) 3000 (ZoomSDKAudioRecorder.fallbackEntry true ()) 0 []
    (by omega) rfl rfl rfl
    (by simp [ZoomSDKAudioRecorder.fallbackEntry, ZoomSDKAudioRecorder.sdk_writeWAVHeader_opened])
  obtain ⟨c1, c2, -, -⟩ := ZoomSDKAudioRecorder.fallbackStep_at_cap
    (fun _ (g : Unit) => ((0 : Int), g)) _ h2 (by rw [h3])
  rw [ZoomSDKAudioRecorder.fallbackSteps_succ (fun _ (g : Unit) => ((0 : Int), g)) 3000
    (ZoomSDKAudioRecorder.fallbackEntry true ())]
  refine ⟨h1, by rw [h3, Nat.zero_add], c1, ?_⟩
  rw [c2]
  decide

/-- C17 (amended): in `recordingLoopFallback`, with the flag set all along,
for every `k` below 3000 the loop is still running after `k` iterations, has
written `1600 * k` samples and goes on to write the next chunk (after one more
iteration `1600 * (k + 1)` samples are written); after 3000 iterations, that
is `4800000` samples or 300 seconds, the loop is left and the header
finalized although the flag is still true. -/
theorem C17_fallback_runs_until_cap {ρ : Type} (sample : Nat → ρ → Int × ρ) (noise : ρ)
    (k : Nat) (hk : k < 3000) :
    ((ZoomSDKAudioRecorder.fallbackSteps sample k
        (ZoomSDKAudioRecorder.fallbackEntry true noise)).recording = true ∧
     (ZoomSDKAudioRecorder.fallbackSteps sample k
        (ZoomSDKAudioRecorder.fallbackEntry true noise)).finished = false ∧
     (ZoomSDKAudioRecorder.fallbackSteps sample k
        (ZoomSDKAudioRecorder.fallbackEntry true noise)).writtenSamples = 1600 * k) ∧
    ((ZoomSDKAudioRecorder.fallbackSteps sample (k + 1)
        (ZoomSDKAudioRecorder.fallbackEntry true noise)).finished = false ∧
     (ZoomSDKAudioRecorder.fallbackSteps sample (k + 1)
        (ZoomSDKAudioRecorder.fallbackEntry true noise)).writtenSamples = 1600 * (k + 1)) ∧
    ((ZoomSDKAudioRecorder.fallbackSteps sample 3000
        (ZoomSDKAudioRecorder.fallbackEntry true noise)).recording = true ∧
     (ZoomSDKAudioRecorder.fallbackSteps sample (3000 + 1)
        (ZoomSDKAudioRecorder.fallbackEntry true noise)).finished = true ∧
     (ZoomSDKAudioRecorder.fallbackSteps sample (3000 + 1)
        (ZoomSDKAudioRecorder.fallbackEntry true noise)).writtenSamples = 4800000) := by
  have hentry : (ZoomSDKAudioRecorder.fallbackEntry true noise).audioFile
      = ⟨wavHeaderBytes 36 0 ++ [], 44 + ([] : List Nat).length⟩ := by
    simp [ZoomSDKAudioRecorder.fallbackEntry, ZoomSDKAudioRecorder.sdk_writeWAVHeader_opened]
  have key : ∀ n, n ≤ 3000 →
      (ZoomSDKAudioRecorder.fallbackSteps sample n
        (ZoomSDKAudioRecorder.fallbackEntry true noise)).recording = true ∧
      (ZoomSDKAudioRecorder.fallbackSteps sample n
        (ZoomSDKAudioRecorder.fallbackEntry true noise)).finished = false ∧
      (ZoomSDKAudioRecorder.fallbackSteps sample n
        (ZoomSDKAudioRecorder.fallbackEntry true noise)).writtenSamples = 1600 * n := by
    intro n hn
    obtain ⟨data, -, h1, h2, h3, -⟩ := ZoomSDKAudioRecorder.fallbackSteps_below_cap sample n
      (ZoomSDKAudioRecorder.fallbackEntry true noise) 0 [] (by omega) rfl rfl rfl hentry
    exact ⟨h1, h2, by rw [h3, Nat.zero_add]⟩
  obtain ⟨t1, t2, t3⟩ := key 3000 (Nat.le_refl _)
  obtain ⟨c1, c2, -, -⟩ := ZoomSDKAudioRecorder.fallbackStep_at_cap sample _ t2 (by rw [t3])
  refine ⟨key k (by omega), (key (k + 1) (by omega)).2, t1, ?_, ?_⟩
  · rw [ZoomSDKAudioRecorder.fallbackSteps_succ sample 3000]; exact c1
  · rw [ZoomSDKAudioRecorder.fallbackSteps_succ sample 3000]; exact c2

/-- C17 (amended), at `k = 10`: after ten iterations 16000 samples are written
and the loop is still running. -/
theorem C17_fallback_runs_until_cap_witness :
    (ZoomSDKAudioRecorder.fallbackSteps (fun _ (g : Unit) => ((0 : Int), g)) 10
      (ZoomSDKAudioRecorder.fallbackEntry true ())).writtenSamples = 1600 * 10 :=
  (C17_fallback_runs_until_cap (fun _ (g : Unit) => ((0 : Int), g)) () 10 (by decide)).1.2.2

/-! ## Bounds on the real-valued samples -/

theorem sinh_le_mul_cosh (y : ℝ) (hy : 0 ≤ y) : Real.sinh y ≤ y * Real.cosh y := by
  have hd : ∀ x : ℝ, HasDerivAt (fun t : ℝ => t * Real.cosh t - Real.sinh t)
      (x * Real.sinh x) x := by
    intro x
    have h := ((hasDerivAt_id x).mul (Real.hasDerivAt_cosh x)).sub (Real.hasDerivAt_sinh x)
    simp only [id_eq, one_mul, add_sub_cancel_left] at h
    exact h
  have hmono : Monotone (fun t : ℝ => t * Real.cosh t - Real.sinh t) := by
    apply monotone_of_deriv_nonneg
    · intro x; exact (hd x).differentiableAt
    · intro x
      rw [(hd x).deriv]
      rcases le_total 0 x with hx | hx
      · exact mul_nonneg hx (Real.sinh_nonneg_iff.mpr hx)
      · exact mul_nonneg_of_nonpos_of_nonpos hx (Real.sinh_nonpos_iff.mpr hx)
  have h0 := hmono hy
  simp only [zero_mul, Real.sinh_zero, sub_zero] at h0
  linarith

/-- The hyperbolic tangent never exceeds its argument in magnitude. -/
theorem abs_tanh_le_abs (y : ℝ) : |Real.tanh y| ≤ |y| := by
  have hpos : ∀ t : ℝ, 0 ≤ t → 0 ≤ Real.tanh t ∧ Real.tanh t ≤ t := by
    intro t ht
    rw [Real.tanh_eq_sinh_div_cosh]
    constructor
    · exact div_nonneg (Real.sinh_nonneg_iff.mpr ht) (Real.cosh_pos t).le
    · rw [div_le_iff₀ (Real.cosh_pos t)]
      exact sinh_le_mul_cosh t ht
  rcases le_total 0 y with hy | hy
  · obtain ⟨h1, h2⟩ := hpos y hy
    rw [abs_of_nonneg h1, abs_of_nonneg hy]
    exact h2
  · obtain ⟨h1, h2⟩ := hpos (-y) (by linarith)
    rw [Real.tanh_neg] at h1 h2
    rw [abs_of_nonpos (by linarith), abs_of_nonpos hy]
    exact h2

/-- Dropping the fraction keeps a value between two whole bounds. -/
theorem truncToInt_between (x : ℝ) (lo hi : ℤ) (hlo : lo ≤ 0) (hhi : 0 ≤ hi)
    (h1 : (lo : ℝ) ≤ x) (h2 : x ≤ (hi : ℝ)) :
    lo ≤ truncToInt x ∧ truncToInt x ≤ hi := by
  unfold truncToInt
  split
  · rename_i hx
    constructor
    · exact le_trans hlo (Int.floor_nonneg.mpr hx)
    · have := Int.floor_le x
      exact_mod_cast le_trans this h2
  · rename_i hx
    constructor
    · have := Int.le_ceil x
      exact_mod_cast le_trans h1 this
    · have hx0 : x ≤ ((0 : ℤ) : ℝ) := by push_cast; linarith
      exact le_trans (Int.ceil_le.mpr hx0) hhi

theorem truncToInt_of_abs_le (x : ℝ) (B : ℤ) (hB : 0 ≤ B) (h : |x| ≤ (B : ℝ)) :
    -B ≤ truncToInt x ∧ truncToInt x ≤ B := by
  have h' := abs_le.mp h
  exact truncToInt_between x (-B) B (by omega) hB (by push_cast; exact h'.1) h'.2

namespace ZoomAudioRecorder

theorem abs_compress_le (x : ℝ) : |compress x| ≤ 0.8 := by
  unfold compress
  split
  · split
    · rw [mul_one]; norm_num [abs_of_nonneg]
    · rw [mul_neg, mul_one, abs_neg]; norm_num [abs_of_nonneg]
  · rename_i h
    exact not_lt.mp h

theorem abs_softClip_le (x : ℝ) : |softClip x| ≤ |x| := by
  unfold softClip
  rw [abs_div]
  have h := abs_tanh_le_abs (x * 0.7)
  rw [abs_mul] at h
  have h7 : |(0.7 : ℝ)| = 0.7 := abs_of_nonneg (by norm_num)
  rw [h7] at h ⊢
  rw [div_le_iff₀ (by norm_num)]
  exact h

theorem abs_pcmReal_le (x : ℝ) : |pcmReal x| ≤ 22400 := by
  unfold pcmReal
  rw [abs_mul]
  have h1 := abs_softClip_le (compress x)
  have h2 := abs_compress_le x
  have h3 : |(28000 : ℝ)| = 28000 := abs_of_nonneg (by norm_num)
  rw [h3]
  nlinarith [abs_nonneg (softClip (compress x))]

end ZoomAudioRecorder

theorem ZoomSDKAudioRecorder.abs_fallbackSampleReal_le (w : Nat) (u : ℝ) :
    |ZoomSDKAudioRecorder.fallbackSampleReal w u| ≤ 0.9 * 32767 := by
  simp only [ZoomSDKAudioRecorder.fallbackSampleReal]
  rw [abs_mul]
  have h3 : |(32767 : ℝ)| = 32767 := abs_of_nonneg (by norm_num)
  rw [h3]
  have hc : ∀ t : ℝ, |max (-0.9) (min 0.9 t)| ≤ 0.9 := by
    intro t
    rw [abs_le]
    constructor
    · exact le_max_left _ _
    · exact max_le (by norm_num) (min_le_left _ _)
  exact mul_le_mul_of_nonneg_right (hc _) (by norm_num)

theorem SimpleBot.abs_testSampleReal_le (i : Nat) (u : ℝ) (hu0 : 0 ≤ u) (hu1 : u ≤ 1) :
    |SimpleBot.testSampleReal i u| ≤ 0.625 * (32767 * 0.8) := by
  simp only [SimpleBot.testSampleReal]
  have a1 := Real.neg_one_le_sin (2 * Real.pi * 200 * ((i : ℝ) / 16000))
  have a2 := Real.sin_le_one (2 * Real.pi * 200 * ((i : ℝ) / 16000))
  have b1 := Real.neg_one_le_sin (2 * Real.pi * 400 * ((i : ℝ) / 16000))
  have b2 := Real.sin_le_one (2 * Real.pi * 400 * ((i : ℝ) / 16000))
  have c1 := Real.neg_one_le_sin (2 * Real.pi * 800 * ((i : ℝ) / 16000))
  have c2 := Real.sin_le_one (2 * Real.pi * 800 * ((i : ℝ) / 16000))
  rw [abs_le]
  constructor <;> linarith

/-! ## C15: the conversion to 16-bit PCM stays in range -/

/-- C15: with `double` read as the reals. In `generateRealtimeAudio`, for every
value `x` of `sample` before the compressor, the value converted has magnitude
at most 22400 and its conversion lies in `[-32768, 32767]`; so does the sample
written for every index and every hidden state (phases, `rand`). In
`recordingLoopFallback`, for every sample number and every noise value, the
value converted has magnitude at most `0.9 * 32767` and its conversion lies in
range. In `generateTestAudio` of simple_bot, for every sample number and every
noise value `u` in `[0, 1]`, the value converted has magnitude at most
`0.625 * (32767 * 0.8)` and its conversion lies in range. -/
theorem C15_pcm_conversion_in_range (x : ℝ) (n : Nat) (g : ZoomAudioRecorder.Synth)
    (w i : Nat) (u : ℝ) (hu0 : 0 ≤ u) (hu1 : u ≤ 1) :
    (|ZoomAudioRecorder.pcmReal x| ≤ 22400 ∧
      -32768 ≤ truncToInt (ZoomAudioRecorder.pcmReal x) ∧
      truncToInt (ZoomAudioRecorder.pcmReal x) ≤ 32767) ∧
    (-22400 ≤ (ZoomAudioRecorder.realtimeSample n g).1 ∧
      (ZoomAudioRecorder.realtimeSample n g).1 ≤ 22400) ∧
    (|ZoomSDKAudioRecorder.fallbackSampleReal w u| ≤ 0.9 * 32767 ∧
      -32768 ≤ truncToInt (ZoomSDKAudioRecorder.fallbackSampleReal w u) ∧
      truncToInt (ZoomSDKAudioRecorder.fallbackSampleReal w u) ≤ 32767) ∧
    (|SimpleBot.testSampleReal i u| ≤ 0.625 * (32767 * 0.8) ∧
      -32768 ≤ truncToInt (SimpleBot.testSampleReal i u) ∧
      truncToInt (SimpleBot.testSampleReal i u) ≤ 32767) := by
  have hp : ∀ y : ℝ, -22400 ≤ truncToInt (ZoomAudioRecorder.pcmReal y) ∧
      truncToInt (ZoomAudioRecorder.pcmReal y) ≤ 22400 := by
    intro y
    exact truncToInt_of_abs_le _ 22400 (by norm_num)
      (by push_cast; exact ZoomAudioRecorder.abs_pcmReal_le y)
  have hf := ZoomSDKAudioRecorder.abs_fallbackSampleReal_le w u
  have ht := SimpleBot.abs_testSampleReal_le i u hu0 hu1
  have hf' := truncToInt_of_abs_le (ZoomSDKAudioRecorder.fallbackSampleReal w u) 32767
    (by norm_num) (by push_cast; linarith)
  have ht' := truncToInt_of_abs_le (SimpleBot.testSampleReal i u) 32767
    (by norm_num) (by push_cast; linarith)
  refine ⟨⟨ZoomAudioRecorder.abs_pcmReal_le x, ?_, ?_⟩, ?_, ⟨hf, ?_, ?_⟩, ⟨ht, ?_, ?_⟩⟩
  · have := (hp x).1; omega
  · have := (hp x).2; omega
  · exact hp _
  · have := hf'.1; omega
  · exact hf'.2
  · have := ht'.1; omega
  · exact ht'.2

/-- C15 at a concrete input: sample value 5 before the compressor, index 0, a
`rand` that always returns 0, noise value 1. -/
theorem C15_pcm_conversion_in_range_witness :
    |ZoomAudioRecorder.pcmReal 5| ≤ 22400 ∧
    truncToInt (SimpleBot.testSampleReal 0 1) ≤ 32767 :=
  ⟨(C15_pcm_conversion_in_range 5 0 ⟨0, 0, ⟨fun _ => 0, 0⟩⟩ 0 0 1 (by norm_num)
      (by norm_num)).1.1,
   (C15_pcm_conversion_in_range 5 0 ⟨0, 0, ⟨fun _ => 0, 0⟩⟩ 0 0 1 (by norm_num)
      (by norm_num)).2.2.2.2.2⟩

/-! ## The hybrid generator at a silent sample index -/

/-- A lower bound on the hyperbolic tangent near zero. -/
theorem third_le_tanh (y : ℝ) (h0 : 0 ≤ y) (h1 : y ≤ 1) : y / 3 ≤ Real.tanh y := by
  rw [Real.tanh_eq_sinh_div_cosh]
  have hs : y ≤ Real.sinh y := Real.self_le_sinh_iff.mpr h0
  have hc : Real.cosh y ≤ 3 := by
    rw [Real.cosh_eq]
    have e1 : Real.exp (-y) ≤ Real.exp y := Real.exp_le_exp.mpr (by linarith)
    have e2 : Real.exp y ≤ Real.exp 1 := Real.exp_le_exp.mpr h1
    have e3 := Real.exp_one_lt_d9
    linarith
  have hpos := Real.cosh_pos y
  rw [le_div_iff₀ hpos]
  have := mul_le_mul_of_nonneg_left hc (by linarith : (0 : ℝ) ≤ y / 3)
  linarith

theorem truncToInt_of_lt_one (x : ℝ) (h0 : 0 ≤ x) (h1 : x < 1) : truncToInt x = 0 := by
  unfold truncToInt
  rw [if_pos h0]
  exact Int.floor_eq_zero_iff.mpr ⟨h0, h1⟩

namespace ZoomAudioRecorder

/-- At the sample index 129600 (8.1 s into the cycle: no speaker, no typing
test, no notification tone) the sample is the room noise alone, drawn from
`rand`. -/
theorem realtimeSample_silent (p1 p2 : ℝ) (d : Nat) :
    (realtimeSample 129600 ⟨p1, p2, ⟨fun _ => d, 0⟩⟩).1
      = truncToInt (pcmReal (0.015 * (unitNoise (d % (RAND_MAX + 1)) - 0.5))) := by
  have ht : ((129600 : Nat) : ℝ) / 16000 = 8.1 := by norm_num
  have hseg : fmod 8.1 25 = 8.1 := by
    unfold fmod
    rw [truncToInt_of_lt_one _ (by norm_num) (by norm_num)]
    simp
  have hv : voices 8.1 p1 p2 = (0, p1, p2) := by
    unfold voices
    simp only [hseg]
    norm_num
  have ha : ambience 129600 8.1 ⟨fun _ => d, 0⟩
      = (0 + 0.015 * (unitNoise (d % (RAND_MAX + 1)) - 0.5) + 0, ⟨fun _ => d, 1⟩) := by
    simp [ambience, Rng.rand]
  simp only [realtimeSample, ht, hv, ha]
  congr 2
  ring

theorem pcmReal_small (x : ℝ) (hx : |x| ≤ 0.8) :
    pcmReal x = Real.tanh (x * 0.7) / 0.7 * 28000 := by
  have hc : compress x = x := by
    unfold compress
    rw [if_neg (not_lt.mpr hx)]
  rw [pcmReal, hc, softClip]

/-- The room noise drawn as 0 gives a sample of at most -70, drawn as
`RAND_MAX` a sample of at least 70. -/
theorem realtimeSample_silent_extremes (p1 p2 : ℝ) :
    (realtimeSample 129600 ⟨p1, p2, ⟨fun _ => 0, 0⟩⟩).1 ≤ -70 ∧
    70 ≤ (realtimeSample 129600 ⟨p1, p2, ⟨fun _ => RAND_MAX, 0⟩⟩).1 := by
  have hb := third_le_tanh 0.00525 (by norm_num) (by norm_num)
  constructor
  · rw [realtimeSample_silent]
    have hu : unitNoise (0 % (RAND_MAX + 1)) = 0 := by simp [unitNoise]
    rw [hu, pcmReal_small _ (by rw [abs_le]; constructor <;> norm_num)]
    have e : ((0.015 : ℝ) * (0 - 0.5) * 0.7) = -0.00525 := by norm_num
    rw [e, Real.tanh_neg]
    have hneg : -Real.tanh 0.00525 / 0.7 * 28000 ≤ ((-70 : ℤ) : ℝ) := by
      push_cast
      rw [div_mul_eq_mul_div, div_le_iff₀ (by norm_num)]
      linarith
    unfold truncToInt
    rw [if_neg (by push_cast at hneg; linarith)]
    exact Int.ceil_le.mpr hneg
  · rw [realtimeSample_silent]
    have hu : unitNoise (RAND_MAX % (RAND_MAX + 1)) = 1 := by
      norm_num [unitNoise, RAND_MAX]
    rw [hu, pcmReal_small _ (by rw [abs_le]; constructor <;> norm_num)]
    have e : ((0.015 : ℝ) * (1 - 0.5) * 0.7) = 0.00525 := by norm_num
    rw [e]
    have hpos : ((70 : ℤ) : ℝ) ≤ Real.tanh 0.00525 / 0.7 * 28000 := by
      push_cast
      rw [div_mul_eq_mul_div, le_div_iff₀ (by norm_num)]
      linarith
    unfold truncToInt
    rw [if_pos (by push_cast at hpos; linarith)]
    exact Int.le_floor.mpr hpos

end ZoomAudioRecorder

/-! ## C16: what the generated chunk depends on -/

namespace ZoomAudioRecorder

theorem generatedSamples_head (g : Synth) :
    (generatedSamples realtimeSample 129600 samplesPerChunk 0 g).1.head?
      = some (realtimeSample 129600 g).1 := by
  have h : samplesPerChunk = 1599 + 1 := rfl
  rw [h, generatedSamples]
  rfl

end ZoomAudioRecorder

/-- C16 (as stated, refuted): two invocations of `generateRealtimeAudio` start
at the same time offset 129600 (after 81 chunks), with the same speaker
phases, and differ only in what `rand` returns (always 0, or always
`RAND_MAX`); the first samples they produce are at most -70 and at least 70,
so the sample sequences differ. -/
theorem C16_same_offset_different_samples_counterexample :
    (ZoomAudioRecorder.generatedSamples ZoomAudioRecorder.realtimeSample 129600
        ZoomAudioRecorder.samplesPerChunk 0 ⟨0, 0, ⟨fun _ => 0, 0⟩⟩).1
      ≠ (ZoomAudioRecorder.generatedSamples ZoomAudioRecorder.realtimeSample 129600
        ZoomAudioRecorder.samplesPerChunk 0 ⟨0, 0, ⟨fun _ => RAND_MAX, 0⟩⟩).1 := by
  intro h
  have h0 := ZoomAudioRecorder.generatedSamples_head ⟨0, 0, ⟨fun _ => 0, 0⟩⟩
  have h1 := ZoomAudioRecorder.generatedSamples_head ⟨0, 0, ⟨fun _ => RAND_MAX, 0⟩⟩
  rw [h, h1] at h0
  have heq := Option.some.inj h0
  have hb := ZoomAudioRecorder.realtimeSample_silent_extremes 0 0
  omega

/-- C16 (amended): the chunk of `generateRealtimeAudio` is determined by the
time offset together with the hidden state of the generator (the two speaker
phases and the state of `rand`): on two recorders that write at the end of
their files and agree on `timeOffset` and on that hidden state, whatever
their files, sample counters and other members hold, the call appends the
same bytes, those of the same sample sequence, and leaves the same time offset
and hidden state. -/
theorem C16_chunk_determined_by_offset_and_hidden_state
    (s t : ZoomAudioRecorder.State ZoomAudioRecorder.Synth) (bs bt : List Nat)
    (hs : s.audioFile = some ⟨bs, bs.length⟩) (ht : t.audioFile = some ⟨bt, bt.length⟩)
    (hsn : s.totalSamples < U32) (htn : t.totalSamples < U32)
    (hoff : s.timeOffset = t.timeOffset) (hsyn : s.synth = t.synth) :
    ∃ samples : List Int,
      samples = (ZoomAudioRecorder.generatedSamples ZoomAudioRecorder.realtimeSample
        s.timeOffset ZoomAudioRecorder.samplesPerChunk 0 s.synth).1 ∧
      samples.length = 1600 ∧
      (ZoomAudioRecorder.generateRealtimeAudio ZoomAudioRecorder.realtimeSample s).audioFile
        = some ⟨bs ++ samples.flatMap int16Bytes, bs.length + 3200⟩ ∧
      (ZoomAudioRecorder.generateRealtimeAudio ZoomAudioRecorder.realtimeSample t).audioFile
        = some ⟨bt ++ samples.flatMap int16Bytes, bt.length + 3200⟩ ∧
      (ZoomAudioRecorder.generateRealtimeAudio ZoomAudioRecorder.realtimeSample s).synth
        = (ZoomAudioRecorder.generateRealtimeAudio ZoomAudioRecorder.realtimeSample t).synth ∧
      (ZoomAudioRecorder.generateRealtimeAudio ZoomAudioRecorder.realtimeSample s).timeOffset
        = (ZoomAudioRecorder.generateRealtimeAudio
            ZoomAudioRecorder.realtimeSample t).timeOffset := by
  have h1 := ZoomAudioRecorder.generateRealtimeAudio_appends
    ZoomAudioRecorder.realtimeSample s bs hs hsn
  have h2 := ZoomAudioRecorder.generateRealtimeAudio_appends
    ZoomAudioRecorder.realtimeSample t bt ht htn
  rw [← hoff, ← hsyn] at h2
  refine ⟨_, rfl, ?_, by rw [h1], by rw [h2], by rw [h1, h2], by rw [h1, h2]⟩
  rw [ZoomAudioRecorder.generatedSamples_length]
  rfl

/-- C16 (amended), at two concrete recorders with the same offset and hidden
state, one on a bare header with no sample counted, one with two bytes already
written and one sample counted: both files receive the same 1600 samples. -/
theorem C16_chunk_determined_by_offset_and_hidden_state_witness :
    ∃ samples : List Int, samples.length = 1600 ∧
      (ZoomAudioRecorder.generateRealtimeAudio ZoomAudioRecorder.realtimeSample
        { ZoomAudioRecorder.constructed
            (⟨0, 0, ⟨fun _ => 0, 0⟩⟩ : ZoomAudioRecorder.Synth) with
          audioFile := some ⟨wavHeaderBytes 36 0, 44⟩ }).audioFile
        = some ⟨wavHeaderBytes 36 0 ++ samples.flatMap int16Bytes, 44 + 3200⟩ ∧
      (ZoomAudioRecorder.generateRealtimeAudio ZoomAudioRecorder.realtimeSample
        { ZoomAudioRecorder.constructed
            (⟨0, 0, ⟨fun _ => 0, 0⟩⟩ : ZoomAudioRecorder.Synth) with
          audioFile := some ⟨wavHeaderBytes 36 0 ++ [1, 2], 46⟩,
          totalSamples := 1 }).audioFile
        = some ⟨wavHeaderBytes 36 0 ++ [1, 2] ++ samples.flatMap int16Bytes, 46 + 3200⟩ :=
  (C16_chunk_determined_by_offset_and_hidden_state
    { ZoomAudioRecorder.constructed (⟨0, 0, ⟨fun _ => 0, 0⟩⟩ : ZoomAudioRecorder.Synth) with
      audioFile := some ⟨wavHeaderBytes 36 0, 44⟩ }
    { ZoomAudioRecorder.constructed (⟨0, 0, ⟨fun _ => 0, 0⟩⟩ : ZoomAudioRecorder.Synth) with
      audioFile := some ⟨wavHeaderBytes 36 0 ++ [1, 2], 46⟩, totalSamples := 1 }
    (wavHeaderBytes 36 0) (wavHeaderBytes 36 0 ++ [1, 2]) rfl rfl (by decide) (by decide)
    rfl rfl).elim (fun samples h => ⟨samples, h.2.1, h.2.2.1, h.2.2.2.1⟩)

/-! ## C18: the provisional header of `AudioRecorder` -/

/-- C18 (the code departs from it): on every `AudioRecorder` that is not
recording and whose file opens, `startRecording` returns true and leaves the
file holding exactly a 44-byte header, but the header is written before
`totalDataSize_` is reset: its `dataSize` field is the old value of
`totalDataSize_` modulo `2^32` and its `fileSize` field is 36 plus the old
value, modulo `2^32`. They are 0 and 36 on a new recorder, not on one that
has completed a recording with data. -/
theorem C18_provisional_header_has_old_sizes (s : AudioRecorder)
    (hs : s.isRecording_ = false) :
    (AudioRecorder.startRecording s true).1 = true ∧
    (AudioRecorder.startRecording s true).2.disk
      = wavHeaderBytes ((36 + s.totalDataSize_) % U32) (s.totalDataSize_ % U32) ∧
    (AudioRecorder.startRecording s true).2.disk.length = 44 ∧
    readLE32 (AudioRecorder.startRecording s true).2.disk 40 = s.totalDataSize_ % U32 ∧
    readLE32 (AudioRecorder.startRecording s true).2.disk 4 = (36 + s.totalDataSize_) % U32 ∧
    (s.totalDataSize_ = 0 →
      (AudioRecorder.startRecording s true).2.disk = wavHeaderBytes 36 0) := by
  obtain ⟨h0, -, -, h3, -⟩ := AudioRecorder.recording_after_start s hs
  rw [AudioRecorder.fileSizeField_eq] at h3
  simp only [AudioRecorder.dataSizeField] at h3
  rw [h3]
  refine ⟨h0, rfl, wavHeaderBytes_length _ _, ?_, ?_, ?_⟩
  · have := fromLE_le32 (s.totalDataSize_ % U32)
    rw [Nat.mod_mod] at this
    simpa [readLE32, wavHeaderBytes, le32, le16] using this
  · have := fromLE_le32 ((36 + s.totalDataSize_) % U32)
    rw [Nat.mod_mod] at this
    simpa [readLE32, wavHeaderBytes, le32, le16] using this
  · intro hz
    rw [hz]
    rfl

/-- C18 at the failing input: a recorder that has completed a recording of
the two bytes `[1, 2]` is started again; the provisional header says
`dataSize = 2`. -/
theorem C18_provisional_header_has_old_sizes_witness :
    readLE32 (AudioRecorder.startRecording
      (AudioRecorder.stopRecording (AudioRecorder.writeAll
        (AudioRecorder.startRecording (AudioRecorder.constructed []) true).2 [[1, 2]])).2
      true).2.disk 40 = 2 :=
  (C18_provisional_header_has_old_sizes
    (AudioRecorder.stopRecording (AudioRecorder.writeAll
      (AudioRecorder.startRecording (AudioRecorder.constructed []) true).2 [[1, 2]])).2
    (by decide)).2.2.2.1.trans (by decide)

/-! ## Writing inside a file -/

theorem writeAt_inside (bytes : List Nat) (pos : Nat) (data : List Nat)
    (h : pos + data.length ≤ bytes.length) :
    writeAt bytes pos data = bytes.take pos ++ data ++ bytes.drop (pos + data.length) := by
  unfold writeAt
  have e : pos - bytes.length = 0 := by omega
  rw [e]
  simp

/-- A write inside the file leaves every byte outside the written range as it
was. -/
theorem writeAt_getElem?_outside (bytes : List Nat) (pos : Nat) (data : List Nat) (i : Nat)
    (h : pos + data.length ≤ bytes.length) (hi : i < pos ∨ pos + data.length ≤ i) :
    (writeAt bytes pos data)[i]? = bytes[i]? := by
  rw [writeAt_inside bytes pos data h]
  have hlen : (bytes.take pos).length = pos := by
    rw [List.length_take]; omega
  rcases hi with hi | hi
  · rw [List.getElem?_append_left (by rw [List.length_append, hlen]; omega)]
    rw [List.getElem?_append_left (by rw [hlen]; exact hi)]
    exact List.getElem?_take_of_lt hi
  · rw [List.getElem?_append_right (by rw [List.length_append, hlen]; exact hi)]
    rw [List.getElem?_drop, List.length_append, hlen]
    congr 1
    omega

/-- The seek-and-write sequence of the finalizers on a file of at least 44
bytes: the length is kept, the result is the old content with bytes 4 to 7 and
40 to 43 replaced, and every other byte is as it was. -/
theorem finalize_frame (bytes : List Nat) (fs ds : Nat) (h : 44 ≤ bytes.length) :
    (writeAt (writeAt bytes 4 (le32 fs)) 40 (le32 ds)).length = bytes.length ∧
    writeAt (writeAt bytes 4 (le32 fs)) 40 (le32 ds)
      = bytes.take 4 ++ le32 fs ++ (bytes.drop 8).take 32 ++ le32 ds ++ bytes.drop 44 ∧
    (∀ i, (i < 4 ∨ (8 ≤ i ∧ i < 40) ∨ 44 ≤ i) →
      (writeAt (writeAt bytes 4 (le32 fs)) 40 (le32 ds))[i]? = bytes[i]?) := by
  have h1 : (writeAt bytes 4 (le32 fs)).length = bytes.length := by
    rw [writeAt_length, le32_length]; omega
  have h2 : (writeAt (writeAt bytes 4 (le32 fs)) 40 (le32 ds)).length = bytes.length := by
    rw [writeAt_length, le32_length, h1]; omega
  have hget : ∀ i, (i < 4 ∨ (8 ≤ i ∧ i < 40) ∨ 44 ≤ i) →
      (writeAt (writeAt bytes 4 (le32 fs)) 40 (le32 ds))[i]? = bytes[i]? := by
    intro i hi
    rw [writeAt_getElem?_outside _ 40 _ i (by rw [le32_length, h1]; omega)
      (by rw [le32_length]; omega)]
    exact writeAt_getElem?_outside _ 4 _ i (by rw [le32_length]; omega)
      (by rw [le32_length]; omega)
  refine ⟨h2, ?_, hget⟩
  rw [writeAt_inside _ 40 _ (by rw [le32_length, h1]; omega),
    writeAt_inside _ 4 _ (by rw [le32_length]; omega)]
  simp only [le32_length]
  have ha : (bytes.take 4).length = 4 := by rw [List.length_take]; omega
  have hb : (bytes.take 4 ++ le32 fs).length = 8 := by
    rw [List.length_append, ha, le32_length]
  have t1 : List.take 40 (bytes.take 4 ++ le32 fs ++ bytes.drop (4 + 4))
      = bytes.take 4 ++ le32 fs ++ (bytes.drop 8).take 32 := by
    rw [List.take_append_eq_append_take, hb, List.take_of_length_le (by omega)]
  have t2 : List.drop (40 + 4) (bytes.take 4 ++ le32 fs ++ bytes.drop (4 + 4))
      = bytes.drop 44 := by
    rw [List.drop_append_eq_append_drop, hb, List.drop_of_length_le (by omega),
      List.drop_drop, List.nil_append]
  rw [t1, t2]

/-! ## C19: the header written by the hybrid recorder -/

/-- C19: the hybrid recorder's `writeWAVHeader`, on any stream positioned at
its end, appends exactly these 44 bytes; read back, they are `RIFF`,
`fileSize = 36`, `WAVE`, `fmt `, sub-chunk size 16, format 1, channels 1,
`sampleRate = 16000`, `byteRate = 32000 = 16000 * 1 * 2`, `blockAlign = 2 =
1 * 2`, `bitsPerSample = 16`, `data`, `dataSize = 0`, every integer
little-endian; `fileSize` sits at bytes 4 to 7 and `dataSize` at bytes 40 to
43, which are the bytes that `updateWAVHeader` replaces. -/
theorem C19_hybrid_header_layout (bytes : List Nat) (N : Nat) :
    ZoomAudioRecorder.writeWAVHeader ⟨bytes, bytes.length⟩
      = ⟨bytes ++ [82, 73, 70, 70, 36, 0, 0, 0, 87, 65, 86, 69, 102, 109, 116, 32,
                   16, 0, 0, 0, 1, 0, 1, 0, 128, 62, 0, 0, 0, 125, 0, 0, 2, 0, 16, 0,
                   100, 97, 116, 97, 0, 0, 0, 0], bytes.length + 44⟩ ∧
    (ZoomAudioRecorder.writeWAVHeader OFStream.opened).bytes.length = 44 ∧
    (ZoomAudioRecorder.writeWAVHeader OFStream.opened).bytes = wavHeaderBytes 36 0 ∧
    (tagAt (ZoomAudioRecorder.writeWAVHeader OFStream.opened).bytes 0 = tagBytes "RIFF" ∧
     readLE32 (ZoomAudioRecorder.writeWAVHeader OFStream.opened).bytes 4 = 36 ∧
     tagAt (ZoomAudioRecorder.writeWAVHeader OFStream.opened).bytes 8 = tagBytes "WAVE" ∧
     tagAt (ZoomAudioRecorder.writeWAVHeader OFStream.opened).bytes 12 = tagBytes "fmt " ∧
     readLE32 (ZoomAudioRecorder.writeWAVHeader OFStream.opened).bytes 16 = 16 ∧
     readLE16 (ZoomAudioRecorder.writeWAVHeader OFStream.opened).bytes 20 = 1 ∧
     readLE16 (ZoomAudioRecorder.writeWAVHeader OFStream.opened).bytes 22 = 1 ∧
     readLE32 (ZoomAudioRecorder.writeWAVHeader OFStream.opened).bytes 24 = 16000 ∧
     readLE32 (ZoomAudioRecorder.writeWAVHeader OFStream.opened).bytes 28 = 16000 * 1 * 2 ∧
     readLE16 (ZoomAudioRecorder.writeWAVHeader OFStream.opened).bytes 32 = 1 * 2 ∧
     readLE16 (ZoomAudioRecorder.writeWAVHeader OFStream.opened).bytes 34 = 16 ∧
     tagAt (ZoomAudioRecorder.writeWAVHeader OFStream.opened).bytes 36 = tagBytes "data" ∧
     readLE32 (ZoomAudioRecorder.writeWAVHeader OFStream.opened).bytes 40 = 0) ∧
    (ZoomAudioRecorder.updateWAVHeader
        (ZoomAudioRecorder.writeWAVHeader OFStream.opened) N).bytes
      = [82, 73, 70, 70] ++ le32 ((36 + N * 2 % U32) % U32)
          ++ [87, 65, 86, 69, 102, 109, 116, 32, 16, 0, 0, 0, 1, 0, 1, 0, 128, 62, 0, 0,
              0, 125, 0, 0, 2, 0, 16, 0, 100, 97, 116, 97]
          ++ le32 (N * 2 % U32) := by
  have step : ∀ (b d : List Nat),
      OFStream.write ⟨bytes ++ b, bytes.length + b.length⟩ d
        = ⟨bytes ++ (b ++ d), bytes.length + (b ++ d).length⟩ := by
    intro b d
    have e : bytes.length + b.length = (bytes ++ b).length := by simp
    rw [e, OFStream.write_at_end]
    simp [Nat.add_assoc]
  have e0 : (⟨bytes, bytes.length⟩ : OFStream)
      = ⟨bytes ++ [], bytes.length + ([] : List Nat).length⟩ := by simp
  refine ⟨?_, by decide, by decide, by decide, ?_⟩
  · rw [e0]
    simp only [ZoomAudioRecorder.writeWAVHeader, step]
    simp [le32, le16, U32]
  · rw [ZoomAudioRecorder.writeWAVHeader_opened]
    have h := finalize_bytes 36 0 ((36 + N * 2 % U32) % U32) (N * 2 % U32) 44 []
    rw [List.append_nil, List.append_nil] at h
    simp only [ZoomAudioRecorder.updateWAVHeader]
    rw [h]
    simp [wavHeaderBytes, le32, le16]

/-! ## C20: what finalization leaves untouched -/

/-- C20: for every file content of at least 44 bytes, `updateWAVHeader` of the
hybrid recorder and of `AudioRecorder` keeps the length of the file, leaves
every byte outside the offsets 4 to 7 and 40 to 43 as it was (header and PCM
bytes alike), and, when it writes, replaces exactly those eight bytes by the
two size fields; in `AudioRecorder` it also leaves the byte counter and the
recording flag as they were. -/
theorem C20_finalization_frame (bytes : List Nat) (p N : Nat) (s : AudioRecorder)
    (hb : 44 ≤ bytes.length) (hs : 44 ≤ s.disk.length) :
    ((ZoomAudioRecorder.updateWAVHeader ⟨bytes, p⟩ N).bytes.length = bytes.length ∧
     (ZoomAudioRecorder.updateWAVHeader ⟨bytes, p⟩ N).bytes
       = bytes.take 4 ++ le32 ((36 + N * 2 % U32) % U32) ++ (bytes.drop 8).take 32
           ++ le32 (N * 2 % U32) ++ bytes.drop 44 ∧
     (∀ i, (i < 4 ∨ (8 ≤ i ∧ i < 40) ∨ 44 ≤ i) →
       (ZoomAudioRecorder.updateWAVHeader ⟨bytes, p⟩ N).bytes[i]? = bytes[i]?)) ∧
    ((AudioRecorder.updateWAVHeader s).disk.length = s.disk.length ∧
     (∀ i, (i < 4 ∨ (8 ≤ i ∧ i < 40) ∨ 44 ≤ i) →
       (AudioRecorder.updateWAVHeader s).disk[i]? = s.disk[i]?) ∧
     (∀ pos, s.audioFile_ = some ⟨true, pos⟩ →
       (AudioRecorder.updateWAVHeader s).disk
         = s.disk.take 4 ++ le32 (AudioRecorder.fileSizeField s.totalDataSize_)
             ++ (s.disk.drop 8).take 32
             ++ le32 (AudioRecorder.dataSizeField s.totalDataSize_) ++ s.disk.drop 44) ∧
     (AudioRecorder.updateWAVHeader s).totalDataSize_ = s.totalDataSize_ ∧
     (AudioRecorder.updateWAVHeader s).isRecording_ = s.isRecording_) := by
  constructor
  · exact finalize_frame bytes _ _ hb
  · obtain ⟨disk, file, hdr, total, isRec⟩ := s
    simp only at hs
    have hfr := finalize_frame disk (AudioRecorder.fileSizeField total)
      (AudioRecorder.dataSizeField total) hs
    cases file with
    | none =>
      simp [AudioRecorder.updateWAVHeader]
    | some h =>
      obtain ⟨o, pos⟩ := h
      cases o
      · simp [AudioRecorder.updateWAVHeader, AudioRecorder.fileSeek, AudioRecorder.fileWrite]
      · have hd : (AudioRecorder.updateWAVHeader
            { disk := disk, audioFile_ := some ⟨true, pos⟩, header_ := hdr,
              totalDataSize_ := total, isRecording_ := isRec }).disk
            = writeAt (writeAt disk 4 (le32 (AudioRecorder.fileSizeField total))) 40
                (le32 (AudioRecorder.dataSizeField total)) := by
          simp [AudioRecorder.updateWAVHeader, AudioRecorder.fileSeek, AudioRecorder.fileWrite]
        rw [hd]
        refine ⟨hfr.1, hfr.2.2, ?_, ?_, ?_⟩
        · intro _ _
          exact hfr.2.1
        · simp [AudioRecorder.updateWAVHeader, AudioRecorder.fileSeek, AudioRecorder.fileWrite]
        · simp [AudioRecorder.updateWAVHeader, AudioRecorder.fileSeek, AudioRecorder.fileWrite]

/-- C20 at a concrete file: a header followed by the PCM bytes `[1, 2, 3, 4]`
is finalized for two samples; the PCM byte at offset 45 is still 2. -/
theorem C20_finalization_frame_witness :
    (ZoomAudioRecorder.updateWAVHeader ⟨wavHeaderBytes 36 0 ++ [1, 2, 3, 4], 48⟩ 2).bytes[45]?
      = (wavHeaderBytes 36 0 ++ [1, 2, 3, 4])[45]? :=
  (C20_finalization_frame (wavHeaderBytes 36 0 ++ [1, 2, 3, 4]) 48 2
    ⟨wavHeaderBytes 36 0 ++ [1, 2, 3, 4], some ⟨true, 48⟩, ⟨36, 0⟩, 4, true⟩
    (by decide) (by decide)).1.2.2 45 (by decide)

/-! ## C21: an output file that cannot be opened -/

/-- C21 (as the code behaves): in the hybrid recorder and in
`RealZoomAudioRecorder` the output file is opened by the recording thread,
after `startRecording` has returned. With PulseAudio not available and the
SDK pointers unset (hybrid), or with `subscribe` succeeding (real SDK),
`startRecording` returns true with the flag set; when the file then does not
open, the thread returns at once and the recorder is left with
`recording = true` and no file. -/
theorem C21_start_returns_true_when_file_cannot_open {σ : Type}
    (sample : Nat → σ → Int × σ) (g : σ) :
    (∃ s1 : ZoomAudioRecorder.State σ,
      ZoomAudioRecorder.startRecording (ZoomAudioRecorder.constructed g) ⟨1, 0, 0, 0, 0⟩
        = some (true, s1) ∧
      s1.recording = true ∧ s1.pc = ZoomAudioRecorder.Pc.entry ∧
      (ZoomAudioRecorder.writerStep sample false 0 s1).pc = ZoomAudioRecorder.Pc.returned ∧
      (ZoomAudioRecorder.writerStep sample false 0 s1).recording = true ∧
      (ZoomAudioRecorder.writerStep sample false 0 s1).audioFile = none) ∧
    RealZoomAudioRecorder.startRecording (RealZoomAudioRecorder.control true) 0
      = RealZoomAudioRecorder.Outcome.returned true ⟨true, true, true, 1, 1⟩ ∧
    RealZoomAudioRecorder.writerStep false RealZoomAudioRecorder.started
      = { RealZoomAudioRecorder.started with pc := RealZoomAudioRecorder.Pc.returned } ∧
    (RealZoomAudioRecorder.writerStep false RealZoomAudioRecorder.started).recording = true ∧
    (RealZoomAudioRecorder.writerStep false RealZoomAudioRecorder.started).audioFile = none := by
  refine ⟨⟨_, rfl, rfl, rfl, rfl, rfl, rfl⟩, rfl, rfl, rfl, rfl⟩

/-! ## C22: `stopRecording` signals the child, then waits for it -/

namespace ZoomAudioRecorder

/-- A step of the recording thread leaves `pulseRecordingPid` as it was. -/
theorem writerStep_pulseRecordingPid {σ : Type} (sample : Nat → σ → Int × σ)
    (fileOpens : Bool) (waitpid : Int) (s : State σ) :
    (writerStep sample fileOpens waitpid s).pulseRecordingPid = s.pulseRecordingPid := by
  unfold writerStep
  split
  · rfl
  · split
    · rfl
    · split <;> rfl
  · split
    · split <;> rfl
    · rfl
  · split
    · split
      · split
        · unfold generateRealtimeAudio
          split <;> rfl
        · rfl
      · rfl
    · rfl
  · split <;> rfl
  · rfl

/-- Steps of the recording thread leave `pulseRecordingPid` as it was. -/
theorem writerSteps_pulseRecordingPid {σ : Type} (sample : Nat → σ → Int × σ)
    (fileOpens : Bool) (waitpid : Int) (n : Nat) : ∀ s : State σ,
    (writerSteps sample fileOpens waitpid n s).pulseRecordingPid = s.pulseRecordingPid := by
  induction n with
  | zero => intro s; rfl
  | succ n ih =>
    intro s
    simp only [writerSteps]
    rw [ih, writerStep_pulseRecordingPid]

end ZoomAudioRecorder

/-- C22: in the hybrid recorder and in `UbuntuZoomRecorder`, the calls made
by `stopRecording` are such that every `kill` is followed at once by the
blocking `waitpid` on the same pid. When the recorder supervises a child
(the hybrid one is recording and its pid is positive; the Ubuntu pid is
positive) the calls are `kill(pid)`, `waitpid(pid)` in that order and the
stored pid is 0 afterwards; otherwise no `kill` is made at all. -/
theorem C22_stop_signals_then_waits {σ : Type} (sample : Nat → σ → Int × σ)
    (fileOpens sdk_stop_audio_recording : Bool) (s : ZoomAudioRecorder.State σ)
    (r : UbuntuZoomRecorder.Run) :
    (killsAreWaited
        (ZoomAudioRecorder.stopRecording sample fileOpens sdk_stop_audio_recording s).2 = true ∧
     (if s.recording = true ∧ 0 < s.pulseRecordingPid then
        (ZoomAudioRecorder.stopRecording sample fileOpens sdk_stop_audio_recording s).2.take 2
            = [Sys.kill s.pulseRecordingPid, Sys.waitpidBlocking s.pulseRecordingPid] ∧
        (ZoomAudioRecorder.stopRecording sample fileOpens
            sdk_stop_audio_recording s).1.pulseRecordingPid = 0
      else
        ∀ p, Sys.kill p ∉
          (ZoomAudioRecorder.stopRecording sample fileOpens sdk_stop_audio_recording s).2)) ∧
    (if 0 < r.g_recordingPid then
        (UbuntuZoomRecorder.stopRecording r).calls
            = r.calls ++ [Sys.kill r.g_recordingPid, Sys.waitpidBlocking r.g_recordingPid] ∧
        (UbuntuZoomRecorder.stopRecording r).g_recordingPid = 0 ∧
        killsAreWaited [Sys.kill r.g_recordingPid, Sys.waitpidBlocking r.g_recordingPid] = true
      else UbuntuZoomRecorder.stopRecording r = r) := by
  refine ⟨?_, ?_⟩
  · by_cases hr : s.recording = true
    · by_cases hp : 0 < s.pulseRecordingPid
      · have hc : (ZoomAudioRecorder.stopRecording sample fileOpens
            sdk_stop_audio_recording s).2
            = [Sys.kill s.pulseRecordingPid, Sys.waitpidBlocking s.pulseRecordingPid,
               Sys.system "pactl unload-module module-null-sink 2>/dev/null",
               Sys.system "pactl unload-module module-loopback 2>/dev/null"]
              ++ (if sdk_stop_audio_recording then [Sys.sdkStopAudioRecording] else []) := by
          simp [ZoomAudioRecorder.stopRecording, hr, hp]
        have hpid : (ZoomAudioRecorder.stopRecording sample fileOpens
            sdk_stop_audio_recording s).1.pulseRecordingPid = 0 := by
          simp only [ZoomAudioRecorder.stopRecording, hr, hp, Bool.not_true,
            Bool.false_eq_true, if_false, if_true, gt_iff_lt]
          split
          · simp [ZoomAudioRecorder.writerSteps_pulseRecordingPid]
          · rfl
        rw [if_pos ⟨hr, hp⟩, hc]
        refine ⟨?_, ?_, hpid⟩
        · cases sdk_stop_audio_recording <;> simp [killsAreWaited]
        · rfl
      · have hc : (ZoomAudioRecorder.stopRecording sample fileOpens
            sdk_stop_audio_recording s).2
            = (if sdk_stop_audio_recording then [Sys.sdkStopAudioRecording] else []) := by
          simp [ZoomAudioRecorder.stopRecording, hr, hp]
        rw [if_neg (fun h => hp h.2), hc]
        cases sdk_stop_audio_recording <;> simp [killsAreWaited]
    · have hc : (ZoomAudioRecorder.stopRecording sample fileOpens
          sdk_stop_audio_recording s).2 = [] := by
        simp [ZoomAudioRecorder.stopRecording, hr]
      rw [if_neg (fun h => hr h.1), hc]
      simp [killsAreWaited]
  · by_cases hp : 0 < r.g_recordingPid
    · rw [if_pos hp]
      simp [UbuntuZoomRecorder.stopRecording, hp, killsAreWaited]
    · rw [if_neg hp]
      simp [UbuntuZoomRecorder.stopRecording, hp]

/-- C22 at a concrete input: a hybrid recorder supervising child 4242 and an
Ubuntu run supervising child 77. -/
theorem C22_stop_signals_then_waits_witness :
    (ZoomAudioRecorder.stopRecording (fun _ (g : Unit) => ((0 : Int), g)) true false
        { ZoomAudioRecorder.constructed () with recording := true,
                                                 pulseRecordingPid := 4242 }).2
      = [Sys.kill 4242, Sys.waitpidBlocking 4242,
         Sys.system "pactl unload-module module-null-sink 2>/dev/null",
         Sys.system "pactl unload-module module-loopback 2>/dev/null"] ∧
    (UbuntuZoomRecorder.stopRecording ⟨77, []⟩)
      = ⟨0, [Sys.kill 77, Sys.waitpidBlocking 77]⟩ ∧
    killsAreWaited
      (ZoomAudioRecorder.stopRecording (fun _ (g : Unit) => ((0 : Int), g)) true false
        { ZoomAudioRecorder.constructed () with recording := true,
                                                 pulseRecordingPid := 4242 }).2 = true := by
  refine ⟨by decide, by decide, ?_⟩
  exact (C22_stop_signals_then_waits (fun _ (g : Unit) => ((0 : Int), g)) true false
    { ZoomAudioRecorder.constructed () with recording := true, pulseRecordingPid := 4242 }
    ⟨77, []⟩).1.1

/-! ## C23: `onMeetingLeft` followed by `stopRecording` -/

/-- C23 (as the code behaves): a bot that has joined, started recording and
received the two bytes 1, 2 gets `onMeetingLeft`, which clears `isRecording_`
without touching the `AudioRecorder`; `stopRecording` then returns true at its
first test. The `AudioRecorder` is still recording, its stream is still open,
and the header on disk still has the provisional sizes 36 and 0 although two
bytes of data follow it. -/
theorem C23_stop_after_meeting_left_finalizes_nothing :
    (ZoomBot.applyAll (ZoomBot.constructed [])
        [ZoomBot.Op.onMeetingJoined, ZoomBot.Op.startRecording ⟨true, true, true⟩,
         ZoomBot.Op.onAudioDataReceived [1, 2], ZoomBot.Op.onMeetingLeft]).isRecording_
      = false ∧
    ((ZoomBot.applyAll (ZoomBot.constructed [])
        [ZoomBot.Op.onMeetingJoined, ZoomBot.Op.startRecording ⟨true, true, true⟩,
         ZoomBot.Op.onAudioDataReceived [1, 2], ZoomBot.Op.onMeetingLeft]).stopRecording
        ⟨true, true, true⟩).1 = true ∧
    ((ZoomBot.applyAll (ZoomBot.constructed [])
        [ZoomBot.Op.onMeetingJoined, ZoomBot.Op.startRecording ⟨true, true, true⟩,
         ZoomBot.Op.onAudioDataReceived [1, 2], ZoomBot.Op.onMeetingLeft]).stopRecording
        ⟨true, true, true⟩).2.audioRecorder_
      = { disk := wavHeaderBytes 36 0 ++ [1, 2], audioFile_ := some ⟨true, 46⟩,
          header_ := ⟨36, 0⟩, totalDataSize_ := 2, isRecording_ := true } := by
  refine ⟨by decide, by decide, by decide⟩

/-! ## C24: the order in which `start` tries the devices -/

namespace SystemAudioCapture

end SystemAudioCapture

/-- C25 (as stated, refuted): with an open device, an iteration whose read
fails with -32 and whose recovery fails with -5 makes the two calls and
changes nothing; the loop has no exit for it and nothing to report through:
it goes on, and the next iteration, whose read gives two frames, writes them. -/
theorem C25_failed_recovery_not_surfaced_counterexample :
    SystemAudioCapture.captureCalls
        { SystemAudioCapture.constructed with audioFileOpen := true,
                                              capture_handle := some "default" }
        ⟨true, -32, [], -5, fun _ => 0⟩
      = [SystemAudioCapture.AlsaCall.readi, SystemAudioCapture.AlsaCall.recover (-32)] ∧
    SystemAudioCapture.captureLoop
        [⟨true, -32, [], -5, fun _ => 0⟩, ⟨true, 2, [1, 2], 0, fun _ => 0⟩]
        { SystemAudioCapture.constructed with audioFileOpen := true,
                                              capture_handle := some "default" }
      = { SystemAudioCapture.constructed with audioFileOpen := true,
                                              capture_handle := some "default",
                                              audioFile := ⟨[1, 0, 2, 0], 4⟩,
                                              totalSamples := 2 } := by
  refine ⟨by decide, by decide⟩

/-- C25 (amended): with an open device, an iteration whose read fails calls
`snd_pcm_recover` once, with the error of the read, and makes no other call
after the read. When the recovery returns 0 or a negative value the iteration
changes nothing (no byte written, `totalSamples` as before), and the loop
goes on with the next iteration whatever the recovery returned. -/
theorem C25_failed_read_one_recovery_then_next_iteration (s : SystemAudioCapture)
    (env : SystemAudioCapture.LoopEnv) (later : List SystemAudioCapture.LoopEnv)
    (hl : env.linux = true) (hh : s.capture_handle.isSome = true)
    (hread : env.snd_pcm_readi < 0) :
    SystemAudioCapture.captureCalls s env
      = [SystemAudioCapture.AlsaCall.readi,
         SystemAudioCapture.AlsaCall.recover env.snd_pcm_readi] ∧
    (env.snd_pcm_recover ≤ 0 → SystemAudioCapture.captureIteration s env = s) ∧
    SystemAudioCapture.captureLoop (env :: later) s
      = SystemAudioCapture.captureLoop later (SystemAudioCapture.captureIteration s env) := by
  refine ⟨by simp [SystemAudioCapture.captureCalls, hl, hh, hread], ?_, rfl⟩
  intro hrec
  have h : ¬ env.snd_pcm_recover > 0 := by omega
  simp [SystemAudioCapture.captureIteration, hl, hh, hread, h]

/-- C25 (amended) at a concrete input: read error -32, recovery error -5. -/
theorem C25_failed_read_one_recovery_then_next_iteration_witness :
    SystemAudioCapture.captureCalls
        { SystemAudioCapture.constructed with capture_handle := some "default" }
        ⟨true, -32, [], -5, fun _ => 0⟩
      = [SystemAudioCapture.AlsaCall.readi, SystemAudioCapture.AlsaCall.recover (-32)] ∧
    ((-5 : Int) ≤ 0 → SystemAudioCapture.captureIteration
        { SystemAudioCapture.constructed with capture_handle := some "default" }
        ⟨true, -32, [], -5, fun _ => 0⟩
      = { SystemAudioCapture.constructed with capture_handle := some "default" }) ∧
    SystemAudioCapture.captureLoop [⟨true, -32, [], -5, fun _ => 0⟩]
        { SystemAudioCapture.constructed with capture_handle := some "default" }
      = SystemAudioCapture.captureLoop []
          (SystemAudioCapture.captureIteration
            { SystemAudioCapture.constructed with capture_handle := some "default" }
            ⟨true, -32, [], -5, fun _ => 0⟩) :=
  C25_failed_read_one_recovery_then_next_iteration
    { SystemAudioCapture.constructed with capture_handle := some "default" }
    ⟨true, -32, [], -5, fun _ => 0⟩ [] rfl rfl (by decide)

/-! ## C26: `StopAudioRecording` takes the sizes from the length of the file -/

namespace ZoomSdkIntegration

/-- Callbacks on a recording state whose stream stands at the end of the file
append the buffers, whatever their lengths, and keep the flags. -/
theorem receiveAll_appends (bufs : List (List Nat)) : ∀ (s : State) (bs : List Nat),
    s.g_recording = true → s.g_audioFileOpen = true → s.g_audioFile = ⟨bs, bs.length⟩ →
    (receiveAll s bufs).g_recording = true ∧ (receiveAll s bufs).g_audioFileOpen = true ∧
    (receiveAll s bufs).g_audioFile
      = ⟨bs ++ bufs.flatten, (bs ++ bufs.flatten).length⟩ ∧
    (receiveAll s bufs).g_audioHelper = s.g_audioHelper := by
  induction bufs with
  | nil =>
    intro s bs hr ho hf
    simp [receiveAll, hr, ho, hf]
  | cons b bufs ih =>
    intro s bs hr ho hf
    by_cases hb : b.length > 0
    · have h := ih (onMixedAudioRawDataReceived s (some b)) (bs ++ b)
        (by simp [onMixedAudioRawDataReceived, hr, ho, hb])
        (by simp [onMixedAudioRawDataReceived, hr, ho, hb])
        (by simp [onMixedAudioRawDataReceived, hr, ho, hb, hf, OFStream.write_at_end])
      have hh : (onMixedAudioRawDataReceived s (some b)).g_audioHelper = s.g_audioHelper := by
        simp [onMixedAudioRawDataReceived, hr, ho, hb]
      simp only [receiveAll, List.foldl_cons] at h ⊢
      simpa [List.append_assoc, hh] using h
    · have hb0 : b = [] := by
        cases b with
        | nil => rfl
        | cons x xs => simp at hb
      subst hb0
      have e : onMixedAudioRawDataReceived s (some []) = s := by
        simp [onMixedAudioRawDataReceived]
      have h := ih s bs hr ho hf
      simp only [receiveAll, List.foldl_cons, e] at h ⊢
      simpa using h

end ZoomSdkIntegration

/-- C26: `StopAudioRecording` on an open file of length `L`, with
`44 ≤ L < 2^32`, writes `dataSize = L - 44` and `fileSize = L - 8`, so
`fileSize = 36 + dataSize`; the length of the file and everything after the
header are kept, the file is closed and the flag cleared. In particular after
a successful `StartAudioRecording` and callbacks with buffers of any lengths,
odd or even, the file is the header with `dataSize` equal to the total number
of bytes received, followed by those bytes. -/
theorem C26_stop_sizes_from_file_length (s : ZoomSdkIntegration.State)
    (hopen : s.g_audioFileOpen = true) (h44 : 44 ≤ s.g_audioFile.bytes.length)
    (hL : s.g_audioFile.bytes.length < U32) :
    readLE32 (ZoomSdkIntegration.StopAudioRecording s).g_audioFile.bytes 40
      = s.g_audioFile.bytes.length - 44 ∧
    readLE32 (ZoomSdkIntegration.StopAudioRecording s).g_audioFile.bytes 4
      = s.g_audioFile.bytes.length - 8 ∧
    readLE32 (ZoomSdkIntegration.StopAudioRecording s).g_audioFile.bytes 4
      = 36 + readLE32 (ZoomSdkIntegration.StopAudioRecording s).g_audioFile.bytes 40 ∧
    (ZoomSdkIntegration.StopAudioRecording s).g_audioFile.bytes.length
      = s.g_audioFile.bytes.length ∧
    (ZoomSdkIntegration.StopAudioRecording s).g_audioFile.bytes.drop 44
      = s.g_audioFile.bytes.drop 44 ∧
    (ZoomSdkIntegration.StopAudioRecording s).g_audioFileOpen = false ∧
    (ZoomSdkIntegration.StopAudioRecording s).g_recording = false ∧
    (∀ bufs : List (List Nat), 44 + bufs.flatten.length < U32 →
      (ZoomSdkIntegration.StopAudioRecording
        (ZoomSdkIntegration.receiveAll
          (ZoomSdkIntegration.StartAudioRecording (ZoomSdkIntegration.initial true) true 0).2
          bufs)).g_audioFile.bytes
        = wavHeaderBytes (36 + bufs.flatten.length) bufs.flatten.length ++ bufs.flatten) := by
  obtain ⟨helper, ⟨bytes, pos⟩, isOpen, rec, total, sub, unsub⟩ := s
  simp only at hopen h44 hL
  subst hopen
  have hU : U32 = 4294967296 := rfl
  have e1 : ((bytes.length % U32 + U32 - 44) % U32) = bytes.length - 44 := by
    rw [Nat.mod_eq_of_lt hL]
    have : bytes.length + U32 - 44 = (bytes.length - 44) + U32 := by omega
    rw [this, Nat.add_mod_right, Nat.mod_eq_of_lt (by omega)]
  have e2 : ((bytes.length % U32 + U32 - 8) % U32) = bytes.length - 8 := by
    rw [Nat.mod_eq_of_lt hL]
    have : bytes.length + U32 - 8 = (bytes.length - 8) + U32 := by omega
    rw [this, Nat.add_mod_right, Nat.mod_eq_of_lt (by omega)]
  have hb : (ZoomSdkIntegration.StopAudioRecording
      ⟨helper, ⟨bytes, pos⟩, true, rec, total, sub, unsub⟩).g_audioFile
      = ((((OFStream.mk bytes bytes.length).seekp 4).write (le32 (bytes.length - 8))).seekp 40
          |>.write (le32 (bytes.length - 44))) := by
    cases helper <;>
      simp [ZoomSdkIntegration.StopAudioRecording, OFStream.seekEnd, OFStream.seekp, e1, e2]
  have hflags : (ZoomSdkIntegration.StopAudioRecording
      ⟨helper, ⟨bytes, pos⟩, true, rec, total, sub, unsub⟩).g_audioFileOpen = false ∧
      (ZoomSdkIntegration.StopAudioRecording
      ⟨helper, ⟨bytes, pos⟩, true, rec, total, sub, unsub⟩).g_recording = false := by
    cases helper <;> simp [ZoomSdkIntegration.StopAudioRecording]
  have hf := finalize_fields (OFStream.mk bytes bytes.length) (bytes.length - 8)
    (bytes.length - 44)
  have hfr := finalize_frame bytes (bytes.length - 8) (bytes.length - 44) h44
  have hd40 : readLE32 (ZoomSdkIntegration.StopAudioRecording
      ⟨helper, ⟨bytes, pos⟩, true, rec, total, sub, unsub⟩).g_audioFile.bytes 40
      = bytes.length - 44 := by
    rw [hb, hf.1, Nat.mod_eq_of_lt (by omega)]
  have hd4 : readLE32 (ZoomSdkIntegration.StopAudioRecording
      ⟨helper, ⟨bytes, pos⟩, true, rec, total, sub, unsub⟩).g_audioFile.bytes 4
      = bytes.length - 8 := by
    rw [hb, hf.2, Nat.mod_eq_of_lt (by omega)]
  have hbytes : (ZoomSdkIntegration.StopAudioRecording
      ⟨helper, ⟨bytes, pos⟩, true, rec, total, sub, unsub⟩).g_audioFile.bytes
      = writeAt (writeAt bytes 4 (le32 (bytes.length - 8))) 40 (le32 (bytes.length - 44)) := by
    rw [hb]
    simp [OFStream.write, OFStream.seekp]
  refine ⟨hd40, hd4, ?_, ?_, ?_, hflags.1, hflags.2, ?_⟩
  · rw [hd4, hd40]; omega
  · rw [hbytes]; exact hfr.1
  · rw [hbytes, hfr.2.1]
    have hlen : (bytes.take 4 ++ le32 (bytes.length - 8) ++ (bytes.drop 8).take 32
        ++ le32 (bytes.length - 44)).length = 44 := by
      simp only [List.length_append, List.length_take, List.length_drop, le32_length]
      omega
    rw [List.drop_append_of_le_length (by omega)]
    rw [List.drop_of_length_le (by omega)]
    simp
  · intro bufs hn
    have hstart : ZoomSdkIntegration.StartAudioRecording (ZoomSdkIntegration.initial true)
        true 0 = (true, ⟨true, ⟨wavHeaderBytes 36 0, 44⟩, true, true, 0, 1, 0⟩) := by
      decide
    have h := ZoomSdkIntegration.receiveAll_appends bufs
      ⟨true, ⟨wavHeaderBytes 36 0, 44⟩, true, true, 0, 1, 0⟩ (wavHeaderBytes 36 0) rfl rfl rfl
    rw [hstart]
    generalize ZoomSdkIntegration.receiveAll
      ⟨true, ⟨wavHeaderBytes 36 0, 44⟩, true, true, 0, 1, 0⟩ bufs = t at h
    obtain ⟨helper2, f2, isOpen2, rec2, total2, sub2, unsub2⟩ := t
    simp only at h
    obtain ⟨h1, h2, h3, h4⟩ := h
    subst h1 h2 h3 h4
    have hlen2 : (wavHeaderBytes 36 0 ++ bufs.flatten).length = 44 + bufs.flatten.length := by
      simp [wavHeaderBytes_length]
    have e3 : (((44 + bufs.flatten.length) % U32 + U32 - 44) % U32) = bufs.flatten.length := by
      rw [Nat.mod_eq_of_lt hn]
      have : 44 + bufs.flatten.length + U32 - 44 = bufs.flatten.length + U32 := by omega
      rw [this, Nat.add_mod_right, Nat.mod_eq_of_lt (by omega)]
    have e4 : (((44 + bufs.flatten.length) % U32 + U32 - 8) % U32)
        = 36 + bufs.flatten.length := by
      rw [Nat.mod_eq_of_lt hn]
      have : 44 + bufs.flatten.length + U32 - 8 = (36 + bufs.flatten.length) + U32 := by omega
      rw [this, Nat.add_mod_right, Nat.mod_eq_of_lt (by omega)]
    have key := congrArg OFStream.bytes
      (finalize_bytes 36 0 (36 + bufs.flatten.length) bufs.flatten.length
        (wavHeaderBytes 36 0 ++ bufs.flatten).length bufs.flatten)
    simp only [ZoomSdkIntegration.StopAudioRecording, OFStream.seekEnd, if_true, hlen2, e3, e4]
    rw [hlen2] at key
    simpa using key

/-- C26 at a concrete input: a file of 47 bytes, the header followed by the
three bytes of one odd-length buffer. -/
theorem C26_stop_sizes_from_file_length_witness :
    readLE32 (ZoomSdkIntegration.StopAudioRecording
        ⟨true, ⟨wavHeaderBytes 36 0 ++ [1, 2, 3], 47⟩, true, true, 1, 1, 0⟩).g_audioFile.bytes 40
      = (wavHeaderBytes 36 0 ++ [1, 2, 3]).length - 44 ∧
    (wavHeaderBytes 36 0 ++ [1, 2, 3]).length - 44 = 3 :=
  ⟨(C26_stop_sizes_from_file_length
      ⟨true, ⟨wavHeaderBytes 36 0 ++ [1, 2, 3], 47⟩, true, true, 1, 1, 0⟩ rfl (by decide)
      (by decide)).1, by decide⟩

/-! ## C27: `isRecording_` of the bot and the state of its recorder -/

namespace AudioRecorder

/-- `startRecording` keeps "recording implies an open stream", and a call
that returns true leaves the recorder recording. -/
theorem startRecording_open (s : AudioRecorder) (fileOpens : Bool)
    (h : s.isRecording_ = true → ∃ pos, s.audioFile_ = some ⟨true, pos⟩) :
    ((startRecording s fileOpens).2.isRecording_ = true →
      ∃ pos, (startRecording s fileOpens).2.audioFile_ = some ⟨true, pos⟩) ∧
    ((startRecording s fileOpens).1 = true →
      (startRecording s fileOpens).2.isRecording_ = true) := by
  by_cases hr : s.isRecording_ = true
  · simp only [startRecording, hr, if_true]
    exact ⟨fun _ => h hr, fun _ => trivial⟩
  · have hr0 : s.isRecording_ = false := by simpa using hr
    cases fileOpens with
    | false => simp [startRecording, hr0]
    | true =>
      have k := recording_after_start s hr0
      exact ⟨fun _ => ⟨44, k.2.2.1⟩, fun _ => k.2.1⟩

/-- After `stopRecording` the recorder is not recording. -/
theorem stopRecording_not_recording (s : AudioRecorder) :
    (stopRecording s).2.isRecording_ = false := by
  obtain ⟨disk, file, hdr, total, isRec⟩ := s
  cases isRec with
  | false => simp [stopRecording]
  | true =>
    cases file with
    | none => simp [stopRecording]
    | some fh =>
      obtain ⟨o, p⟩ := fh
      cases o <;> simp [stopRecording, updateWAVHeader, fileSeek, fileWrite]

/-- `writeAudioData` keeps the flag, and keeps an open stream open. -/
theorem writeAudioData_open (s : AudioRecorder) (data : List Nat) :
    (writeAudioData s data).isRecording_ = s.isRecording_ ∧
    ((∃ pos, s.audioFile_ = some ⟨true, pos⟩) →
      ∃ pos, (writeAudioData s data).audioFile_ = some ⟨true, pos⟩) := by
  obtain ⟨disk, file, hdr, total, isRec⟩ := s
  cases isRec with
  | false => simp [writeAudioData]
  | true =>
    cases file with
    | none => simp [writeAudioData]
    | some fh =>
      obtain ⟨o, p⟩ := fh
      cases o <;> simp [writeAudioData, fileWrite]

end AudioRecorder

namespace ZoomBot

/-- Every operation keeps: the bot's flag implies the recorder's flag, and
the recorder's flag implies an open stream. -/
theorem apply_consistent (b : ZoomBot) (op : Op)
    (h1 : b.isRecording_ = true → b.audioRecorder_.isRecording_ = true)
    (h2 : b.audioRecorder_.isRecording_ = true →
      ∃ pos, b.audioRecorder_.audioFile_ = some ⟨true, pos⟩) :
    ((apply b op).isRecording_ = true → (apply b op).audioRecorder_.isRecording_ = true) ∧
    ((apply b op).audioRecorder_.isRecording_ = true →
      ∃ pos, (apply b op).audioRecorder_.audioFile_ = some ⟨true, pos⟩) := by
  have hstop : ∀ env : Env,
      ((b.stopRecording env).2.isRecording_ = true →
        (b.stopRecording env).2.audioRecorder_.isRecording_ = true) ∧
      ((b.stopRecording env).2.audioRecorder_.isRecording_ = true →
        ∃ pos, (b.stopRecording env).2.audioRecorder_.audioFile_ = some ⟨true, pos⟩) := by
    intro env
    by_cases hr : b.isRecording_ = true
    · have hn := AudioRecorder.stopRecording_not_recording b.audioRecorder_
      have e1 : (b.stopRecording env).2.isRecording_ = false := by
        simp [stopRecording, hr]
      have e2 : (b.stopRecording env).2.audioRecorder_.isRecording_ = false := by
        simp only [stopRecording, hr, Bool.not_true, Bool.false_eq_true, if_false]
        split <;> split <;> simpa using hn
      rw [e1, e2]
      simp
    · have e : (b.stopRecording env) = (true, b) := by simp [stopRecording, hr]
      rw [e]
      exact ⟨h1, h2⟩
  cases op with
  | startRecording env =>
    obtain ⟨fo, fa, fh⟩ := env
    have k := AudioRecorder.startRecording_open b.audioRecorder_ fo h2
    by_cases hg : (!b.isMeetingJoined_ || b.isRecording_) = true
    · have e : b.startRecording ⟨fo, fa, fh⟩ = (false, b) := by
        simp only [startRecording, hg, if_true]
      simp only [apply, e]
      exact ⟨h1, h2⟩
    · have hbr : b.isRecording_ = false := by
        simp only [Bool.or_eq_true, Bool.not_eq_true', not_or, Bool.not_eq_false,
          Bool.not_eq_true] at hg
        exact hg.2
      generalize hr : b.audioRecorder_.startRecording fo = r at k
      obtain ⟨ok, a⟩ := r
      simp only at k
      have e : (b.startRecording ⟨fo, fa, fh⟩).2.audioRecorder_ = a ∧
          ((b.startRecording ⟨fo, fa, fh⟩).2.isRecording_ = true → ok = true) := by
        simp only [startRecording, hg, hr]
        cases ok <;> cases fa <;> cases fh <;> simp [hbr]
      simp only [apply]
      refine ⟨fun hb => ?_, fun hrr => ?_⟩
      · rw [e.1]; exact k.2 (e.2 hb)
      · rw [e.1] at hrr ⊢
        exact k.1 hrr
  | stopRecording env => exact hstop env
  | cleanup env =>
    simp only [apply, cleanup]
    split
    · exact hstop env
    · exact ⟨h1, h2⟩
  | onMeetingJoined => exact ⟨h1, h2⟩
  | onMeetingLeft =>
    simp only [apply, onMeetingLeft]
    exact ⟨fun hb => absurd hb (by simp), h2⟩
  | onAudioDataReceived data =>
    have k := AudioRecorder.writeAudioData_open b.audioRecorder_ data
    simp only [apply, onAudioDataReceived]
    split
    · refine ⟨fun hb => ?_, fun hr => ?_⟩
      · simp only at hb ⊢
        rw [k.1]; exact h1 hb
      · simp only at hr ⊢
        rw [k.1] at hr
        exact k.2 (h2 hr)
    · exact ⟨h1, h2⟩

/-- The two implications hold after any sequence of operations. -/
theorem applyAll_consistent (ops : List Op) : ∀ b : ZoomBot,
    (b.isRecording_ = true → b.audioRecorder_.isRecording_ = true) →
    (b.audioRecorder_.isRecording_ = true →
      ∃ pos, b.audioRecorder_.audioFile_ = some ⟨true, pos⟩) →
    ((applyAll b ops).isRecording_ = true → (applyAll b ops).audioRecorder_.isRecording_ = true) ∧
    ((applyAll b ops).audioRecorder_.isRecording_ = true →
      ∃ pos, (applyAll b ops).audioRecorder_.audioFile_ = some ⟨true, pos⟩) := by
  induction ops with
  | nil => intro b h1 h2; exact ⟨h1, h2⟩
  | cons op ops ih =>
    intro b h1 h2
    have k := apply_consistent b op h1 h2
    exact ih (apply b op) k.1 k.2

end ZoomBot

/-- C27: from a newly constructed bot (whatever `meetingService_` and
`isInitialized_` are), after any sequence of `startRecording`,
`stopRecording`, `cleanup`, `onMeetingJoined`, `onMeetingLeft` and
`onAudioDataReceived`, with any answers of the system, `isRecording_` being
true implies that the `AudioRecorder` is recording and that its stream is
open. -/
theorem C27_bot_recording_implies_recorder_open (disk : List Nat) (ms init : Bool)
    (ops : List ZoomBot.Op)
    (h : (ZoomBot.applyAll { ZoomBot.constructed disk with meetingService_ := ms, isInitialized_ := init }
            ops).isRecording_ = true) :
    (ZoomBot.applyAll { ZoomBot.constructed disk with meetingService_ := ms, isInitialized_ := init }
        ops).audioRecorder_.isRecording_ = true ∧
    ∃ pos, (ZoomBot.applyAll { ZoomBot.constructed disk with meetingService_ := ms, isInitialized_ := init }
        ops).audioRecorder_.audioFile_ = some ⟨true, pos⟩ := by
  have k := ZoomBot.applyAll_consistent ops
    { ZoomBot.constructed disk with meetingService_ := ms, isInitialized_ := init }
    (by simp [ZoomBot.constructed]) (by simp [ZoomBot.constructed, AudioRecorder.constructed])
  exact ⟨k.1 h, k.2 (k.1 h)⟩

/-- C27 at a concrete input: a bot that has joined and started recording. -/
theorem C27_bot_recording_implies_recorder_open_witness :
    (ZoomBot.applyAll { ZoomBot.constructed [] with meetingService_ := true, isInitialized_ := true }
        [ZoomBot.Op.onMeetingJoined,
         ZoomBot.Op.startRecording ⟨true, true, true⟩]).isRecording_ = true ∧
    ((ZoomBot.applyAll { ZoomBot.constructed [] with meetingService_ := true, isInitialized_ := true }
        [ZoomBot.Op.onMeetingJoined,
         ZoomBot.Op.startRecording ⟨true, true, true⟩]).audioRecorder_.isRecording_ = true ∧
     ∃ pos, (ZoomBot.applyAll { ZoomBot.constructed [] with meetingService_ := true, isInitialized_ := true }
        [ZoomBot.Op.onMeetingJoined,
         ZoomBot.Op.startRecording ⟨true, true, true⟩]).audioRecorder_.audioFile_
          = some ⟨true, pos⟩) :=
  ⟨by decide,
   C27_bot_recording_implies_recorder_open [] true true
     [ZoomBot.Op.onMeetingJoined, ZoomBot.Op.startRecording ⟨true, true, true⟩] (by decide)⟩

/-! ## C28: a failing `ZoomBot::startRecording` -/

/-- C28 (as the code behaves): on a joined bot whose output file holds three
bytes, with the file opening and `GetAudioRawdataFactory()` returning null,
`startRecording` returns false after `AudioRecorder::startRecording` has
succeeded: the bot's flag stays false, but the recorder is left recording,
its stream open at offset 44, and the file cut down to a provisional header.
With the file not opening, the recorder is left with a stream object that is
not open. -/
theorem C28_failed_start_leaves_recorder_recording :
    (ZoomBot.startRecording { ZoomBot.constructed [9, 9, 9] with isMeetingJoined_ := true }
        ⟨true, false, true⟩).1 = false ∧
    (ZoomBot.startRecording { ZoomBot.constructed [9, 9, 9] with isMeetingJoined_ := true }
        ⟨true, false, true⟩).2.isRecording_ = false ∧
    (ZoomBot.startRecording { ZoomBot.constructed [9, 9, 9] with isMeetingJoined_ := true }
        ⟨true, false, true⟩).2.audioRecorder_
      = { disk := wavHeaderBytes 36 0, audioFile_ := some ⟨true, 44⟩, header_ := ⟨36, 0⟩,
          totalDataSize_ := 0, isRecording_ := true } ∧
    (ZoomBot.startRecording { ZoomBot.constructed [9, 9, 9] with isMeetingJoined_ := true }
        ⟨true, false, true⟩).2
      ≠ { ZoomBot.constructed [9, 9, 9] with isMeetingJoined_ := true } ∧
    (ZoomBot.startRecording { ZoomBot.constructed [9, 9, 9] with isMeetingJoined_ := true }
        ⟨true, true, false⟩).2.audioRecorder_.isRecording_ = true ∧
    (ZoomBot.startRecording { ZoomBot.constructed [9, 9, 9] with isMeetingJoined_ := true }
        ⟨false, true, true⟩)
      = (false, { ZoomBot.constructed [9, 9, 9] with
                    isMeetingJoined_ := true,
                    audioRecorder_ := { AudioRecorder.constructed [9, 9, 9] with
                                          audioFile_ := some ⟨false, 0⟩ } }) := by
  refine ⟨by decide, by decide, by decide, by decide, by decide, by decide⟩

/-! ## C29: the end of `main` in ubuntu_audio_bot -/

namespace UbuntuZoomRecorder

/-- The loop of `main` while the child is running and then found ended:
`k` polls that return 0, one poll that returns the pid, and the loop is left
with `g_recordingPid` still holding the pid. -/
theorem mainLoop_child_ends (pid : Int) (hp : 0 < pid) (later : List Int) (k : Nat) :
    ∀ calls : List Sys,
    mainLoop (List.replicate k 0 ++ pid :: later) ⟨pid, calls⟩
      = ⟨pid, calls ++ List.replicate k (Sys.waitpidNoHang pid 0)
                ++ [Sys.waitpidNoHang pid pid]⟩ := by
  induction k with
  | zero =>
    intro calls
    simp [mainLoop, hp]
  | succ k ih =>
    intro calls
    have e : mainLoop (0 :: (List.replicate k 0 ++ pid :: later)) ⟨pid, calls⟩
        = mainLoop (List.replicate k 0 ++ pid :: later)
            ⟨pid, calls ++ [Sys.waitpidNoHang pid 0]⟩ := by
      rw [mainLoop]
      simp [hp]
    rw [List.replicate_succ, List.cons_append, e, ih]
    simp [List.append_assoc, List.replicate_succ]

/-- Polls that return 0 reap nothing: they do not change the verdict. -/
theorem noKillAfterReap_polls (pid : Int) (hp : 0 < pid) (rest : List Sys) (k : Nat) :
    noKillAfterReap (List.replicate k (Sys.waitpidNoHang pid 0) ++ rest)
      = noKillAfterReap rest := by
  induction k with
  | zero => simp
  | succ k ih =>
    have hne : ((0 : Int) == pid) = false := by
      simp only [beq_eq_false_iff_ne, ne_eq]
      omega
    rw [List.replicate_succ, List.cons_append, noKillAfterReap, hne]
    simpa using ih

end UbuntuZoomRecorder

/-- C29 (as the code behaves): when the child `pid` ends while `main` is in
its loop, the loop's `waitpid(pid, WNOHANG)` returns `pid` (the child is
reaped) and the loop is left without resetting `g_recordingPid`;
`stopRecording` then finds the pid positive and calls `kill(pid, SIGTERM)`
and a blocking `waitpid` on the reaped pid. -/
theorem C29_kill_sent_after_child_reaped (pid : Int) (k : Nat) (later : List Int)
    (hp : 0 < pid) :
    (UbuntuZoomRecorder.mainFinish (List.replicate k 0 ++ pid :: later) ⟨pid, []⟩).calls
      = List.replicate k (Sys.waitpidNoHang pid 0)
        ++ [Sys.waitpidNoHang pid pid, Sys.kill pid, Sys.waitpidBlocking pid,
            Sys.system "pactl unload-module module-null-sink 2>/dev/null",
            Sys.system "pactl unload-module module-loopback 2>/dev/null"] ∧
    noKillAfterReap
      (UbuntuZoomRecorder.mainFinish (List.replicate k 0 ++ pid :: later) ⟨pid, []⟩).calls
      = false := by
  have hc : (UbuntuZoomRecorder.mainFinish (List.replicate k 0 ++ pid :: later)
      ⟨pid, []⟩).calls
      = List.replicate k (Sys.waitpidNoHang pid 0)
        ++ [Sys.waitpidNoHang pid pid, Sys.kill pid, Sys.waitpidBlocking pid,
            Sys.system "pactl unload-module module-null-sink 2>/dev/null",
            Sys.system "pactl unload-module module-loopback 2>/dev/null"] := by
    simp [UbuntuZoomRecorder.mainFinish, UbuntuZoomRecorder.mainLoop_child_ends pid hp,
      UbuntuZoomRecorder.stopRecording, UbuntuZoomRecorder.cleanup, hp]
  refine ⟨hc, ?_⟩
  rw [hc, UbuntuZoomRecorder.noKillAfterReap_polls pid hp]
  simp [noKillAfterReap]

/-- C29 at a concrete input: child 4242 ends during the second poll. -/
theorem C29_kill_sent_after_child_reaped_witness :
    (0 : Int) < 4242 ∧
    (UbuntuZoomRecorder.mainFinish [0, 4242, 0] ⟨4242, []⟩).calls
      = [Sys.waitpidNoHang 4242 0, Sys.waitpidNoHang 4242 4242, Sys.kill 4242,
         Sys.waitpidBlocking 4242,
         Sys.system "pactl unload-module module-null-sink 2>/dev/null",
         Sys.system "pactl unload-module module-loopback 2>/dev/null"] ∧
    noKillAfterReap (UbuntuZoomRecorder.mainFinish [0, 4242, 0] ⟨4242, []⟩).calls = false :=
  ⟨by decide, C29_kill_sent_after_child_reaped 4242 1 [0] (by decide)⟩

/-! ## C30: what `parseConfig` takes from a line -/

namespace StdString

/-- An occurrence of `pat` after `pre` is found, at that place or before. -/
theorem findIn_occurrence (pat rest : List Char) : ∀ (pre : List Char) (i : Nat),
    findIn pat (pre ++ (pat ++ rest)) i ≤ i + pre.length := by
  intro pre
  induction pre with
  | nil =>
    intro i
    simp only [List.nil_append, List.length_nil, Nat.add_zero]
    generalize hl : pat ++ rest = l
    cases l with
    | nil =>
      have hp : pat = [] := (List.append_eq_nil.mp hl).1
      simp [findIn, hp]
    | cons c cs =>
      have ht : (c :: cs).take pat.length = pat := by
        rw [← hl]
        exact List.take_left' rfl
      simp [findIn, ht]
  | cons x pre ih =>
    intro i
    have h := ih (i + 1)
    have e : findIn pat (x :: (pre ++ (pat ++ rest))) i
        = if (x :: (pre ++ (pat ++ rest))).take pat.length = pat then i
          else findIn pat (pre ++ (pat ++ rest)) (i + 1) := rfl
    rw [List.cons_append, e, List.length_cons]
    split
    · omega
    · omega

/-- The first occurrence of a character that the part before it does not
hold is right after that part. -/
theorem findIn_single (c : Char) (rest : List Char) : ∀ (a : List Char) (i : Nat),
    c ∉ a → findIn [c] (a ++ c :: rest) i = i + a.length := by
  intro a
  induction a with
  | nil =>
    intro i _
    simp [findIn]
  | cons x a ih =>
    intro i hx
    have hxc : ¬ x = c := fun e => hx (by simp [e])
    have ha : c ∉ a := fun e => hx (List.mem_cons_of_mem _ e)
    have e : findIn [c] (x :: (a ++ c :: rest)) i = findIn [c] (a ++ c :: rest) (i + 1) := by
      rw [findIn]
      simp [hxc]
    rw [List.cons_append, e, ih (i + 1) ha, List.length_cons]
    omega

/-- The three shared statements on a line that has, after a part without
colon, a colon, one space and a value between double quotes. -/
theorem value_of_line (head V suf : List Char) (hc : ':' ∉ head) (hq : '"' ∉ V)
    (hlen : (head ++ ([':', ' ', '"'] ++ (V ++ '"' :: suf))).length + 3 < U64) :
    value (head ++ ([':', ' ', '"'] ++ (V ++ '"' :: suf))) = some V := by
  have hU : U64 = 18446744073709551616 := rfl
  simp only [List.length_append, List.length_cons, List.length_nil] at hlen
  have h1 : find (head ++ ([':', ' ', '"'] ++ (V ++ '"' :: suf))) [':'] 0 = head.length := by
    have := findIn_single ':' ([' ', '"'] ++ (V ++ '"' :: suf)) head 0 hc
    simpa [find] using this
  have hd : (head ++ ([':', ' ', '"'] ++ (V ++ '"' :: suf))).drop (head.length + 3)
      = V ++ '"' :: suf := by
    have e : head ++ ([':', ' ', '"'] ++ (V ++ '"' :: suf))
        = (head ++ [':', ' ', '"']) ++ (V ++ '"' :: suf) := by simp
    rw [e]
    exact List.drop_left' (by simp)
  have h2 : find (head ++ ([':', ' ', '"'] ++ (V ++ '"' :: suf))) ['"'] (head.length + 3)
      = head.length + 3 + V.length := by
    have hle : head.length + 3 ≤ (head ++ ([':', ' ', '"'] ++ (V ++ '"' :: suf))).length := by
      simp only [List.length_append, List.length_cons, List.length_nil]
      omega
    simp only [find, hle, if_true, hd]
    exact findIn_single '"' suf V (head.length + 3) hq
  have e1 : (head.length + 2) % U64 = head.length + 2 := Nat.mod_eq_of_lt (by omega)
  have e2 : (head.length + 2 + 1) % U64 = head.length + 3 := Nat.mod_eq_of_lt (by omega)
  have e3 : (head.length + 3 + V.length + U64 - (head.length + 2) + U64 - 1) % U64
      = V.length := by
    have : head.length + 3 + V.length + U64 - (head.length + 2) + U64 - 1
        = V.length + 2 * U64 := by omega
    rw [this, Nat.add_mul_mod_self_right, Nat.mod_eq_of_lt (by omega)]
  have hgt : ¬ head.length + 3 > (head ++ ([':', ' ', '"'] ++ (V ++ '"' :: suf))).length := by
    simp only [List.length_append, List.length_cons, List.length_nil]
    omega
  simp only [value, h1, e1, e2, h2, e3, substr, hgt, if_false, hd]
  simp

end StdString

namespace HybridZoomBot

/-- The loop over a list of lines in two parts. -/
theorem hybrid_parseLines_append (a b : List (List Char)) : ∀ c : Config,
    parseLines c (a ++ b) = (parseLines c a).bind (fun c1 => parseLines c1 b) := by
  induction a with
  | nil => intro c; rfl
  | cons x a ih =>
    intro c
    have e : parseLines c (x :: (a ++ b))
        = match parseLine c x with
          | none => none
          | some c1 => parseLines c1 (a ++ b) := rfl
    have e2 : parseLines c (x :: a)
        = match parseLine c x with
          | none => none
          | some c1 => parseLines c1 a := rfl
    rw [List.cons_append, e, e2]
    cases parseLine c x with
    | none => rfl
    | some c1 => exact ih c1

/-- The loop on a first line that parses. -/
theorem hybrid_parseLines_cons (c c1 : Config) (x : List Char) (l : List (List Char))
    (h : parseLine c x = some c1) : parseLines c (x :: l) = parseLines c1 l := by
  have e : parseLines c (x :: l)
      = match parseLine c x with
        | none => none
        | some c2 => parseLines c2 l := rfl
  rw [e, h]

/-- An index with a key is below the number of keys. -/
theorem hybrid_keys_index (i : Nat) (key : String) (hk : keys[i]? = some key) : i < 5 := by
  by_contra hi
  have hl : keys.length = 5 := rfl
  have hn : keys[i]? = none := List.getElem?_eq_none (by omega)
  rw [hn] at hk
  cases hk

/-- Reading back the field that was just replaced. -/
theorem hybrid_get_set (c : Config) (i : Nat) (v : List Char) (hi : i < 5) :
    (c.set i v).get i = v := by
  interval_cases i <;> rfl

/-- A line in which the key of branch `i` is not found leaves the field of
that branch as it was. -/
theorem hybrid_parseLine_get (i : Nat) (key : String) (hk : keys[i]? = some key)
    (c c1 : Config) (l : List Char)
    (hnf : StdString.find l (StdString.quoted key) 0 = StdString.npos)
    (h : parseLine c l = some c1) : c1.get i = c.get i := by
  have hi := hybrid_keys_index i key hk
  interval_cases i <;>
  · obtain rfl : _ = key := by simpa [keys] using hk
    simp only [parseLine] at h
    split_ifs at h <;>
      first
      | exact absurd hnf ‹_›
      | (obtain ⟨v, _, rfl⟩ := Option.map_eq_some'.mp h; rfl)
      | (cases h; rfl)

/-- Lines in which the key of branch `i` is not found leave the field of that
branch as it was. -/
theorem hybrid_parseLines_get (i : Nat) (key : String) (hk : keys[i]? = some key) :
    ∀ (after : List (List Char)) (c c1 : Config),
    (∀ l ∈ after, StdString.find l (StdString.quoted key) 0 = StdString.npos) →
    parseLines c after = some c1 → c1.get i = c.get i := by
  intro after
  induction after with
  | nil =>
    intro c c1 _ h
    cases h
    rfl
  | cons x after ih =>
    intro c c1 hall h
    have e : parseLines c (x :: after)
        = match parseLine c x with
          | none => none
          | some c2 => parseLines c2 after := rfl
    rw [e] at h
    cases hx : parseLine c x with
    | none => rw [hx] at h; cases h
    | some c2 =>
      rw [hx] at h
      have h1 := hybrid_parseLine_get i key hk c c2 x (hall x (List.mem_cons_self _ _)) hx
      have h2 := ih c2 c1 (fun l hl => hall l (List.mem_cons_of_mem _ hl)) h
      rw [h2, h1]

/-- A line of the shape key, colon, space, quoted value, in which no key of
an earlier branch is found: the branch of the key assigns the value. -/
theorem hybrid_parseLine_sets (line pre V suf : List Char) (key : String) (i : Nat)
    (hline : line = pre ++ StdString.quoted key ++ [':', ' ', '"'] ++ V ++ ['"'] ++ suf)
    (hpre : ':' ∉ pre) (hV : '"' ∉ V) (hlen : line.length + 3 < U64)
    (hk : keys[i]? = some key)
    (hearlier : ∀ j < i, ∀ k, keys[j]? = some k →
      StdString.find line (StdString.quoted k) 0 = StdString.npos)
    (config : Config) : parseLine config line = some (config.set i V) := by
  have hi := hybrid_keys_index i key hk
  have hU : U64 = 18446744073709551616 := rfl
  have e : line = (pre ++ StdString.quoted key) ++ ([':', ' ', '"'] ++ (V ++ '"' :: suf)) := by
    rw [hline]; simp
  have hfound : StdString.find line (StdString.quoted key) 0 ≠ StdString.npos := by
    have e2 : line = pre ++ (StdString.quoted key ++ ([':', ' ', '"'] ++ (V ++ '"' :: suf))) := by
      rw [hline]; simp
    have hb := StdString.findIn_occurrence (StdString.quoted key)
      ([':', ' ', '"'] ++ (V ++ '"' :: suf)) pre 0
    rw [← e2] at hb
    have hl : pre.length ≤ line.length := by
      rw [e2, List.length_append]; omega
    have hf : StdString.find line (StdString.quoted key) 0
        = StdString.findIn (StdString.quoted key) line 0 := by
      simp [StdString.find]
    rw [hf]
    simp only [StdString.npos]
    omega
  have hval : ':' ∉ StdString.quoted key → StdString.value line = some V := by
    intro hq
    have hc : ':' ∉ pre ++ StdString.quoted key := by
      intro hm
      rcases List.mem_append.mp hm with h | h
      · exact hpre h
      · exact hq h
    have hlen2 := hlen
    rw [e] at hlen2 ⊢
    exact StdString.value_of_line (pre ++ StdString.quoted key) V suf hc hV hlen2
  have n0 : 0 < i → StdString.find line (StdString.quoted "meetingNumber") 0
      = StdString.npos := fun h => hearlier 0 h "meetingNumber" rfl
  have n1 : 1 < i → StdString.find line (StdString.quoted "userName") 0
      = StdString.npos := fun h => hearlier 1 h "userName" rfl
  have n2 : 2 < i → StdString.find line (StdString.quoted "audioFile") 0
      = StdString.npos := fun h => hearlier 2 h "audioFile" rfl
  have n3 : 3 < i → StdString.find line (StdString.quoted "sessionId") 0
      = StdString.npos := fun h => hearlier 3 h "sessionId" rfl
  interval_cases i <;>
  · obtain rfl : _ = key := by simpa [keys] using hk
    have hv := hval (by decide)
    simp only [parseLine]
    first
    | (rw [if_pos hfound, hv]; rfl)
    | (rw [if_neg (not_not.mpr (n0 (by omega))), if_pos hfound, hv]; rfl)
    | (rw [if_neg (not_not.mpr (n0 (by omega))), if_neg (not_not.mpr (n1 (by omega))),
           if_pos hfound, hv]; rfl)
    | (rw [if_neg (not_not.mpr (n0 (by omega))), if_neg (not_not.mpr (n1 (by omega))),
           if_neg (not_not.mpr (n2 (by omega))), if_pos hfound, hv]; rfl)
    | (rw [if_neg (not_not.mpr (n0 (by omega))), if_neg (not_not.mpr (n1 (by omega))),
           if_neg (not_not.mpr (n2 (by omega))), if_neg (not_not.mpr (n3 (by omega))),
           if_pos hfound, hv]; rfl)

end HybridZoomBot

namespace SimpleBot

/-- The loop over a list of lines in two parts. -/
theorem simple_parseLines_append (a b : List (List Char)) : ∀ c : Config,
    parseLines c (a ++ b) = (parseLines c a).bind (fun c1 => parseLines c1 b) := by
  induction a with
  | nil => intro c; rfl
  | cons x a ih =>
    intro c
    have e : parseLines c (x :: (a ++ b))
        = match parseLine c x with
          | none => none
          | some c1 => parseLines c1 (a ++ b) := rfl
    have e2 : parseLines c (x :: a)
        = match parseLine c x with
          | none => none
          | some c1 => parseLines c1 a := rfl
    rw [List.cons_append, e, e2]
    cases parseLine c x with
    | none => rfl
    | some c1 => exact ih c1

/-- The loop on a first line that parses. -/
theorem simple_parseLines_cons (c c1 : Config) (x : List Char) (l : List (List Char))
    (h : parseLine c x = some c1) : parseLines c (x :: l) = parseLines c1 l := by
  have e : parseLines c (x :: l)
      = match parseLine c x with
        | none => none
        | some c2 => parseLines c2 l := rfl
  rw [e, h]

/-- An index with a key is below the number of keys. -/
theorem simple_keys_index (i : Nat) (key : String) (hk : keys[i]? = some key) : i < 4 := by
  by_contra hi
  have hl : keys.length = 4 := rfl
  have hn : keys[i]? = none := List.getElem?_eq_none (by omega)
  rw [hn] at hk
  cases hk

/-- Reading back the field that was just replaced. -/
theorem simple_get_set (c : Config) (i : Nat) (v : List Char) (hi : i < 4) :
    (c.set i v).get i = v := by
  interval_cases i <;> rfl

/-- A line in which the key of branch `i` is not found leaves the field of
that branch as it was. -/
theorem simple_parseLine_get (i : Nat) (key : String) (hk : keys[i]? = some key)
    (c c1 : Config) (l : List Char)
    (hnf : StdString.find l (StdString.quoted key) 0 = StdString.npos)
    (h : parseLine c l = some c1) : c1.get i = c.get i := by
  have hi := simple_keys_index i key hk
  interval_cases i <;>
  · obtain rfl : _ = key := by simpa [keys] using hk
    simp only [parseLine] at h
    split_ifs at h <;>
      first
      | exact absurd hnf ‹_›
      | (obtain ⟨v, _, rfl⟩ := Option.map_eq_some'.mp h; rfl)
      | (cases h; rfl)

/-- Lines in which the key of branch `i` is not found leave the field of that
branch as it was. -/
theorem simple_parseLines_get (i : Nat) (key : String) (hk : keys[i]? = some key) :
    ∀ (after : List (List Char)) (c c1 : Config),
    (∀ l ∈ after, StdString.find l (StdString.quoted key) 0 = StdString.npos) →
    parseLines c after = some c1 → c1.get i = c.get i := by
  intro after
  induction after with
  | nil =>
    intro c c1 _ h
    cases h
    rfl
  | cons x after ih =>
    intro c c1 hall h
    have e : parseLines c (x :: after)
        = match parseLine c x with
          | none => none
          | some c2 => parseLines c2 after := rfl
    rw [e] at h
    cases hx : parseLine c x with
    | none => rw [hx] at h; cases h
    | some c2 =>
      rw [hx] at h
      have h1 := simple_parseLine_get i key hk c c2 x (hall x (List.mem_cons_self _ _)) hx
      have h2 := ih c2 c1 (fun l hl => hall l (List.mem_cons_of_mem _ hl)) h
      rw [h2, h1]

/-- A line of the shape key, colon, space, quoted value, in which no key of
an earlier branch is found: the branch of the key assigns the value. -/
theorem simple_parseLine_sets (line pre V suf : List Char) (key : String) (i : Nat)
    (hline : line = pre ++ StdString.quoted key ++ [':', ' ', '"'] ++ V ++ ['"'] ++ suf)
    (hpre : ':' ∉ pre) (hV : '"' ∉ V) (hlen : line.length + 3 < U64)
    (hk : keys[i]? = some key)
    (hearlier : ∀ j < i, ∀ k, keys[j]? = some k →
      StdString.find line (StdString.quoted k) 0 = StdString.npos)
    (config : Config) : parseLine config line = some (config.set i V) := by
  have hi := simple_keys_index i key hk
  have hU : U64 = 18446744073709551616 := rfl
  have e : line = (pre ++ StdString.quoted key) ++ ([':', ' ', '"'] ++ (V ++ '"' :: suf)) := by
    rw [hline]; simp
  have hfound : StdString.find line (StdString.quoted key) 0 ≠ StdString.npos := by
    have e2 : line = pre ++ (StdString.quoted key ++ ([':', ' ', '"'] ++ (V ++ '"' :: suf))) := by
      rw [hline]; simp
    have hb := StdString.findIn_occurrence (StdString.quoted key)
      ([':', ' ', '"'] ++ (V ++ '"' :: suf)) pre 0
    rw [← e2] at hb
    have hl : pre.length ≤ line.length := by
      rw [e2, List.length_append]; omega
    have hf : StdString.find line (StdString.quoted key) 0
        = StdString.findIn (StdString.quoted key) line 0 := by
      simp [StdString.find]
    rw [hf]
    simp only [StdString.npos]
    omega
  have hval : ':' ∉ StdString.quoted key → StdString.value line = some V := by
    intro hq
    have hc : ':' ∉ pre ++ StdString.quoted key := by
      intro hm
      rcases List.mem_append.mp hm with h | h
      · exact hpre h
      · exact hq h
    have hlen2 := hlen
    rw [e] at hlen2 ⊢
    exact StdString.value_of_line (pre ++ StdString.quoted key) V suf hc hV hlen2
  have n0 : 0 < i → StdString.find line (StdString.quoted "meetingNumber") 0
      = StdString.npos := fun h => hearlier 0 h "meetingNumber" rfl
  have n1 : 1 < i → StdString.find line (StdString.quoted "userName") 0
      = StdString.npos := fun h => hearlier 1 h "userName" rfl
  have n2 : 2 < i → StdString.find line (StdString.quoted "audioFile") 0
      = StdString.npos := fun h => hearlier 2 h "audioFile" rfl
  interval_cases i <;>
  · obtain rfl : _ = key := by simpa [keys] using hk
    have hv := hval (by decide)
    simp only [parseLine]
    first
    | (rw [if_pos hfound, hv]; rfl)
    | (rw [if_neg (not_not.mpr (n0 (by omega))), if_pos hfound, hv]; rfl)
    | (rw [if_neg (not_not.mpr (n0 (by omega))), if_neg (not_not.mpr (n1 (by omega))),
           if_pos hfound, hv]; rfl)
    | (rw [if_neg (not_not.mpr (n0 (by omega))), if_neg (not_not.mpr (n1 (by omega))),
           if_neg (not_not.mpr (n2 (by omega))), if_pos hfound, hv]; rfl)

end SimpleBot

/-- A whole file through `parseConfig`: three lines, the last without
newline, the key `meetingNumber` on two of them; the later value stays. -/
theorem parseConfig_example :
    HybridZoomBot.parseConfig
        "\"meetingNumber\": \"1\"\n\"userName\": \"bot\"\n\"meetingNumber\": \"22\"".toList
        (some "k".toList) (some "s".toList)
      = some { HybridZoomBot.Config.empty with meetingNumber := "22".toList,
                                               userName := "bot".toList,
                                               apiKey := "k".toList,
                                               apiSecret := "s".toList } ∧
    SimpleBot.parseConfig
        "\"meetingNumber\": \"1\"\n\"userName\": \"bot\"\n\"meetingNumber\": \"22\"".toList
      = some { SimpleBot.Config.empty with meetingNumber := "22".toList,
                                           userName := "bot".toList } ∧
    HybridZoomBot.parseConfig "\"password\":".toList none none = none := by
  refine ⟨by decide, by decide, by decide⟩

/-- C30 (as stated, refuted): a line made of the key `"userName"`, a colon,
one space and the quoted value `bob`, followed by a suffix that holds the key
`"meetingNumber"`. The first test of the chain finds `"meetingNumber"`, so
both parsers assign `bob` to `meetingNumber` and leave `userName` empty. -/
theorem C30_earlier_key_in_suffix_counterexample :
    HybridZoomBot.parseLine HybridZoomBot.Config.empty
        ([] ++ StdString.quoted "userName" ++ [':', ' ', '"'] ++ "bob".toList ++ ['"']
          ++ ", \"meetingNumber\": \"1\"".toList)
      = some { HybridZoomBot.Config.empty with meetingNumber := "bob".toList } ∧
    SimpleBot.parseLine SimpleBot.Config.empty
        ([] ++ StdString.quoted "userName" ++ [':', ' ', '"'] ++ "bob".toList ++ ['"']
          ++ ", \"meetingNumber\": \"1\"".toList)
      = some { SimpleBot.Config.empty with meetingNumber := "bob".toList } ∧
    (HybridZoomBot.Config.empty.set 1 "bob".toList).userName = "bob".toList ∧
    HybridZoomBot.keys[1]? = some "userName" ∧ SimpleBot.keys[1]? = some "userName" := by
  refine ⟨by decide, by decide, by decide, by decide, by decide⟩

/-- C30 (amended): let `line` be a part without colon, then the quoted key of
branch `i` of the `else if` chain, a colon, one space, a value `V` without
double quote between double quotes, then anything, and let no key of an
earlier branch of the chain be found in `line` (strings are shorter than
`2^64 - 3`). Then, in hybrid_zoom_bot and in simple_bot, the loop body
assigns exactly `V` to the field of the key; after any earlier lines the
field is `V`; and it is still `V` at the end when the later lines do not
hold the key: the last line with the key wins. -/
theorem C30_line_sets_field_unless_earlier_key (line pre V suf : List Char) (key : String)
    (i : Nat)
    (hline : line = pre ++ StdString.quoted key ++ [':', ' ', '"'] ++ V ++ ['"'] ++ suf)
    (hpre : ':' ∉ pre) (hV : '"' ∉ V) (hlen : line.length + 3 < U64) :
    (HybridZoomBot.keys[i]? = some key →
      (∀ j < i, ∀ k, HybridZoomBot.keys[j]? = some k →
        StdString.find line (StdString.quoted k) 0 = StdString.npos) →
      (∀ config : HybridZoomBot.Config,
        HybridZoomBot.parseLine config line = some (config.set i V) ∧
        (config.set i V).get i = V) ∧
      (∀ (c0 cb : HybridZoomBot.Config) (before : List (List Char)),
        HybridZoomBot.parseLines c0 before = some cb →
        HybridZoomBot.parseLines c0 (before ++ [line]) = some (cb.set i V)) ∧
      (∀ (c0 cf : HybridZoomBot.Config) (before after : List (List Char)),
        HybridZoomBot.parseLines c0 (before ++ line :: after) = some cf →
        (∀ l ∈ after, StdString.find l (StdString.quoted key) 0 = StdString.npos) →
        cf.get i = V)) ∧
    (SimpleBot.keys[i]? = some key →
      (∀ j < i, ∀ k, SimpleBot.keys[j]? = some k →
        StdString.find line (StdString.quoted k) 0 = StdString.npos) →
      (∀ config : SimpleBot.Config,
        SimpleBot.parseLine config line = some (config.set i V) ∧
        (config.set i V).get i = V) ∧
      (∀ (c0 cb : SimpleBot.Config) (before : List (List Char)),
        SimpleBot.parseLines c0 before = some cb →
        SimpleBot.parseLines c0 (before ++ [line]) = some (cb.set i V)) ∧
      (∀ (c0 cf : SimpleBot.Config) (before after : List (List Char)),
        SimpleBot.parseLines c0 (before ++ line :: after) = some cf →
        (∀ l ∈ after, StdString.find l (StdString.quoted key) 0 = StdString.npos) →
        cf.get i = V)) := by
  constructor
  · intro hk hearlier
    have hi := HybridZoomBot.hybrid_keys_index i key hk
    have hset := HybridZoomBot.hybrid_parseLine_sets line pre V suf key i hline hpre hV hlen hk
      hearlier
    refine ⟨fun config => ⟨hset config, HybridZoomBot.hybrid_get_set config i V hi⟩, ?_, ?_⟩
    · intro c0 cb before hb
      rw [HybridZoomBot.hybrid_parseLines_append, hb, Option.some_bind,
        HybridZoomBot.hybrid_parseLines_cons cb _ line [] (hset cb)]
      rfl
    · intro c0 cf before after h hall
      rw [HybridZoomBot.hybrid_parseLines_append] at h
      cases hb : HybridZoomBot.parseLines c0 before with
      | none => rw [hb] at h; cases h
      | some cb =>
        rw [hb] at h
        rw [Option.some_bind, HybridZoomBot.hybrid_parseLines_cons cb _ line after (hset cb)] at h
        rw [HybridZoomBot.hybrid_parseLines_get i key hk after _ cf hall h]
        exact HybridZoomBot.hybrid_get_set cb i V hi
  · intro hk hearlier
    have hi := SimpleBot.simple_keys_index i key hk
    have hset := SimpleBot.simple_parseLine_sets line pre V suf key i hline hpre hV hlen hk
      hearlier
    refine ⟨fun config => ⟨hset config, SimpleBot.simple_get_set config i V hi⟩, ?_, ?_⟩
    · intro c0 cb before hb
      rw [SimpleBot.simple_parseLines_append, hb, Option.some_bind,
        SimpleBot.simple_parseLines_cons cb _ line [] (hset cb)]
      rfl
    · intro c0 cf before after h hall
      rw [SimpleBot.simple_parseLines_append] at h
      cases hb : SimpleBot.parseLines c0 before with
      | none => rw [hb] at h; cases h
      | some cb =>
        rw [hb] at h
        rw [Option.some_bind, SimpleBot.simple_parseLines_cons cb _ line after (hset cb)] at h
        rw [SimpleBot.simple_parseLines_get i key hk after _ cf hall h]
        exact SimpleBot.simple_get_set cb i V hi

/-- C30 (amended) at a concrete input: the line `  "audioFile": "a.wav",`
after a line that set `audioFile` to `old`; the field ends as `a.wav`. -/
theorem C30_line_sets_field_unless_earlier_key_witness :
    HybridZoomBot.parseLine
        { HybridZoomBot.Config.empty with audioFile := "old".toList }
        "  \"audioFile\": \"a.wav\",".toList
      = some ({ HybridZoomBot.Config.empty with audioFile := "old".toList }.set 2
          "a.wav".toList) ∧
    ({ HybridZoomBot.Config.empty with audioFile := "old".toList }.set 2
        "a.wav".toList).get 2 = "a.wav".toList :=
  ((C30_line_sets_field_unless_earlier_key "  \"audioFile\": \"a.wav\",".toList
      "  ".toList "a.wav".toList ",".toList "audioFile" 2 (by decide) (by decide) (by decide)
      (by decide)).1 (by decide)
    (by
      intro j hj k hk
      interval_cases j
      · obtain rfl : "meetingNumber" = k := by simpa [HybridZoomBot.keys] using hk
        decide
      · obtain rfl : "userName" = k := by simpa [HybridZoomBot.keys] using hk
        decide)).1
    { HybridZoomBot.Config.empty with audioFile := "old".toList }

/-! ## The `join` of the hybrid `stopRecording` ends -/

namespace ZoomAudioRecorder

/-- With the flag cleared, a step of a thread that has not returned lowers
the bound, keeps the flag cleared and the thread started. -/
theorem joinSteps_writerStep {σ : Type} (sample : Nat → σ → Int × σ) (fileOpens : Bool)
    (waitpid : Int) (s : State σ) (hr : s.recording = false) (h0 : s.pc ≠ Pc.notStarted)
    (h1 : s.pc ≠ Pc.returned) :
    joinSteps (writerStep sample fileOpens waitpid s) < joinSteps s ∧
    (writerStep sample fileOpens waitpid s).recording = false ∧
    (writerStep sample fileOpens waitpid s).pc ≠ Pc.notStarted := by
  obtain ⟨q, r, ts, pid, p1, p2, sub, tOff, g, pc, file, total⟩ := s
  simp only at hr h0 h1
  subst hr
  cases pc with
  | notStarted => exact absurd rfl h0
  | returned => exact absurd rfl h1
  | entry =>
    by_cases hp : pid > 0
    · simp [writerStep, joinSteps, hp]
    · cases fileOpens <;> simp [writerStep, joinSteps, hp]
  | monitor => simp [writerStep, joinSteps]
  | loopHead =>
    cases q with
    | nil => simp [writerStep, joinSteps]
    | cons fr rest =>
      simp only [writerStep, joinSteps, List.isEmpty_cons, Bool.not_false, Bool.or_true,
        if_true, List.length_cons]
      refine ⟨by omega, trivial, by simp⟩
  | holding fr =>
    cases file <;> simp [writerStep, joinSteps]

/-- A thread that has returned stays so. -/
theorem writerSteps_returned {σ : Type} (sample : Nat → σ → Int × σ) (fileOpens : Bool)
    (waitpid : Int) (n : Nat) : ∀ s : State σ, s.pc = Pc.returned →
    (writerSteps sample fileOpens waitpid n s).pc = Pc.returned := by
  induction n with
  | zero => intro s h; exact h
  | succ n ih =>
    intro s h
    have e : writerStep sample fileOpens waitpid s = s := by
      unfold writerStep
      rw [h]
    simp only [writerSteps, e]
    exact ih s h

/-- With the flag cleared, the thread returns within the bound. -/
theorem writerSteps_join {σ : Type} (sample : Nat → σ → Int × σ) (fileOpens : Bool)
    (waitpid : Int) (n : Nat) : ∀ s : State σ, s.recording = false → s.pc ≠ Pc.notStarted →
    joinSteps s ≤ n → (writerSteps sample fileOpens waitpid n s).pc = Pc.returned := by
  induction n with
  | zero =>
    intro s hr h0 hn
    obtain ⟨q, r, ts, pid, p1, p2, sub, tOff, g, pc, file, total⟩ := s
    cases pc <;> simp_all [joinSteps, writerSteps]
  | succ n ih =>
    intro s hr h0 hn
    by_cases h1 : s.pc = Pc.returned
    · exact writerSteps_returned sample fileOpens waitpid (n + 1) s h1
    · have k := joinSteps_writerStep sample fileOpens waitpid s hr h0 h1
      simp only [writerSteps]
      exact ih _ k.2.1 k.2.2 (by omega)

/-- The `join` of `stopRecording` ends: called on a recording recorder whose
thread was started, `stopRecording` leaves the thread returned, the flag
cleared and the thread object no longer joinable. -/
theorem stopRecording_joined {σ : Type} (sample : Nat → σ → Int × σ)
    (fileOpens sdk_stop_audio_recording : Bool) (s : State σ) (hr : s.recording = true)
    (ht : s.threadStarted = true) (h0 : s.pc ≠ Pc.notStarted) :
    (stopRecording sample fileOpens sdk_stop_audio_recording s).1.pc = Pc.returned ∧
    (stopRecording sample fileOpens sdk_stop_audio_recording s).1.threadStarted = false := by
  obtain ⟨q, r, ts, pid, p1, p2, sub, tOff, g, pc, file, total⟩ := s
  simp only at hr ht h0
  subst hr ht
  have hb : ∀ t : State σ, joinSteps t ≤ joinFuel t := by
    intro t
    obtain ⟨q2, r2, ts2, pid2, p12, p22, sub2, tOff2, g2, pc2, file2, total2⟩ := t
    cases pc2 <;> simp [joinSteps, joinFuel]
  by_cases hp : pid > 0
  · have e := writerSteps_join sample fileOpens 0
      (joinFuel (⟨q, false, true, 0, p1, p2, sub, tOff, g, pc, file, total⟩ : State σ))
      ⟨q, false, true, 0, p1, p2, sub, tOff, g, pc, file, total⟩ rfl h0 (hb _)
    simp [stopRecording, hp, e]
  · have e := writerSteps_join sample fileOpens 0
      (joinFuel (⟨q, false, true, pid, p1, p2, sub, tOff, g, pc, file, total⟩ : State σ))
      ⟨q, false, true, pid, p1, p2, sub, tOff, g, pc, file, total⟩ rfl h0 (hb _)
    simp [stopRecording, hp, e]

end ZoomAudioRecorder
